import Mathlib

/-!
# EduSphere: recommendation, payload-editing and streaming core

A shallow embedding of the Go handlers under `server/api` together with the
properties the specification states about them.

Conventions of the embedding.

* Go strings are modelled as Lean `String`s (sequences of code points); the
  handlers only ever receive text that went through a JSON decoder or a
  database text column, so byte equality and string equality coincide. The
  length `len(s)` is the number of bytes of the UTF-8 encoding
  (`String.utf8ByteSize`). A slice expression `s[:n]` that ends inside a
  character leaves bytes that are no text; such a byte is kept as a stand-in
  code point (`strayByte`), so that the string still tells which bytes it has.
* Finite `float64` values are modelled by the rational number they denote;
  JSON cannot carry NaN or infinities.
* `int64` values are modelled by `Int`, the JSON decoder rejects literals out
  of the 64-bit range.
* A Go slice is `Option (List α)`: `none` is the nil slice, `some []` the empty
  non-nil slice. The two differ once marshalled (`null` against `[]`).
* Library routines whose tables are outside the repository (Unicode case
  mapping, decimal to binary floating point conversion) are fields of `Lib`.
* The persistence collaborator and the inference endpoint are oracles of one
  request; every handler returns its response together with the ordered list of
  external calls it made.
-/

namespace EduSphere

/-! ## Library parameters -/

/-- Library routines taken as parameters: `strings.ToUpper`, `strings.ToLower`,
`strconv.ParseFloat(_, 64)` (the result seen as an exact rational, `none` on a
range error), the text `json.Marshal` produces for a Go string, the step
`xorshift.Next` of the pseudo-random generator of package `sort` (a map on 64-bit
words whose shift constants are the library's), and the text `fmt` prints for a
`float64` under the verb `%.0f`. -/
structure Lib where
  ToUpper : String → String
  ToLower : String → String
  ParseFloat : String → Option Rat
  MarshalString : String → String
  Xorshift : Nat → Nat
  FormatFixed0 : Rat → String

/-! ## strings -/

/-- The predicate `unicode.IsSpace`. -/
def isSpace (c : Char) : Bool :=
  c == ' ' || c == '\t' || c == '\n' || c == '\r' || c.toNat == 0x0B || c.toNat == 0x0C ||
  c.toNat == 0x85 || c.toNat == 0xA0 || c.toNat == 0x1680 ||
  (0x2000 ≤ c.toNat && c.toNat ≤ 0x200A) || c.toNat == 0x2028 || c.toNat == 0x2029 ||
  c.toNat == 0x202F || c.toNat == 0x205F || c.toNat == 0x3000

/-- Drop leading white space. -/
def trimLeft : List Char → List Char
  | [] => []
  | c :: cs => if isSpace c then trimLeft cs else c :: cs

/-- The function `strings.TrimSpace`. -/
def TrimSpace (s : String) : String :=
  ⟨(trimLeft (trimLeft s.data).reverse).reverse⟩

/-- The function `strings.HasPrefix` on character lists. -/
def startsWith : List Char → List Char → Bool
  | _, [] => true
  | [], _ :: _ => false
  | c :: cs, p :: ps => c == p && startsWith cs ps

/-- The function `strings.TrimPrefix`. -/
def TrimPrefix (s pre : String) : String :=
  if startsWith s.data pre.data then ⟨s.data.drop pre.data.length⟩ else s

/-- The bytes of the UTF-8 encoding of a character. -/
def utf8Bytes (c : Char) : List Nat :=
  if c.toNat < 0x80 then [c.toNat]
  else if c.toNat < 0x800 then [0xC0 + c.toNat / 64, 0x80 + c.toNat % 64]
  else if c.toNat < 0x10000 then
    [0xE0 + c.toNat / 4096, 0x80 + c.toNat / 64 % 64, 0x80 + c.toNat % 64]
  else
    [0xF0 + c.toNat / 262144, 0x80 + c.toNat / 4096 % 64, 0x80 + c.toNat / 64 % 64,
      0x80 + c.toNat % 64]

/-- Stand-in for a byte that belongs to no character: the code point
`U+10FF00 + b` of the last private-use plane. It only arises where a slice
expression cuts a character in two. The text the handlers receive is taken not
to use these 256 code points; `json.Marshal`, through which every string cut
this way leaves the process, writes `\ufffd` for each such byte. -/
def strayByte (b : Nat) : Char := Char.ofNat (0x10FF00 + b)

/-- The slice expression `s[:n]` for `n` at most `len(s)`: the first `n` bytes.
Whole characters are kept; when the cut falls inside a character, the bytes of
that character before the cut follow as stray bytes. -/
def sliceBytes : Nat → List Char → List Char
  | _, [] => []
  | n, c :: cs =>
    if (utf8Bytes c).length ≤ n then c :: sliceBytes (n - (utf8Bytes c).length) cs
    else ((utf8Bytes c).take n).map strayByte

/-- The call `strings.ReplaceAll(s, "\n", "\\n")`: every newline becomes the two
characters backslash and `n`. -/
def escapeNewlines : List Char → List Char
  | [] => []
  | c :: cs => if c == '\n' then '\\' :: 'n' :: escapeNewlines cs else c :: escapeNewlines cs

/-! ## encoding/json: scanning -/

/-- White space between JSON tokens. -/
def isJsonSpace (c : Char) : Bool :=
  c == ' ' || c == '\t' || c == '\r' || c == '\n'

/-- Skip white space between JSON tokens. -/
def skipSpace : List Char → List Char
  | [] => []
  | c :: cs => if isJsonSpace c then skipSpace cs else c :: cs

/-- Value of a hexadecimal digit. -/
def hexVal (c : Char) : Option Nat :=
  if '0' ≤ c ∧ c ≤ '9' then some (c.toNat - 48)
  else if 'a' ≤ c ∧ c ≤ 'f' then some (c.toNat - 87)
  else if 'A' ≤ c ∧ c ≤ 'F' then some (c.toNat - 55)
  else none

/-- The helper `getu4`: the code unit written by `\uXXXX` at the head of the input. -/
def getu4 : List Char → Option Nat
  | '\\' :: 'u' :: a :: b :: c :: d :: _ =>
    match hexVal a, hexVal b, hexVal c, hexVal d with
    | some x, some y, some z, some w => some (((x * 16 + y) * 16 + z) * 16 + w)
    | _, _, _, _ => none
  | _ => none

/-- The replacement character U+FFFD. -/
def replacementChar : Char := Char.ofNat 0xFFFD

/-- The character written by a two-character escape (`\"`, `\\`, `\/`, `\b`,
`\f`, `\n`, `\r`, `\t`), by its second character. -/
def simpleEscape (e : Char) : Option Char :=
  if e == '"' then some '"'
  else if e == '\\' then some '\\'
  else if e == '/' then some '/'
  else if e == 'b' then some (Char.ofNat 8)
  else if e == 'f' then some (Char.ofNat 12)
  else if e == 'n' then some '\n'
  else if e == 'r' then some '\r'
  else if e == 't' then some '\t'
  else none

/-- Decoding of a `\u` escape at the head of the input whose code unit is `rr`:
the character it stands for and the number of input characters used (12 for a
valid surrogate pair, else 6; a lone surrogate decodes to U+FFFD). -/
def unicodeEscape (rr : Nat) (after : List Char) : Char × Nat :=
  if 0xD800 ≤ rr ∧ rr < 0xE000 then
    match getu4 after with
    | some rr1 =>
      if rr < 0xDC00 ∧ 0xDC00 ≤ rr1 ∧ rr1 < 0xE000 then
        (Char.ofNat (0x10000 + (rr - 0xD800) * 0x400 + (rr1 - 0xDC00)), 12)
      else (replacementChar, 6)
    | none => (replacementChar, 6)
  else (Char.ofNat rr, 6)

/-- Scan the body of a JSON string literal (the opening quote already consumed)
and unquote it; returns the decoded text and the input left after the closing
quote. Control characters and unknown escapes are syntax errors. -/
def scanString : Nat → List Char → List Char → Option (String × List Char)
  | 0, _, _ => none
  | fuel + 1, cs, acc =>
    match cs with
    | [] => none
    | c :: rest =>
      if c == '"' then some (⟨acc.reverse⟩, rest)
      else if c == '\\' then
        match rest with
        | [] => none
        | e :: rest2 =>
          if e == 'u' then
            match getu4 cs with
            | none => none
            | some rr =>
              scanString fuel (cs.drop (unicodeEscape rr (cs.drop 6)).2)
                ((unicodeEscape rr (cs.drop 6)).1 :: acc)
          else
            match simpleEscape e with
            | some d => scanString fuel rest2 (d :: acc)
            | none => none
      else if c.toNat < 0x20 then none
      else scanString fuel rest (c :: acc)

/-- Longest run of decimal digits at the head of the input. -/
def spanDigits : List Char → List Char × List Char
  | [] => ([], [])
  | c :: cs =>
    if c.isDigit then
      let r := spanDigits cs
      (c :: r.1, r.2)
    else ([], c :: cs)

/-- Optional minus sign of a number literal. -/
def scanSign : List Char → List Char × List Char
  | [] => ([], [])
  | c :: r => if c == '-' then ([c], r) else ([], c :: r)

/-- Optional fraction of a number literal: a dot and at least one digit. -/
def scanFraction : List Char → Option (List Char × List Char)
  | [] => some ([], [])
  | c :: r =>
    if c == '.' then
      if (spanDigits r).1.isEmpty then none else some (c :: (spanDigits r).1, (spanDigits r).2)
    else some ([], c :: r)

/-- Optional sign of an exponent. -/
def scanExpSign : List Char → List Char × List Char
  | [] => ([], [])
  | c :: r => if c == '+' || c == '-' then ([c], r) else ([], c :: r)

/-- Optional exponent of a number literal: `e` or `E`, an optional sign and at
least one digit. -/
def scanExponent : List Char → Option (List Char × List Char)
  | [] => some ([], [])
  | c :: r =>
    if c == 'e' || c == 'E' then
      if (spanDigits (scanExpSign r).2).1.isEmpty then none
      else some (c :: (scanExpSign r).1 ++ (spanDigits (scanExpSign r).2).1,
        (spanDigits (scanExpSign r).2).2)
    else some ([], c :: r)

/-- Scan a JSON number literal: `-? (0 | [1-9][0-9]*) (. [0-9]+)? ([eE] [+-]? [0-9]+)?`. -/
def scanNumber (cs : List Char) : Option (String × List Char) :=
  let sg := scanSign cs
  let ip := spanDigits sg.2
  if ip.1.isEmpty || (ip.1.length > 1 && ip.1.head? == some '0') then none
  else
    match scanFraction ip.2 with
    | none => none
    | some fr =>
      match scanExponent fr.2 with
      | none => none
      | some ex => some (⟨sg.1 ++ ip.1 ++ fr.1 ++ ex.1⟩, ex.2)

/-- A decoded JSON value. Numbers keep their literal; every object member keeps
the source text of its value (what a `json.RawMessage` destination receives). -/
inductive Json where
  | null
  | bool (b : Bool)
  | num (lit : String)
  | str (s : String)
  | arr (items : List Json)
  | obj (members : List (String × String × Json))

mutual
/-- Parse one JSON value at the head of the input. -/
def parseValue : Nat → List Char → Option (Json × List Char)
  | 0, _ => none
  | fuel + 1, cs =>
    match cs with
    | [] => none
    | c :: rest =>
      if c == '\x7b' then
        match skipSpace rest with
        | [] => none
        | d :: rest2 =>
          if d == '\x7d' then some (Json.obj [], rest2) else parseMembers fuel (d :: rest2) []
      else if c == '[' then
        match skipSpace rest with
        | [] => none
        | d :: rest2 =>
          if d == ']' then some (Json.arr [], rest2) else parseItems fuel (d :: rest2) []
      else if c == '"' then
        match scanString (rest.length + 1) rest [] with
        | some (s, r) => some (Json.str s, r)
        | none => none
      else if startsWith cs "true".data then some (Json.bool true, cs.drop 4)
      else if startsWith cs "false".data then some (Json.bool false, cs.drop 5)
      else if startsWith cs "null".data then some (Json.null, cs.drop 4)
      else
        match scanNumber cs with
        | some (lit, r) => some (Json.num lit, r)
        | none => none
/-- Parse the elements of a non-empty array, up to and including `]`. -/
def parseItems : Nat → List Char → List Json → Option (Json × List Char)
  | 0, _, _ => none
  | fuel + 1, cs, acc =>
    match parseValue fuel cs with
    | none => none
    | some (v, r) =>
      match skipSpace r with
      | [] => none
      | d :: r2 =>
        if d == ',' then parseItems fuel (skipSpace r2) (v :: acc)
        else if d == ']' then some (Json.arr (v :: acc).reverse, r2)
        else none
/-- Parse the members of a non-empty object, up to and including the closing brace. -/
def parseMembers : Nat → List Char → List (String × String × Json) → Option (Json × List Char)
  | 0, _, _ => none
  | fuel + 1, cs, acc =>
    match cs with
    | [] => none
    | q :: afterQuote =>
      if q == '"' then
        match scanString (afterQuote.length + 1) afterQuote [] with
        | none => none
        | some (key, r) =>
          match skipSpace r with
          | [] => none
          | colon :: r1 =>
            if colon == ':' then
              let vcs := skipSpace r1
              match parseValue fuel vcs with
              | none => none
              | some (v, r2) =>
                let raw : String := ⟨vcs.take (vcs.length - r2.length)⟩
                match skipSpace r2 with
                | [] => none
                | d :: r3 =>
                  if d == ',' then parseMembers fuel (skipSpace r3) ((key, raw, v) :: acc)
                  else if d == '\x7d' then some (Json.obj ((key, raw, v) :: acc).reverse, r3)
                  else none
            else none
      else none
end

/-- Parse a whole text: one value surrounded by optional white space. -/
def parseText (data : String) : Option Json :=
  match parseValue (2 * data.data.length + 2) (skipSpace data.data) with
  | some (v, r) => if (skipSpace r).isEmpty then some v else none
  | none => none

/-- The constant `maxNestingDepth` of the scanner. -/
def maxNestingDepth : Nat := 10000

/-- The deepest nesting of arrays and objects in a text: the largest number of
brackets and braces open at once outside string literals (the length the
`parseState` stack of the scanner reaches on a well-formed text). The flags
tell whether the scan is inside a string and right after a backslash. -/
def nestingDepth : Bool → Bool → Nat → Nat → List Char → Nat
  | _, _, _, deepest, [] => deepest
  | inStr, esc, depth, deepest, c :: cs =>
    if inStr then nestingDepth (esc || c != '"') (!esc && c == '\\') depth deepest cs
    else if c == '"' then nestingDepth true false depth deepest cs
    else if c == '[' || c == '\x7b' then
      nestingDepth false false (depth + 1) (max deepest (depth + 1)) cs
    else if c == ']' || c == '\x7d' then nestingDepth false false (depth - 1) deepest cs
    else nestingDepth false false depth deepest cs

/-- Parse a whole document (what `json.Unmarshal` accepts): one value surrounded
by optional white space, nested no deeper than `maxNestingDepth`. -/
def parseDoc (data : String) : Option Json :=
  if maxNestingDepth < nestingDepth false false 0 0 data.data then none else parseText data

/-! ## encoding/json: decoding into Go values -/

/-- A Go slice: `none` is the nil slice. -/
abbrev GoSlice (α : Type) := Option (List α)

/-- Elements of a slice (a nil slice has none). -/
def GoSlice.elems {α : Type} : GoSlice α → List α
  | none => []
  | some l => l

/-- The builtin `append(s, x)`: the result is never nil. -/
def GoSlice.append {α : Type} (s : GoSlice α) (x : α) : GoSlice α :=
  some (s.elems ++ [x])

/-- Case folding of one key character as `bytes.EqualFold` sees it against an
ASCII field name: ASCII letters, the long s (U+017F) and the Kelvin sign
(U+212A) fold onto capital ASCII letters. -/
def foldChar (c : Char) : Char :=
  if 'a' ≤ c ∧ c ≤ 'z' then Char.ofNat (c.toNat - 32)
  else if c.toNat == 0x17F then 'S'
  else if c.toNat == 0x212A then 'K'
  else c

/-- Whether a JSON key selects the struct field with the given (ASCII) name:
exact match or match under case folding. -/
def equalFold (name key : String) : Bool :=
  name.data.map foldChar == key.data.map foldChar

/-- Value of a run of decimal digits. -/
def digitsVal (ds : List Char) : Nat :=
  ds.foldl (fun n c => n * 10 + (c.toNat - 48)) 0

/-- The function `strconv.ParseInt(s, 10, 64)`. -/
def ParseInt (s : String) : Option Int :=
  let (neg, ds) := match s.data with
    | '-' :: r => (true, r)
    | '+' :: r => (false, r)
    | r => (false, r)
  if ds.isEmpty || !ds.all Char.isDigit then none
  else
    let n : Int := if neg then -(digitsVal ds : Int) else (digitsVal ds : Int)
    if -(2 : Int) ^ 63 ≤ n ∧ n < (2 : Int) ^ 63 then some n else none

/-- A decoder stores a JSON value into a destination and tells whether an
error was saved (`true`). As in `encoding/json`, a type mismatch leaves the
destination as it was and decoding goes on with the rest of the document. -/
abbrev Dec (α : Type) := Json → α → α × Bool

/-- Destination of type `string`. -/
def decString : Dec String
  | .str s, _ => (s, false)
  | .null, cur => (cur, false)
  | _, cur => (cur, true)

/-- Destination of type `int64`. -/
def decInt64 : Dec Int
  | .num lit, cur =>
    match ParseInt lit with
    | some n => (n, false)
    | none => (cur, true)
  | .null, cur => (cur, false)
  | _, cur => (cur, true)

/-- Destination of type `float64`. -/
def decFloat64 (L : Lib) : Dec Rat
  | .num lit, cur =>
    match L.ParseFloat lit with
    | some r => (r, false)
    | none => (cur, true)
  | .null, cur => (cur, false)
  | _, cur => (cur, true)

/-- The elements an array decodes to. Element `i` of the array is decoded into
the `i`-th of the values `old` (the elements the backing array of the
destination already holds, which `encoding/json` does not clear) and into a
fresh zero value beyond them. -/
def decElems {α : Type} (elem : Dec α) (zero : α) : List Json → List α → List (α × Bool)
  | [], _ => []
  | x :: xs, [] => elem x zero :: decElems elem zero xs []
  | x :: xs, o :: os => elem x o :: decElems elem zero xs os

/-- Destination of slice type, decoded by the method `array` of `decodeState`.
The destination is the slice together with the elements of its backing array
beyond its length (`spare`): element `i` is decoded into the element already at
index `i` (`v.Index(i)` after `v.SetLen(i + 1)`), whether that index was below
the length or only below the capacity; a shorter array truncates the slice
(`v.SetLen(i)`) and leaves the rest of the backing array as it is; an empty
array stores a new empty slice and `null` the nil slice, both without backing
array. The slice only grows when its length equals its capacity, so nothing of
the backing array is ever lost by growing. -/
def decSliceVar {α : Type} (elem : Dec α) (zero : α) : Dec (GoSlice α × List α)
  | .arr xs, cur =>
    ((some ((decElems elem zero xs (cur.1.elems ++ cur.2)).map Prod.fst),
      if xs.isEmpty then [] else (cur.1.elems ++ cur.2).drop xs.length),
     (decElems elem zero xs (cur.1.elems ++ cur.2)).any Prod.snd)
  | .null, _ => ((none, []), false)
  | _, cur => (cur, true)

/-- Destination of slice type whose capacity equals its length (a slice
variable that was never decoded into). -/
def decSlice {α : Type} (elem : Dec α) (zero : α) : Dec (GoSlice α) :=
  fun j cur => ((decSliceVar elem zero j (cur, [])).1.1, (decSliceVar elem zero j (cur, [])).2)

/-- One field of a struct destination: its JSON name and how a member (source
text and value) is stored into the struct. -/
structure Field (α : Type) where
  name : String
  store : String → Json → α → α × Bool

/-- Store one object member into a struct: the first field the key selects
receives it, a key selecting no field is skipped. -/
def storeMember {α : Type} (fields : List (Field α)) (acc : α × Bool)
    (m : String × String × Json) : α × Bool :=
  match fields.find? (fun f => equalFold f.name m.1) with
  | some f =>
    let r := f.store m.2.1 m.2.2 acc.1
    (r.1, acc.2 || r.2)
  | none => acc

/-- Destination of struct type: members are stored in document order, so a
repeated key overwrites. -/
def decStruct {α : Type} (fields : List (Field α)) : Dec α
  | .obj ms, cur => ms.foldl (storeMember fields) (cur, false)
  | .null, cur => (cur, false)
  | _, cur => (cur, true)

/-- A field of slice type. The struct is decoded together with the spare
elements of the backing array of that slice, which a repeated key reuses. -/
def Field.ofSlice {α β : Type} (name : String) (elem : Dec β) (zero : β)
    (get : α → GoSlice β) (set : α → GoSlice β → α) : Field (α × List β) :=
  ⟨name, fun _ j cur =>
    let r := decSliceVar elem zero j (get cur.1, cur.2)
    ((set cur.1 r.1.1, r.1.2), r.2)⟩

/-- A field of struct type whose struct holds a slice, decoded together with
the spare elements of that slice. -/
def Field.ofInner {α β σ : Type} (name : String) (d : Dec (β × σ)) (get : α → β)
    (set : α → β → α) : Field (α × σ) :=
  ⟨name, fun _ j cur =>
    let r := d j (get cur.1, cur.2)
    ((set cur.1 r.1.1, r.1.2), r.2)⟩

/-- A field that leaves the spare elements alone. -/
def Field.keepSpare {α σ : Type} (f : Field α) : Field (α × σ) :=
  ⟨f.name, fun raw j cur =>
    let r := f.store raw j cur.1
    ((r.1, cur.2), r.2)⟩

/-- A destination declared for one decoding: its slices have no spare elements
when the decoding starts, and what is left of them afterwards is dropped. -/
def freshSpare {α β : Type} (d : Dec (α × List β)) : Dec α :=
  fun j cur => ((d j (cur, [])).1.1, (d j (cur, [])).2)

/-- The function `json.Unmarshal(data, &dst)`: the text is validated as a whole
first (a syntax error leaves the destination untouched), then decoded. -/
def Unmarshal {α : Type} (d : Dec α) (data : String) (dst : α) : α × Bool :=
  match parseDoc data with
  | none => (dst, true)
  | some j => d j dst

/-! ## encoding/json: marshalling -/

/-- The routine `appendCompact` with HTML escaping, as `json.Marshal` applies it
to the bytes of a `json.RawMessage`: white space outside strings is dropped and
the characters `<`, `>`, `&`, U+2028 and U+2029 are replaced by `\u` escapes.
The flags tell whether the scanner is inside a string and right after a
backslash. The input is valid JSON (it was cut out of a validated document). -/
def compactFrom : Bool → Bool → List Char → List Char
  | _, _, [] => []
  | inStr, esc, c :: cs =>
    let inStr2 := if inStr then (esc || c != '"') else c == '"'
    let esc2 := inStr && !esc && c == '\\'
    if c == '<' then "\\u003c".data ++ compactFrom inStr2 esc2 cs
    else if c == '>' then "\\u003e".data ++ compactFrom inStr2 esc2 cs
    else if c == '&' then "\\u0026".data ++ compactFrom inStr2 esc2 cs
    else if c.toNat == 0x2028 then "\\u2028".data ++ compactFrom inStr2 esc2 cs
    else if c.toNat == 0x2029 then "\\u2029".data ++ compactFrom inStr2 esc2 cs
    else if !inStr && isJsonSpace c then compactFrom inStr2 esc2 cs
    else c :: compactFrom inStr2 esc2 cs

/-- Marshalled form of a `json.RawMessage`. -/
def compact (raw : String) : String :=
  ⟨compactFrom false false raw.data⟩

/-! ## sort.Slice and sort.SliceStable

`sort.Slice` is the pattern-defeating quicksort of the Go library (`pdqsort_func`
in `sort/zsortfunc.go`, Go 1.19 and later); every routine below follows the Go
routine of the same name, with the slice threaded through as a list and loops
turned into recursion on a counter that starts at the size of the range. -/

section Sorting

variable {α : Type}

/-- The call `data.Less(i, j)`. -/
def lessAt (less : α → α → Bool) (d : List α) (i j : Nat) : Bool :=
  match d[i]?, d[j]? with
  | some x, some y => less x y
  | _, _ => false

/-- The call `data.Swap(i, j)`. -/
def swapAt (d : List α) (i j : Nat) : List α :=
  match d[i]?, d[j]? with
  | some x, some y => (d.set i y).set j x
  | _, _ => d

/-- Inner loop of the insertion sort: `for j := i; j > a && less(j, j-1); j--`. -/
def insertDown (less : α → α → Bool) (a : Nat) : Nat → List α → List α
  | 0, d => d
  | j + 1, d =>
    if a < j + 1 && lessAt less d (j + 1) j then insertDown less a j (swapAt d (j + 1) j) else d

/-- Outer loop of the insertion sort: `for i := a + 1; i < b; i++`. -/
def insertionLoop (less : α → α → Bool) (a b : Nat) : Nat → Nat → List α → List α
  | 0, _, d => d
  | fuel + 1, i, d =>
    if i < b then insertionLoop less a b fuel (i + 1) (insertDown less a i d) else d

/-- The routine `insertionSort_func(data, a, b)`. -/
def insertionSort_func (less : α → α → Bool) (d : List α) (a b : Nat) : List α :=
  insertionLoop less a b (b - a) (a + 1) d

/-- The routine `siftDown_func(data, lo, hi, first)`, `root` starting at `lo`. -/
def siftDown_func (less : α → α → Bool) (hi first : Nat) : Nat → Nat → List α → List α
  | 0, _, d => d
  | fuel + 1, root, d =>
    let child := 2 * root + 1
    if hi ≤ child then d
    else
      let child2 := if child + 1 < hi && lessAt less d (first + child) (first + child + 1)
        then child + 1 else child
      if !lessAt less d (first + root) (first + child2) then d
      else siftDown_func less hi first fuel child2 (swapAt d (first + root) (first + child2))

/-- First loop of the heap sort: `for i := (hi - 1) / 2; i >= 0; i--`. -/
def heapBuild (less : α → α → Bool) (hi first : Nat) : Nat → List α → List α
  | 0, d => siftDown_func less hi first hi 0 d
  | i + 1, d => heapBuild less hi first i (siftDown_func less hi first hi (i + 1) d)

/-- Second loop of the heap sort: `for i := hi - 1; i >= 0; i--`. -/
def heapPop (less : α → α → Bool) (first : Nat) : Nat → List α → List α
  | 0, d => siftDown_func less 0 first 0 0 (swapAt d first first)
  | i + 1, d =>
    heapPop less first i (siftDown_func less (i + 1) first (i + 1) 0 (swapAt d first (first + i + 1)))

/-- The routine `heapSort_func(data, a, b)`. -/
def heapSort_func (less : α → α → Bool) (d : List α) (a b : Nat) : List α :=
  let hi := b - a
  heapPop less a (hi - 1) (heapBuild less hi a ((hi - 1) / 2) d)

/-- The function `bits.Len`. -/
def bitsLen (n : Nat) : Nat :=
  if n = 0 then 0 else Nat.log2 n + 1

/-- A xorshift step on a 64-bit word (shifts 13, 7, 17), the instance of
`Lib.Xorshift` used in the examples. -/
def xorshift64 (r : Nat) : Nat :=
  let r1 := (r ^^^ (r <<< 13)) % 2 ^ 64
  let r2 := r1 ^^^ (r1 >>> 7)
  (r2 ^^^ (r2 <<< 17)) % 2 ^ 64

/-- The three swaps of `breakPatterns_func`, `i` counting down from 3; `next` is
the generator step `random.Next`. -/
def breakSwaps (next : Nat → Nat) (a length modulus idx : Nat) : Nat → Nat → List α → List α
  | 0, _, d => d
  | k + 1, random, d =>
    let random2 := next random
    let other0 := random2 % modulus
    let other := if length ≤ other0 then other0 - length else other0
    breakSwaps next a length modulus idx k random2 (swapAt d (idx - 1 + (2 - k)) (a + other))

/-- The routine `breakPatterns_func(data, a, b)`. -/
def breakPatterns_func (next : Nat → Nat) (d : List α) (a b : Nat) : List α :=
  let length := b - a
  if 8 ≤ length then
    breakSwaps next a length (2 ^ bitsLen length) (a + (length / 4) * 2 - 1) 3 length d
  else d

/-- The hint returned by `choosePivot_func`. -/
inductive sortedHint where
  | unknownHint
  | increasingHint
  | decreasingHint
  deriving DecidableEq, Repr

/-- The routine `order2_func`: the pair ordered by `less`, and the swap count. -/
def order2_func (less : α → α → Bool) (d : List α) (a b swaps : Nat) : Nat × Nat × Nat :=
  if lessAt less d b a then (b, a, swaps + 1) else (a, b, swaps)

/-- The routine `median_func`: index of the median of three, and the swap count. -/
def median_func (less : α → α → Bool) (d : List α) (a b c swaps : Nat) : Nat × Nat :=
  let (a1, b1, s1) := order2_func less d a b swaps
  let (b2, _, s2) := order2_func less d b1 c s1
  let (_, b3, s3) := order2_func less d a1 b2 s2
  (b3, s3)

/-- The routine `medianAdjacent_func`. -/
def medianAdjacent_func (less : α → α → Bool) (d : List α) (a swaps : Nat) : Nat × Nat :=
  median_func less d (a - 1) a (a + 1) swaps

/-- The routine `choosePivot_func(data, a, b)`. -/
def choosePivot_func (less : α → α → Bool) (d : List α) (a b : Nat) : Nat × sortedHint :=
  let l := b - a
  let i := a + l / 4 * 1
  let j := a + l / 4 * 2
  let k := a + l / 4 * 3
  let (j1, swaps) :=
    if 8 ≤ l then
      if 50 ≤ l then
        let (i2, s1) := medianAdjacent_func less d i 0
        let (j2, s2) := medianAdjacent_func less d j s1
        let (k2, s3) := medianAdjacent_func less d k s2
        median_func less d i2 j2 k2 s3
      else median_func less d i j k 0
    else (j, 0)
  if swaps = 0 then (j1, .increasingHint)
  else if swaps = 12 then (j1, .decreasingHint)
  else (j1, .unknownHint)

/-- The routine `reverseRange_func`, as its loop `for i < j`. -/
def reverseLoop : Nat → Nat → Nat → List α → List α
  | 0, _, _, d => d
  | fuel + 1, i, j, d => if i < j then reverseLoop fuel (i + 1) (j - 1) (swapAt d i j) else d

/-- The routine `reverseRange_func(data, a, b)`. -/
def reverseRange_func (d : List α) (a b : Nat) : List α :=
  reverseLoop (b - a) a (b - 1) d

/-- The loop `for i <= j && p(i) { i++ }`; returns the final `i`. -/
def scanUp (p : Nat → Bool) (j : Nat) : Nat → Nat → Nat
  | 0, i => i
  | fuel + 1, i => if i ≤ j && p i then scanUp p j fuel (i + 1) else i

/-- The loop `for i <= j && p(j) { j-- }`; returns the final `j`. -/
def scanDown (p : Nat → Bool) (i : Nat) : Nat → Nat
  | 0 => 0
  | j + 1 => if i ≤ j + 1 && p (j + 1) then scanDown p i j else j + 1

/-- Left shift of `partialInsertionSort_func`: `for j := i - 1; j >= 1; j--`. -/
def shiftSmaller (less : α → α → Bool) : Nat → List α → List α
  | 0, d => d
  | j + 1, d =>
    if !lessAt less d (j + 1) j then d else shiftSmaller less j (swapAt d (j + 1) j)

/-- Right shift of `partialInsertionSort_func`: `for j := i + 1; j < b; j++`. -/
def shiftGreater (less : α → α → Bool) (b : Nat) : Nat → Nat → List α → List α
  | 0, _, d => d
  | fuel + 1, j, d =>
    if j < b then
      if !lessAt less d j (j - 1) then d
      else shiftGreater less b fuel (j + 1) (swapAt d j (j - 1))
    else d

/-- The step loop of `partialInsertionSort_func` (`maxSteps` iterations at most). -/
def partialInsertionSteps (less : α → α → Bool) (a b : Nat) : Nat → Nat → List α → List α × Bool
  | 0, _, d => (d, false)
  | steps + 1, i, d =>
    let i1 := scanUp (fun k => !lessAt less d k (k - 1)) (b - 1) (b - a) i
    if i1 = b then (d, true)
    else if b - a < 50 then (d, false)
    else
      let d1 := swapAt d i1 (i1 - 1)
      let d2 := if 2 ≤ i1 - a then shiftSmaller less (i1 - 1) d1 else d1
      let d3 := if 2 ≤ b - i1 then shiftGreater less b (b - a) (i1 + 1) d2 else d2
      partialInsertionSteps less a b steps i1 d3

/-- The routine `partialInsertionSort_func(data, a, b)`. -/
def partialInsertionSort_func (less : α → α → Bool) (d : List α) (a b : Nat) : List α × Bool :=
  partialInsertionSteps less a b 5 (a + 1) d

/-- Main loop of `partitionEqual_func`; returns the slice and the final `i`. -/
def partitionEqualLoop (less : α → α → Bool) (a : Nat) : Nat → Nat → Nat → List α → List α × Nat
  | 0, i, _, d => (d, i)
  | fuel + 1, i, j, d =>
    let i1 := scanUp (fun k => !lessAt less d a k) j (j + 1) i
    let j1 := scanDown (fun k => lessAt less d a k) i1 j
    if j1 < i1 then (d, i1)
    else partitionEqualLoop less a fuel (i1 + 1) (j1 - 1) (swapAt d i1 j1)

/-- The routine `partitionEqual_func(data, a, b, pivot)`. -/
def partitionEqual_func (less : α → α → Bool) (d : List α) (a b pivot : Nat) : List α × Nat :=
  partitionEqualLoop less a (b - a + 1) (a + 1) (b - 1) (swapAt d a pivot)

/-- Main loop of `partition_func`; returns the slice and the final `j`. -/
def partitionLoop (less : α → α → Bool) (a : Nat) : Nat → Nat → Nat → List α → List α × Nat
  | 0, _, j, d => (d, j)
  | fuel + 1, i, j, d =>
    let i1 := scanUp (fun k => lessAt less d k a) j (j + 1) i
    let j1 := scanDown (fun k => !lessAt less d k a) i1 j
    if j1 < i1 then (d, j1)
    else partitionLoop less a fuel (i1 + 1) (j1 - 1) (swapAt d i1 j1)

/-- The routine `partition_func(data, a, b, pivot)`: the slice, the new pivot
position and whether the range was already partitioned. -/
def partition_func (less : α → α → Bool) (d : List α) (a b pivot : Nat) : List α × Nat × Bool :=
  let d0 := swapAt d a pivot
  let i := scanUp (fun k => lessAt less d0 k a) (b - 1) (b - a) (a + 1)
  let j := scanDown (fun k => !lessAt less d0 k a) i (b - 1)
  if j < i then (swapAt d0 j a, j, true)
  else
    let r := partitionLoop less a (b - a + 1) (i + 1) (j - 1) (swapAt d0 i j)
    (swapAt r.1 r.2 a, r.2, false)

/-- The routine `pdqsort_func(data, a, b, limit)`. One unit of the counter is
spent per loop iteration and per recursive call; both shrink the range. -/
def pdqsort_func (next : Nat → Nat) (less : α → α → Bool) :
    Nat → List α → Nat → Nat → Nat → Bool → Bool → List α
  | 0, d, _, _, _, _, _ => d
  | fuel + 1, d, a, b, limit, wasBalanced, wasPartitioned =>
    let length := b - a
    if length ≤ 12 then insertionSort_func less d a b
    else if limit = 0 then heapSort_func less d a b
    else
      let d1 := if !wasBalanced then breakPatterns_func next d a b else d
      let limit1 := if !wasBalanced then limit - 1 else limit
      let ph := choosePivot_func less d1 a b
      let d2 := if ph.2 = .decreasingHint then reverseRange_func d1 a b else d1
      let pivot := if ph.2 = .decreasingHint then (b - 1) - (ph.1 - a) else ph.1
      let hint := if ph.2 = .decreasingHint then sortedHint.increasingHint else ph.2
      let pis := if wasBalanced && wasPartitioned && hint = .increasingHint
        then partialInsertionSort_func less d2 a b else (d2, false)
      if pis.2 then pis.1
      else if 0 < a && !lessAt less pis.1 (a - 1) pivot then
        let pe := partitionEqual_func less pis.1 a b pivot
        pdqsort_func next less fuel pe.1 pe.2 b limit1 wasBalanced wasPartitioned
      else
        let pr := partition_func less pis.1 a b pivot
        let mid := pr.2.1
        let leftLen := mid - a
        let rightLen := b - mid
        let balanceThreshold := length / 8
        if leftLen < rightLen then
          pdqsort_func next less fuel (pdqsort_func next less fuel pr.1 a mid limit1 true true)
            (mid + 1) b limit1 (balanceThreshold ≤ leftLen) pr.2.2
        else
          pdqsort_func next less fuel (pdqsort_func next less fuel pr.1 (mid + 1) b limit1 true true)
            a mid limit1 (balanceThreshold ≤ rightLen) pr.2.2

/-- The function `sort.Slice(x, less)`; `next` is the generator step used when a
partition comes out unbalanced. -/
def sortSlice (next : Nat → Nat) (less : α → α → Bool) (d : List α) : List α :=
  pdqsort_func next less (d.length + 1) d 0 d.length (bitsLen d.length) true true

end Sorting

/-- The function `sort.SliceStable(x, less)`: the insertion sort the library runs
on blocks of up to 20 elements; longer slices have their sorted blocks merged
in a stable way, which yields the same list (for an order by a numeric key the
sorted rearrangement that keeps equal elements in place is unique). -/
def sortSliceStable {α : Type} (less : α → α → Bool) (d : List α) : List α :=
  insertionSort_func less d 0 d.length

/-! ## Data model -/

/-- A Go `error` value. Texts produced inside the repository are kept; errors
coming from a collaborator carry the collaborator's text; the text of an error
of `encoding/json` is not modelled. -/
inductive GoError where
  | text (s : String)
  | wrap (s : String) (inner : GoError)
  | ErrNoRows
  | collaborator (s : String)
  | jsonError
  deriving DecidableEq, Repr

namespace sql

/-- The type `sql.NullString` (`Str` is the Go field `String`). -/
structure NullString where
  Str : String
  Valid : Bool
  deriving DecidableEq, Repr

/-- The type `sql.NullInt64`. -/
structure NullInt64 where
  Int64 : Int
  Valid : Bool
  deriving DecidableEq, Repr

/-- The type `sql.NullFloat64`. -/
structure NullFloat64 where
  Float64 : Rat
  Valid : Bool
  deriving DecidableEq, Repr

end sql

namespace token

/-- The verified identity of a request (`token.Payload`); only the user name is
read by the handlers. -/
structure Payload where
  Username : String
  deriving DecidableEq, Repr

end token

namespace db

/-- Modelled from the spec: the generated row type `db.Course` is not part of
the sources; a candidate course carries id, code, name, description (learning
outcomes) and canonical link, the fields the handlers read. -/
structure Course where
  ID : Int
  Code : String
  Name : String
  LearningOutcomes : sql.NullString
  CourseLink : sql.NullString
  deriving DecidableEq, Repr

/-- Modelled from the spec: the generated row type `db.Transcript`, with owner
and extracted text. -/
structure Transcript where
  ID : Int
  UserUsername : String
  TextExtracted : sql.NullString
  deriving DecidableEq, Repr

/-- Modelled from the spec: the generated row type `db.Scholarship`
(id, owner, title, description, match score, link). -/
structure Scholarship where
  ID : Int
  UserUsername : String
  Title : String
  Description : sql.NullString
  MatchScore : sql.NullFloat64
  Link : sql.NullString
  deriving DecidableEq, Repr

/-- Modelled from the spec: the generated row type `db.Recommendation`
(id, owner, transcript reference, payload text, creation time). -/
structure Recommendation where
  ID : Int
  UserUsername : String
  TranscriptID : sql.NullInt64
  Payload : String
  CreatedAt : String
  deriving DecidableEq, Repr

end db

/-- The struct `Recommendation` of `ai_recommendations.go`: one course entry of
a payload. `Type_` is the Go field `Type` (JSON key `type`). -/
structure Recommendation where
  Type_ : String
  Title : String
  Description : String
  Match : Rat
  Code : String
  Link : String
  CourseID : Int
  deriving DecidableEq, Repr

/-- The request body of `createRecommendation`. -/
structure createRecommendationRequest where
  TranscriptID : Int
  Preference : String
  deriving DecidableEq, Repr

/-- The struct `aiMessage` of `ai.go`. -/
structure aiMessage where
  Role : String
  Content : String
  deriving DecidableEq, Repr

/-- The struct `openAIChatRequest` of `ai.go`; `ResponseFormat` is the optional
`response_format` map, here the value of its single key `type`. -/
structure openAIChatRequest where
  Model : String
  Messages : List aiMessage
  Stream : Bool
  ResponseFormat : Option String
  deriving DecidableEq, Repr

/-- A marshalled JSON document, as a tree. Strings, integers and floats are kept
as values (their spelling is the library's); `raw` is text copied into the
output as is; `time`, `errorText` and `scholarship` stand for the marshalled form
of a time stamp, of `err.Error()` and of a scholarship row. -/
inductive JOut where
  | null
  | bool (b : Bool)
  | str (s : String)
  | int (n : Int)
  | float (r : Rat)
  | raw (text : String)
  | time (t : String)
  | errorText (e : GoError)
  | scholarship (row : db.Scholarship)
  | arr (items : List JOut)
  | obj (members : List (String × JOut))

namespace db

/-- The argument `db.CreateRecommendationParams`; `Payload` is the marshalled
document handed to the store. -/
structure CreateRecommendationParams where
  UserUsername : String
  TranscriptID : sql.NullInt64
  Payload : JOut
  Summary : sql.NullString

/-- The argument `db.UpdateRecommendationPayloadParams`. -/
structure UpdateRecommendationPayloadParams where
  ID : Int
  UserUsername : String
  Payload : JOut

end db

/-- The struct `ChatMessage` of `chat_ai.go`. -/
structure ChatMessage where
  Role : String
  Content : String
  deriving DecidableEq, Repr

/-- The struct `WebResult` of `websearch_brave.go`. -/
structure WebResult where
  Title : String
  URL : String
  Snippet : String
  deriving DecidableEq, Repr

/-- The struct `ScholarshipReco` of `ai_scholarships.go`. -/
structure ScholarshipReco where
  Title : String
  Description : String
  Match : Rat
  Link : String
  deriving DecidableEq, Repr

/-- The search request `fetchBraveResults` sends: `GET BaseURL?q=<Q, escaped>`
with the subscription token in a header. -/
structure braveRequest where
  BaseURL : String
  Q : String
  Token : String
  deriving DecidableEq, Repr

namespace db

/-- The argument `db.CreateScholarshipParams`. -/
structure CreateScholarshipParams where
  UserUsername : String
  Title : String
  Description : sql.NullString
  MatchScore : sql.NullFloat64
  Link : sql.NullString
  deriving DecidableEq, Repr

/-- The argument `db.ListRecentScholarshipsByUserParams`. -/
structure ListRecentScholarshipsByUserParams where
  UserUsername : String
  Limit : Int
  deriving DecidableEq, Repr

end db

/-- Outcome of one HTTP exchange with the inference endpoint. -/
inductive HttpResult where
  | buildError (e : GoError)
  | transportError (e : GoError)
  | response (status : Nat) (body : String)

/-- An external call made while serving one request. -/
inductive Call where
  | GetTranscript (id : Int)
  | ListAllCourses
  | ListScholarshipsByUser (user : String)
  | CreateRecommendation (arg : db.CreateRecommendationParams)
  | GetRecommendation (id : Int)
  | UpdateRecommendationPayload (arg : db.UpdateRecommendationPayloadParams)
  | OpenAIChat (apiKey : String) (req : openAIChatRequest)
  | ListTranscripts (user : String)
  | CreateScholarship (arg : db.CreateScholarshipParams)
  | ListRecentScholarshipsByUser (arg : db.ListRecentScholarshipsByUserParams)
  | BraveSearch (req : braveRequest)

/-- The persistence collaborator `db.Store` as one request sees it: each
operation answers with a row (or rows) or an error. -/
structure Store where
  GetTranscript : Int → Except GoError db.Transcript
  ListAllCourses : Except GoError (GoSlice db.Course)
  ListScholarshipsByUser : String → Except GoError (GoSlice db.Scholarship)
  CreateRecommendation : db.CreateRecommendationParams → Except GoError db.Recommendation
  GetRecommendation : Int → Except GoError db.Recommendation
  UpdateRecommendationPayload :
    db.UpdateRecommendationPayloadParams → Except GoError db.Recommendation
  ListTranscripts : String → Except GoError (GoSlice db.Transcript)
  CreateScholarship : db.CreateScholarshipParams → Except GoError db.Scholarship
  ListRecentScholarshipsByUser :
    db.ListRecentScholarshipsByUserParams → Except GoError (GoSlice db.Scholarship)

/-- The fields of `util.Config` the handlers read. -/
structure Config where
  OpenAIAPIKey : String
  OpenAIModel : String
  BraveAPIKey : String
  BraveAPIURL : String
  WebSearchMaxResults : Int

/-- The server: configuration, store, the inference endpoint
(`POST /v1/chat/completions`, answering a request sent with a given key) and the
web search endpoint (answering with a transport error or a status and a body). -/
structure Server where
  config : Config
  store : Store
  openai : String → openAIChatRequest → HttpResult
  brave : braveRequest → Except GoError (Nat × String)

/-- The request context `*fiber.Ctx` as the handlers use it: the verified
identity left by the auth middleware, URL parameters, the outcome of
`BodyParser` for `createRecommendation`, the clock, request headers, and the
outcome of `BodyParser` for `chatStream` (the `messages` of the body). -/
structure Ctx where
  Locals : Option token.Payload
  Params : String → String
  BodyParser : Except GoError createRecommendationRequest
  Now : String
  Get : String → String
  ChatBody : Except GoError (GoSlice ChatMessage)

/-- An HTTP response: status code and marshalled JSON body. -/
structure Response where
  status : Nat
  body : JOut

/-- What serving one request did: the response and the external calls, in order. -/
structure Run where
  response : Response
  calls : List Call

/-- The helper `errorResponse(err)` sent with a status code. -/
def errorResponse (status : Nat) (e : GoError) : Response :=
  ⟨status, .obj [("error", .errorText e)]⟩

/-! ## ai.go: the inference client -/

/-- The anonymous struct `Message` of `openAIChatResponse.Choices`. -/
structure openAIMessage where
  Content : String
  deriving DecidableEq, Repr

/-- One element of `openAIChatResponse.Choices`. -/
structure openAIChoice where
  Message : openAIMessage
  deriving DecidableEq, Repr

/-- The anonymous struct behind `openAIChatResponse.Error`. -/
structure openAIError where
  Message : String
  Type_ : String
  deriving DecidableEq, Repr

/-- The struct `openAIChatResponse` of `ai.go`. -/
structure openAIChatResponse where
  Choices : GoSlice openAIChoice
  Error : Option openAIError
  deriving DecidableEq, Repr

/-- Destination of pointer type: `null` stores nil, any other value is decoded
into the pointed value (allocated when the pointer is nil). -/
def decPointer {α : Type} (inner : Dec α) (zero : α) : Dec (Option α)
  | .null, _ => (none, false)
  | j, cur =>
    let r := inner j (cur.getD zero)
    (some r.1, r.2)

/-- A field decoded from the member value alone. -/
def Field.ofDec {α β : Type} (name : String) (d : Dec β) (get : α → β) (set : α → β → α) :
    Field α :=
  ⟨name, fun _ j cur => let r := d j (get cur); (set cur r.1, r.2)⟩

/-- Decoder of `openAIChatResponse`. -/
def decOpenAIChatResponse : Dec openAIChatResponse :=
  freshSpare (decStruct [
    Field.ofSlice "choices"
      (decStruct [Field.ofDec "message"
        (decStruct [Field.ofDec "content" decString (fun m => m.Content) (fun _ v => ⟨v⟩)])
        (fun ch => ch.Message) (fun _ v => ⟨v⟩)]) ⟨⟨""⟩⟩
      (fun o => o.Choices) (fun o v => ⟨v, o.Error⟩),
    (Field.ofDec "error"
      (decPointer (decStruct [
        Field.ofDec "message" decString (fun e => e.Message) (fun e v => ⟨v, e.Type_⟩),
        Field.ofDec "type" decString (fun e => e.Type_) (fun e v => ⟨e.Message, v⟩)]) ⟨"", ""⟩)
      (fun o => o.Error) (fun o v => ⟨o.Choices, v⟩)).keepSpare])

/-- The number a stream starts with when its text begins with a zero that a
digit follows: the scanner ends the number after the zero. -/
def leadingZero : List Char → Option String
  | '0' :: c :: _ => if c.isDigit then some "0" else none
  | '-' :: '0' :: c :: _ => if c.isDigit then some "-0" else none
  | _ => none

/-- The call `json.NewDecoder(r).Decode(&dst)` on a body read to its end: the
first value of the stream is decoded, whatever follows it; the scanner reads
the stream only up to the end of that value, and the byte after a number or a
literal ends it without being checked. -/
def DecodeStream {α : Type} (d : Dec α) (data : String) (dst : α) : α × Bool :=
  match parseValue (2 * data.data.length + 2) (skipSpace data.data) with
  | some (v, r) =>
    if maxNestingDepth < nestingDepth false false 0 0
        ((skipSpace data.data).take ((skipSpace data.data).length - r.length)) then (dst, true)
    else d v dst
  | none =>
    match leadingZero (skipSpace data.data) with
    | some lit => d (.num lit) dst
    | none => (dst, true)

/-- The function `callOpenAIChat` of `ai.go`, with the exchange with the
endpoint as an oracle; returns the result and the calls made. The error for a
status of 400 or above quotes the first 500 bytes of the body. -/
def callOpenAIChat (http : String → openAIChatRequest → HttpResult)
    (apiKey model : String) (messages : List aiMessage) (expectJSON : Bool) :
    Except GoError String × List Call :=
  if apiKey = "" then (.error (.text "missing OpenAI API key"), [])
  else
    let model1 := if model = "" then "gpt-4o-mini" else model
    let reqBody : openAIChatRequest :=
      ⟨model1, messages, false, if expectJSON then some "json_object" else none⟩
    match http apiKey reqBody with
    | .buildError e => (.error (.wrap "failed to create OpenAI request: " e), [])
    | .transportError e =>
      (.error (.wrap "failed to reach OpenAI: " e), [.OpenAIChat apiKey reqBody])
    | .response status body =>
      if 400 ≤ status then
        (.error (.text ("openai returned " ++ toString status ++ ": " ++
          String.mk (sliceBytes 500 body.data))), [.OpenAIChat apiKey reqBody])
      else
        let out := DecodeStream decOpenAIChatResponse body ⟨none, none⟩
        if out.2 then
          (.error (.wrap "invalid OpenAI response: " .jsonError), [.OpenAIChat apiKey reqBody])
        else
          match out.1.Error with
          | some e =>
            if e.Message ≠ "" then
              (.error (.text ("openai error: " ++ e.Message ++ " (" ++ e.Type_ ++ ")")),
                [.OpenAIChat apiKey reqBody])
            else
              match out.1.Choices.elems with
              | [] => (.error (.text "openai response had no choices"), [.OpenAIChat apiKey reqBody])
              | ch :: _ => (.ok ch.Message.Content, [.OpenAIChat apiKey reqBody])
          | none =>
            match out.1.Choices.elems with
            | [] => (.error (.text "openai response had no choices"), [.OpenAIChat apiKey reqBody])
            | ch :: _ => (.ok ch.Message.Content, [.OpenAIChat apiKey reqBody])

/-! ## ai_recommendations.go -/

/-- The anonymous result struct of `extractCompletedCourses`. -/
structure completedResult where
  CompletedCodes : GoSlice String

/-- Decoder of the result struct of `extractCompletedCourses`. -/
def decCompletedResult : Dec completedResult :=
  freshSpare (decStruct [Field.ofSlice "completed_codes" decString ""
    (fun (r : completedResult) => r.CompletedCodes) (fun _ v => ⟨v⟩)])

/-- The two messages of the extraction call of `extractCompletedCourses`. -/
def extractionMessages (transcriptText : String) : List aiMessage :=
  [⟨"system", "You are a data extraction assistant. Analyze the academic transcript and return a JSON object with a single key \x27completed_codes\x27 containing a list of strings. Each string must be a Course Code (e.g. \x27CS101\x27) the student has completed."⟩,
    ⟨"user", transcriptText⟩]

/-- The function `extractCompletedCourses`: one inference call in JSON mode; a
response that does not decode counts as an empty list; every code is trimmed and
upper-cased. -/
def extractCompletedCourses (L : Lib) (s : Server) (transcriptText : String) :
    Except GoError (List String) × List Call :=
  let messages : List aiMessage := [
    ⟨"system", "You are a data extraction assistant. Analyze the academic transcript and return a JSON object with a single key \x27completed_codes\x27 containing a list of strings. Each string must be a Course Code (e.g. \x27CS101\x27) the student has completed."⟩,
    ⟨"user", transcriptText⟩]
  match callOpenAIChat s.openai s.config.OpenAIAPIKey s.config.OpenAIModel messages true with
  | (.error e, calls) => (.error e, calls)
  | (.ok raw, calls) =>
    let result := Unmarshal decCompletedResult raw ⟨none⟩
    if result.2 then (.ok [], calls)
    else (.ok (result.1.CompletedCodes.elems.map (fun code => L.ToUpper (TrimSpace code))), calls)

/-- A Go `map[string]bool` read with the zero value for absent keys. -/
abbrev BoolMap := String → Bool

/-- The assignment `m[k] = v`. -/
def BoolMap.set (m : BoolMap) (k : String) (v : Bool) : BoolMap :=
  fun x => if x = k then v else m x

/-- The function `filterAvailableCourses`: the catalog courses whose trimmed,
upper-cased code is not marked in the completed map, appended in catalog order
to a slice that starts nil. -/
def filterAvailableCourses (L : Lib) (allCourses : List db.Course)
    (completedCodes : List String) : GoSlice db.Course :=
  let completedMap : BoolMap :=
    completedCodes.foldl (fun m code => m.set code true) (fun _ => false)
  allCourses.foldl (fun available course =>
    let dbCode := L.ToUpper (TrimSpace course.Code)
    if !completedMap dbCode then available.append course else available) none

/-- The local type `PromptCourse` of `createRecommendation`. -/
structure PromptCourse where
  ID : Int
  Code : String
  Name : String
  Desc : String
  deriving DecidableEq, Repr

/-- The prompt entry of one candidate (lines 141 to 153): the learning outcomes,
cut after 150 bytes and followed by three dots when longer. -/
def promptCourse (c : db.Course) : PromptCourse :=
  let desc :=
    if c.LearningOutcomes.Valid then
      if 150 < c.LearningOutcomes.Str.utf8ByteSize then
        String.mk (sliceBytes 150 c.LearningOutcomes.Str.data) ++ "..."
      else c.LearningOutcomes.Str
    else ""
  ⟨c.ID, c.Code, c.Name, desc⟩

/-- Text of `json.Marshal(promptList)` for a non-empty prompt list. -/
def marshalPromptList (L : Lib) (l : List PromptCourse) : String :=
  "[" ++ String.intercalate "," (l.map (fun p =>
    "\x7b\"id\":" ++ toString p.ID ++ ",\"code\":" ++ L.MarshalString p.Code ++
    ",\"name\":" ++ L.MarshalString p.Name ++ ",\"desc\":" ++ L.MarshalString p.Desc ++ "\x7d")) ++ "]"

/-- The constant `systemPrompt` of `createRecommendation`. -/
def systemPrompt : String :=
  "You are an academic course advisor.\n\tTask:\n\t1. Analyze the \x27Available Courses\x27 list and the \x27User Preference\x27.\n\t2. Select the top 3-5 courses that best match the preference.\n\t3. Return a JSON object with a key \"recommendations\" which is an array.\n\t4. Each item must have: \n\t\t- \"course_id\" (integer, copied exactly from input)\n\t\t- \"code\" (string)\n\t\t- \"title\" (string)\n\t\t- \"rationale\" (string, why it fits)\n\t\t- \"match\" (number 0-100)"

/-- One element of `aiResult.Recommendations`. -/
structure aiResultItem where
  CourseID : Int
  Code : String
  Title : String
  Rationale : String
  Match : Rat
  deriving DecidableEq, Repr

/-- The anonymous struct `aiResult`. -/
structure aiResult where
  Recommendations : GoSlice aiResultItem

/-- Decoder of one response item. -/
def decAIResultItem (L : Lib) : Dec aiResultItem :=
  decStruct [
    Field.ofDec "course_id" decInt64 (fun r => r.CourseID) (fun r v => { r with CourseID := v }),
    Field.ofDec "code" decString (fun r => r.Code) (fun r v => { r with Code := v }),
    Field.ofDec "title" decString (fun r => r.Title) (fun r v => { r with Title := v }),
    Field.ofDec "rationale" decString (fun r => r.Rationale) (fun r v => { r with Rationale := v }),
    Field.ofDec "match" (decFloat64 L) (fun r => r.Match) (fun r v => { r with Match := v })]

/-- Decoder of `aiResult`. -/
def decAIResult (L : Lib) : Dec aiResult :=
  freshSpare (decStruct [Field.ofSlice "recommendations" (decAIResultItem L) ⟨0, "", "", "", 0⟩
    (fun (r : aiResult) => r.Recommendations) (fun _ v => ⟨v⟩)])

/-- Parsing of the inference response (lines 182 to 203): the object shape
first; when that reports an error, the bare array shape, whose result is taken
only if it decodes without error. -/
def parseAIResult (L : Lib) (rawResponse : String) : GoSlice aiResultItem :=
  let zero : aiResultItem := ⟨0, "", "", "", 0⟩
  let r1 := Unmarshal (decAIResult L) rawResponse ⟨none⟩
  if r1.2 then
    let r2 := Unmarshal (decSlice (decAIResultItem L) zero) rawResponse none
    if r2.2 then r1.1.Recommendations else r2.1
  else r1.1.Recommendations

/-- Mapping of one response item to a course entry (lines 207 to 224): the link
is that of the first candidate with the item id and a valid link, else blank. -/
def toRecommendation (candidates : List db.Course) (r : aiResultItem) : Recommendation :=
  let link := match candidates.find? (fun c => c.ID == r.CourseID && c.CourseLink.Valid) with
    | some c => c.CourseLink.Str
    | none => ""
  { Type_ := "course", Title := r.Title, Code := r.Code, Description := r.Rationale,
    Match := r.Match, Link := link, CourseID := r.CourseID }

/-- The sorted final list `finalRecs` (lines 206 to 227). -/
def finalRecs (L : Lib) (candidates : List db.Course) (rawResponse : String) :
    List Recommendation :=
  sortSlice L.Xorshift (fun x y => decide (x.Match > y.Match))
    ((parseAIResult L rawResponse).elems.map (toRecommendation candidates))

/-- Marshalled form of one course entry (`code`, `link` and `course_id` are
`omitempty`). -/
def marshalRecommendation (r : Recommendation) : JOut :=
  .obj ([("type", .str r.Type_), ("title", .str r.Title), ("description", .str r.Description),
      ("match", .float r.Match)] ++
    (if r.Code = "" then [] else [("code", .str r.Code)]) ++
    (if r.Link = "" then [] else [("link", .str r.Link)]) ++
    (if r.CourseID = 0 then [] else [("course_id", .int r.CourseID)]))

/-- Marshalled form of a slice of course entries: `null` for the nil slice. -/
def marshalCourses : GoSlice Recommendation → JOut
  | none => .null
  | some l => .arr (l.map marshalRecommendation)

/-- Marshalled form of a slice of scholarship rows. -/
def marshalScholarships : GoSlice db.Scholarship → JOut
  | none => .null
  | some l => .arr (l.map .scholarship)

/-- The payload document `fullResultWrapper` once marshalled (map keys come out
sorted): `courses` always, `scholarships` when the owner has any. -/
def resultJSON (recs : List Recommendation) (scholarships : GoSlice db.Scholarship) : JOut :=
  .obj ([("courses", marshalCourses (some recs))] ++
    (if 0 < scholarships.elems.length then [("scholarships", marshalScholarships scholarships)]
     else []))

/-- The second half of `createRecommendation` (lines 181 to 273), entered once
the recommendation call has answered with `rawResponse`; `before` lists the
calls made so far. -/
def finishRecommendation (L : Lib) (s : Server) (c : Ctx) (payload : token.Payload)
    (req : createRecommendationRequest) (candidates : List db.Course) (rawResponse : String)
    (before : List Call) : Run :=
  let recs := finalRecs L candidates rawResponse
  let scholarships : GoSlice db.Scholarship :=
    match s.store.ListScholarshipsByUser payload.Username with
    | .ok rows => rows
    | .error _ => none
  let arg : db.CreateRecommendationParams :=
    ⟨payload.Username, ⟨req.TranscriptID, true⟩, resultJSON recs scholarships,
      ⟨"Course Recommendation", true⟩⟩
  let calls := before ++ [.ListScholarshipsByUser payload.Username, .CreateRecommendation arg]
  match s.store.CreateRecommendation arg with
  | .error e => ⟨errorResponse 500 e, calls⟩
  | .ok reco =>
    ⟨⟨200, .obj [("analyzed_at", .time c.Now), ("courses", marshalCourses (some recs)),
        ("created_at", .time reco.CreatedAt), ("id", .int reco.ID),
        ("scholarships", marshalScholarships scholarships),
        ("user_pref", .str req.Preference)]⟩, calls⟩

/-- The two messages of the recommendation call (lines 133 to 174). -/
def recommendationMessages (L : Lib) (req : createRecommendationRequest)
    (candidates : List db.Course) : List aiMessage :=
  let candidateBytes := marshalPromptList L (candidates.map promptCourse)
  let userPrompt := "User Preference: " ++ req.Preference ++
    "\n\nAvailable Courses:\n" ++ candidateBytes
  [⟨"system", systemPrompt⟩, ⟨"user", userPrompt⟩]

/-- The handler `createRecommendation`. -/
def createRecommendation (L : Lib) (s : Server) (c : Ctx) : Run :=
  match c.Locals with
  | none => ⟨errorResponse 401 (.text "unauthorized"), []⟩
  | some payload =>
    match c.BodyParser with
    | .error e => ⟨errorResponse 400 e, []⟩
    | .ok req =>
      match s.store.GetTranscript req.TranscriptID with
      | .error _ =>
        ⟨errorResponse 404 (.text "transcript not found"), [.GetTranscript req.TranscriptID]⟩
      | .ok transcript =>
        if !transcript.TextExtracted.Valid || transcript.TextExtracted.Str = "" then
          ⟨errorResponse 400 (.text "transcript has no text content"),
            [.GetTranscript req.TranscriptID]⟩
        else
          match extractCompletedCourses L s transcript.TextExtracted.Str with
          | (.error e, calls) =>
            ⟨errorResponse 500 (.wrap "failed to analyze transcript history: " e),
              .GetTranscript req.TranscriptID :: calls⟩
          | (.ok completedCodes, calls) =>
            match s.store.ListAllCourses with
            | .error e =>
              ⟨errorResponse 500 e, .GetTranscript req.TranscriptID :: calls ++ [.ListAllCourses]⟩
            | .ok allCourses =>
              let candidates := (filterAvailableCourses L allCourses.elems completedCodes).elems
              if candidates.length = 0 then
                ⟨⟨200, .obj [("courses", .arr []), ("message", .str "No new courses available.")]⟩,
                  .GetTranscript req.TranscriptID :: calls ++ [.ListAllCourses]⟩
              else
                match callOpenAIChat s.openai s.config.OpenAIAPIKey s.config.OpenAIModel
                    (recommendationMessages L req candidates) true with
                | (.error e, calls2) =>
                  ⟨errorResponse 500 e,
                    .GetTranscript req.TranscriptID :: calls ++ [.ListAllCourses] ++ calls2⟩
                | (.ok rawResponse, calls2) =>
                  finishRecommendation L s c payload req candidates rawResponse
                    (.GetTranscript req.TranscriptID :: calls ++ [.ListAllCourses] ++ calls2)

/-- The helper `parseIDParam`: a trimmed, strictly positive decimal id. -/
def parseIDParam (c : Ctx) (name : String) : Except GoError Int :=
  let raw := TrimSpace (c.Params name)
  if raw = "" then .error (.text ("missing " ++ name))
  else
    match ParseInt raw with
    | some id => if id ≤ 0 then .error (.text ("invalid " ++ name)) else .ok id
    | none => .error (.text ("invalid " ++ name))

/-- The local struct `payloadMap` of `deleteCourseFromRecommendation`;
`Scholarships` is a `json.RawMessage` (empty when the key is absent). -/
structure payloadMap where
  Courses : GoSlice Recommendation
  Scholarships : String
  deriving DecidableEq, Repr

/-- Decoder of one stored course entry. -/
def decRecommendation (L : Lib) : Dec Recommendation :=
  decStruct [
    Field.ofDec "type" decString (fun r => r.Type_) (fun r v => { r with Type_ := v }),
    Field.ofDec "title" decString (fun r => r.Title) (fun r v => { r with Title := v }),
    Field.ofDec "description" decString (fun r => r.Description)
      (fun r v => { r with Description := v }),
    Field.ofDec "match" (decFloat64 L) (fun r => r.Match) (fun r v => { r with Match := v }),
    Field.ofDec "code" decString (fun r => r.Code) (fun r v => { r with Code := v }),
    Field.ofDec "link" decString (fun r => r.Link) (fun r v => { r with Link := v }),
    Field.ofDec "course_id" decInt64 (fun r => r.CourseID) (fun r v => { r with CourseID := v })]

/-- Decoder of `payloadMap`: `courses` is decoded, `scholarships` receives the
source text of its value. -/
def decPayloadMap (L : Lib) : Dec payloadMap :=
  freshSpare (decStruct [
    Field.ofSlice "courses" (decRecommendation L) ⟨"", "", "", 0, "", "", 0⟩
      (fun p => p.Courses) (fun p v => { p with Courses := v }),
    (⟨"scholarships", fun raw _ p => ({ p with Scholarships := raw }, false)⟩ :
      Field payloadMap).keepSpare])

/-- The filter loop of `deleteCourseFromRecommendation` (lines 369 to 378): the
kept entries, appended to a slice that starts nil, and the `found` flag. -/
def removeCourse (courses : List Recommendation) (courseID : Int) :
    GoSlice Recommendation × Bool :=
  courses.foldl (fun (acc : GoSlice Recommendation × Bool) course =>
    if course.CourseID ≠ courseID then (acc.1.append course, acc.2) else (acc.1, true))
    (none, false)

/-- The document `newPayloadMap` once marshalled: the raw scholarships go through
the compaction `json.Marshal` applies to a `json.RawMessage`. -/
def newPayloadJSON (updatedCourses : GoSlice Recommendation) (scholarships : String) : JOut :=
  .obj ([("courses", marshalCourses updatedCourses)] ++
    (if 0 < scholarships.length then [("scholarships", .raw (compact scholarships))] else []))

/-- The handler `deleteCourseFromRecommendation`. Marshalling the new payload
cannot fail: the raw scholarships were cut out of a validated document. -/
def deleteCourseFromRecommendation (L : Lib) (s : Server) (c : Ctx) : Run :=
  match c.Locals with
  | none => ⟨errorResponse 401 (.text "unauthorized"), []⟩
  | some payload =>
    match parseIDParam c "reco_id" with
    | .error _ => ⟨errorResponse 400 (.text "invalid recommendation ID"), []⟩
    | .ok recoID =>
      match parseIDParam c "course_id" with
      | .error _ => ⟨errorResponse 400 (.text "invalid course ID"), []⟩
      | .ok courseID =>
        match s.store.GetRecommendation recoID with
        | .error e =>
          if e = .ErrNoRows then
            ⟨errorResponse 404 (.text "recommendation not found"), [.GetRecommendation recoID]⟩
          else ⟨errorResponse 500 e, [.GetRecommendation recoID]⟩
        | .ok reco =>
          if reco.UserUsername ≠ payload.Username then
            ⟨errorResponse 403 (.text "forbidden"), [.GetRecommendation recoID]⟩
          else
            let decoded := Unmarshal (decPayloadMap L) reco.Payload ⟨none, ""⟩
            if decoded.2 then
              ⟨errorResponse 500 (.wrap "failed to parse recommendation payload: " .jsonError),
                [.GetRecommendation recoID]⟩
            else
              let removed := removeCourse decoded.1.Courses.elems courseID
              if !removed.2 then
                ⟨errorResponse 404 (.text ("course ID " ++ toString courseID ++
                  " not found in recommendation " ++ toString recoID)),
                  [.GetRecommendation recoID]⟩
              else
                let arg : db.UpdateRecommendationPayloadParams :=
                  ⟨recoID, payload.Username, newPayloadJSON removed.1 decoded.1.Scholarships⟩
                match s.store.UpdateRecommendationPayload arg with
                | .error e =>
                  ⟨errorResponse 500 (.wrap "failed to save updated recommendation: " e),
                    [.GetRecommendation recoID, .UpdateRecommendationPayload arg]⟩
                | .ok _ =>
                  ⟨⟨200, .obj [("courses", marshalCourses removed.1),
                      ("message", .str "Course deleted.")]⟩,
                    [.GetRecommendation recoID, .UpdateRecommendationPayload arg]⟩

/-! ## chat_ai.go: the streaming relay -/

/-- The anonymous struct `Delta` of a streaming chunk. -/
structure chunkDelta where
  Content : String
  deriving DecidableEq, Repr

/-- One element of `chunk.Choices`. -/
structure chunkChoice where
  Delta : chunkDelta
  deriving DecidableEq, Repr

/-- The local struct `chunk` of `chatStream`. -/
structure chunk where
  Choices : GoSlice chunkChoice
  deriving DecidableEq, Repr

/-- Decoder of `chunk`. -/
def decChunk : Dec chunk :=
  freshSpare (decStruct [Field.ofSlice "choices"
    (decStruct [Field.ofDec "delta"
      (decStruct [Field.ofDec "content" decString (fun d => d.Content) (fun _ v => ⟨v⟩)])
      (fun ch => ch.Delta) (fun _ v => ⟨v⟩)]) ⟨⟨""⟩⟩
    (fun k => k.Choices) (fun _ v => ⟨v⟩)])

/-- The lines `reader.ReadBytes` delivers without error: the newline-terminated
lines of the body, each with its newline. A last fragment without newline
comes with `io.EOF` and is never processed; a read error in the middle of the
body has the effect of a body cut at that point. -/
def readLines : List Char → List Char → List String
  | [], _ => []
  | c :: cs, cur =>
    if c == '\n' then String.mk (cur.reverse ++ ['\n']) :: readLines cs []
    else readLines cs (c :: cur)

/-- What the read loop does with one line. -/
inductive LineAction where
  | skip
  | stop
  | emit (event : String)
  deriving DecidableEq, Repr

/-- The body of the read loop of `chatStream` (lines 231 to 272) for one line. -/
def processLine (line : String) : LineAction :=
  let text := TrimSpace line
  if text = "" then .skip
  else if !startsWith text.data "data: ".data then .skip
  else
    let data := TrimSpace (TrimPrefix text "data: ")
    if data = "" then .skip
    else if data = "[DONE]" then .stop
    else
      let decoded := Unmarshal decChunk data ⟨none⟩
      if decoded.2 then .skip
      else
        match decoded.1.Choices.elems with
        | [] => .skip
        | ch :: _ =>
          if ch.Delta.Content = "" then .skip
          else .emit ("data: " ++ String.mk (escapeNewlines ch.Delta.Content.data) ++ "\n\n")

/-- The read loop of `chatStream`: everything written before the loop ends. -/
def relayLines : List String → String
  | [] => ""
  | line :: rest =>
    match processLine line with
    | .skip => relayLines rest
    | .stop => ""
    | .emit ev => ev ++ relayLines rest

/-- The completion sentinel event. -/
def doneEvent : String := "data: [DONE]\n\n"

/-- The streaming part of `chatStream` (lines 199 to 277): everything written to
the outward stream, given the outcome of the upstream call. -/
def chatStreamRelay (upstream : HttpResult) : String :=
  match upstream with
  | .buildError _ => "event: error\ndata: build error\n\n"
  | .transportError _ => "event: error\ndata: connection failed\n\n"
  | .response _ body => relayLines (readLines body.data []) ++ doneEvent

/-! ## chat_ai.go: context assembly and the handler -/

/-- A value of type `map[string]json.RawMessage`: `none` is the nil map; the
entries of a map are kept in increasing key order, the order in which
`json.Marshal` writes them. -/
abbrev RawMap := Option (List (String × String))

/-- The order in which `json.Marshal` sorts the keys of a map: byte-wise, which
for UTF-8 text is the lexicographic order of the code points. -/
def lessChars : List Char → List Char → Bool
  | _, [] => false
  | [], _ :: _ => true
  | a :: as, b :: bs =>
    if a.toNat < b.toNat then true
    else if b.toNat < a.toNat then false
    else lessChars as bs

/-- The assignment `m[k] = v` on the entries of a map. -/
def rawMapSet (k v : String) : List (String × String) → List (String × String)
  | [] => [(k, v)]
  | e :: rest =>
    if k = e.1 then (k, v) :: rest
    else if lessChars k.data e.1.data then (k, v) :: e :: rest
    else e :: rawMapSet k v rest

/-- Destination of type `map[string]json.RawMessage`: every member stores the
source text of its value under its key, `null` leaves the map as it is. -/
def decRawMap : Dec RawMap
  | .obj ms, cur => (some (ms.foldl (fun m e => rawMapSet e.1 e.2.1 m) (cur.getD [])), false)
  | .null, cur => (cur, false)
  | _, cur => (cur, true)

/-- The entries of a marshalled map, separated by commas. -/
def marshalRawEntries (L : Lib) : List (String × String) → String
  | [] => ""
  | [e] => L.MarshalString e.1 ++ ":" ++ compact e.2
  | e :: rest => L.MarshalString e.1 ++ ":" ++ compact e.2 ++ "," ++ marshalRawEntries L rest

/-- The text `json.Marshal` produces for a `map[string]json.RawMessage`. -/
def marshalRawMap (L : Lib) : RawMap → String
  | none => "null"
  | some entries => "\x7b" ++ marshalRawEntries L entries ++ "\x7d"

/-- The base system prompt of `chatStream` (line 45). -/
def chatPersona : String :=
  "You are EduSphere AI, an academic advisor who provides personalized advice based on the provided user\x27s full academic context (transcript, recommended courses, and potential scholarships). Be concise and professional. You must use the provided context to justify your answers."

/-- Step 3a of `chatStream` (lines 61 to 66): what is written to the context
builder for the transcript of a recommendation, and the calls made. -/
def transcriptContext (s : Server) (reco : db.Recommendation) : String × List Call :=
  if reco.TranscriptID.Valid then
    match s.store.GetTranscript reco.TranscriptID.Int64 with
    | .ok tr =>
      if tr.TextExtracted.Valid && TrimSpace tr.TextExtracted.Str != "" then
        ("\n\n[USER ACADEMIC TRANSCRIPT TEXT]\n" ++ tr.TextExtracted.Str ++ "\n",
          [.GetTranscript reco.TranscriptID.Int64])
      else ("", [.GetTranscript reco.TranscriptID.Int64])
    | .error _ => ("", [.GetTranscript reco.TranscriptID.Int64])
  else ("", [])

/-- Step 3b of `chatStream` (lines 75 to 98): what is written to the context
builder for the stored payload. -/
def payloadContext (L : Lib) (payload : String) : String :=
  if payload.utf8ByteSize > 2 then
    let decoded := Unmarshal decRawMap payload none
    if decoded.2 then "\n\n[RAW RECOMMENDATION PAYLOAD JSON]\n" ++ payload ++ "\n"
    else
      let courses :=
        match (decoded.1.getD []).find? (fun e => e.1 = "courses") with
        | some e =>
          if e.2.utf8ByteSize > 2 then "\n\n[RECOMMENDED COURSES JSON]\n" ++ e.2 ++ "\n" else ""
        | none => ""
      let remaining : RawMap :=
        decoded.1.map (fun es => es.filter (fun e => e.1 ≠ "courses" ∧ e.1 ≠ "scholarships"))
      let remainingJSON := marshalRawMap L remaining
      courses ++
        (if remainingJSON.utf8ByteSize > 2 then
          "\n\n[OTHER RECOMMENDATION DATA JSON]\n" ++ remainingJSON ++ "\n"
         else "")
  else ""

/-- Step 2 and 3 of `chatStream` (lines 48 to 110): the text added to the system
context for the header `X-Recommendation-ID`, and the calls made. -/
def recommendationContext (L : Lib) (s : Server) (c : Ctx) : String × List Call :=
  let recoIDStr := c.Get "X-Recommendation-ID"
  if recoIDStr ≠ "" then
    match ParseInt recoIDStr with
    | some recoID =>
      match s.store.GetRecommendation recoID with
      | .ok reco =>
        let tr := transcriptContext s reco
        let contextBuilder := tr.1 ++ payloadContext L reco.Payload
        (if contextBuilder.utf8ByteSize > 0 then
            "\n\n[FULL ACADEMIC CONTEXT INJECTED BELOW]\n" ++ contextBuilder
          else "",
          .GetRecommendation recoID :: tr.2)
      | .error _ => ("", [.GetRecommendation recoID])
    | none => ("", [])
  else ("", [])

/-- The loop over the scholarship rows (lines 125 to 148), from index `i` on; a
description longer than 200 bytes is cut after 200 bytes and followed by three
dots. -/
def scholarshipLines (L : Lib) : Nat → List db.Scholarship → String
  | _, [] => ""
  | i, sch :: rest =>
    let matchScore : Rat := if sch.MatchScore.Valid then sch.MatchScore.Float64 else 0
    toString (i + 1) ++ ". " ++ sch.Title ++ " (Match: " ++ L.FormatFixed0 matchScore ++ "%)\n" ++
    (if sch.Description.Valid then
      "   Context: " ++
        (if sch.Description.Str.utf8ByteSize > 200 then
          String.mk (sliceBytes 200 sch.Description.Str.data) ++ "..."
         else sch.Description.Str) ++ "\n"
     else "") ++
    (if sch.Link.Valid then "   Link: " ++ sch.Link.Str ++ "\n" else "") ++
    "\n" ++ scholarshipLines L (i + 1) rest

/-- The scholarship block of the system context (lines 115 to 155), and the call
made. -/
def scholarshipContext (L : Lib) (s : Server) (payload : token.Payload) : String × List Call :=
  let arg : db.ListRecentScholarshipsByUserParams := ⟨payload.Username, 10⟩
  match s.store.ListRecentScholarshipsByUser arg with
  | .ok scholarships =>
    if 0 < scholarships.elems.length then
      ("\n\n=== AVAILABLE SCHOLARSHIP OPPORTUNITIES (FROM DATABASE) ===\n" ++
        "Use this list if the user asks about financial aid, funding, or scholarships.\n\n" ++
        scholarshipLines L 0 scholarships.elems, [.ListRecentScholarshipsByUser arg])
    else ("", [.ListRecentScholarshipsByUser arg])
  | .error _ => ("", [.ListRecentScholarshipsByUser arg])

/-- The assembled system context of `chatStream` (lines 45 to 155), and the
store calls made while assembling it. -/
def systemContext (L : Lib) (s : Server) (c : Ctx) (payload : token.Payload) :
    String × List Call :=
  let reco := recommendationContext L s c
  let sch := scholarshipContext L s payload
  (chatPersona ++ reco.1 ++ sch.1, reco.2 ++ sch.2)

/-- The loop over the supplied messages (lines 168 to 180): the messages it
appends. -/
def appendMessages (L : Lib) : List ChatMessage → List aiMessage
  | [] => []
  | m :: rest =>
    let role0 := L.ToLower (TrimSpace m.Role)
    let role := if role0 ≠ "user" ∧ role0 ≠ "assistant" ∧ role0 ≠ "system" then "user" else role0
    let content := TrimSpace m.Content
    if content ≠ "" then ⟨role, content⟩ :: appendMessages L rest else appendMessages L rest

/-- What `chatStream` answers: a JSON response, or the text written to the event
stream. -/
inductive ChatReply where
  | json (r : Response)
  | stream (text : String)

/-- What serving one chat request did: the reply and the external calls, in
order. -/
structure ChatRun where
  reply : ChatReply
  calls : List Call

/-- The handler `chatStream`. The upstream request carries the configured model,
the messages (maps with the keys `role` and `content`) and `stream: true`. -/
def chatStream (L : Lib) (s : Server) (c : Ctx) : ChatRun :=
  match c.Locals with
  | none => ⟨.json (errorResponse 401 (.text "unauthorized")), []⟩
  | some payload =>
    match c.ChatBody with
    | .error _ => ⟨.json (errorResponse 400 (.text "invalid request body")), []⟩
    | .ok messages =>
      if messages.elems.length = 0 then
        ⟨.json (errorResponse 400 (.text "invalid request body")), []⟩
      else
        let context := systemContext L s c payload
        let openAIMessages : List aiMessage :=
          ⟨"system", context.1⟩ :: appendMessages L messages.elems
        let body : openAIChatRequest := ⟨s.config.OpenAIModel, openAIMessages, true, none⟩
        let upstream := s.openai s.config.OpenAIAPIKey body
        match upstream with
        | .buildError _ => ⟨.stream (chatStreamRelay upstream), context.2⟩
        | _ =>
          ⟨.stream (chatStreamRelay upstream),
            context.2 ++ [.OpenAIChat s.config.OpenAIAPIKey body]⟩

/-! ## websearch_brave.go -/

/-- One element of `data.Web.Results` in `fetchBraveResults`. -/
structure braveRow where
  Title : String
  URL : String
  Description : String
  deriving DecidableEq, Repr

/-- The anonymous struct `data.Web` of `fetchBraveResults`. -/
structure braveWeb where
  Results : GoSlice braveRow
  deriving DecidableEq, Repr

/-- The local struct `data` of `fetchBraveResults`. -/
structure braveData where
  Web : braveWeb
  deriving DecidableEq, Repr

/-- Decoder of one upstream search result. -/
def decBraveRow : Dec braveRow :=
  decStruct [
    Field.ofDec "title" decString (fun r => r.Title) (fun r v => { r with Title := v }),
    Field.ofDec "url" decString (fun r => r.URL) (fun r v => { r with URL := v }),
    Field.ofDec "description" decString (fun r => r.Description)
      (fun r v => { r with Description := v })]

/-- Decoder of the local struct `data`. -/
def decBraveData : Dec braveData :=
  freshSpare (decStruct [Field.ofInner "web"
    (decStruct [Field.ofSlice "results" decBraveRow ⟨"", "", ""⟩
      (fun (w : braveWeb) => w.Results) (fun _ v => ⟨v⟩)])
    (fun d => d.Web) (fun _ v => ⟨v⟩)])

/-- The loop of `fetchBraveResults` (lines 86 to 95) from index `i` on: it stops
at the first index with `maxResults > 0 && i >= maxResults`. -/
def collectResults (maxResults : Int) : Nat → List braveRow → List WebResult
  | _, [] => []
  | i, r :: rest =>
    if 0 < maxResults ∧ maxResults ≤ (i : Int) then []
    else
      ⟨TrimSpace r.Title, TrimSpace r.URL, TrimSpace r.Description⟩ ::
        collectResults maxResults (i + 1) rest

/-- The function `fetchBraveResults`, with the exchange with the search endpoint
as an oracle; returns the result (a failure comes with the nil slice) and the
calls made. The error for a body that does not decode stands for the text
`invalid brave JSON: <decoding error> (partial body: <rest of the body>)`. -/
def fetchBraveResults (http : braveRequest → Except GoError (Nat × String))
    (q apiKey baseURL : String) (maxResults : Int) :
    Except GoError (GoSlice WebResult) × List Call :=
  let baseURL1 := if baseURL = "" then "https://api.search.brave.com/res/v1/web/search" else baseURL
  let req : braveRequest := ⟨baseURL1, q, apiKey⟩
  match http req with
  | .error e => (.error (.wrap "brave request failed: " e), [.BraveSearch req])
  | .ok (status, body) =>
    if 400 ≤ status then
      (.error (.text ("brave returned " ++ toString status ++ ": " ++ body)), [.BraveSearch req])
    else
      let data := DecodeStream decBraveData body ⟨⟨none⟩⟩
      if data.2 then (.error (.wrap "invalid brave JSON: " .jsonError), [.BraveSearch req])
      else (.ok (some (collectResults maxResults 0 data.1.Web.Results.elems)), [.BraveSearch req])

/-! ## ai_summary.go -/

/-- The user prompt of `generateSummary`. -/
def summaryPrompt (txText : String) : String :=
  "\nSummarize the student\x27s transcript below into 3 concise paragraphs.\nFocus on academic strengths, software engineering skills, and AI or data science potential.\n\nTranscript:\n\"\"\"" ++
  txText ++ "\"\"\"\n"

/-- The handler `generateSummary`. -/
def generateSummary (s : Server) (c : Ctx) : Run :=
  match c.Locals with
  | none => ⟨errorResponse 401 (.text "unauthorized"), []⟩
  | some payload =>
    match s.store.ListTranscripts payload.Username with
    | .error _ =>
      ⟨errorResponse 404 (.text "no transcripts found"), [.ListTranscripts payload.Username]⟩
    | .ok transcripts =>
      match transcripts.elems with
      | [] =>
        ⟨errorResponse 404 (.text "no transcripts found"), [.ListTranscripts payload.Username]⟩
      | first :: _ =>
        match s.store.GetTranscript first.ID with
        | .error e =>
          ⟨errorResponse 500 e, [.ListTranscripts payload.Username, .GetTranscript first.ID]⟩
        | .ok fullTr =>
          let txText := TrimSpace fullTr.TextExtracted.Str
          if txText = "" then
            ⟨errorResponse 400 (.text "transcript has no extracted text"),
              [.ListTranscripts payload.Username, .GetTranscript first.ID]⟩
          else
            let messages : List aiMessage := [
              ⟨"system", "You are an academic summarizer. Return only plain text summary, no markdown."⟩,
              ⟨"user", summaryPrompt txText⟩]
            match callOpenAIChat s.openai s.config.OpenAIAPIKey s.config.OpenAIModel
                messages false with
            | (.error e, calls) =>
              ⟨errorResponse 500 (.wrap "openai failed: " e),
                [.ListTranscripts payload.Username, .GetTranscript first.ID] ++ calls⟩
            | (.ok resp, calls) =>
              ⟨⟨200, .obj [("generated_at", .time c.Now),
                  ("summary_text", .str (TrimSpace resp)), ("user", .str payload.Username)]⟩,
                [.ListTranscripts payload.Username, .GetTranscript first.ID] ++ calls⟩

/-! ## ai_scholarships.go -/

/-- The helper `truncate` of `ai.go`: a string of more than `n` bytes is cut
after `n` bytes and followed by a marker. -/
def truncate (s : String) (n : Nat) : String :=
  if s.utf8ByteSize ≤ n then s else String.mk (sliceBytes n s.data) ++ "...(truncated)"

/-- The text `generateScholarships` writes first into its prompt (lines 69 to 83). -/
def scholarshipIntro : String :=
  "\nYou are an academic scholarship advisor.\n" ++
  "Your task: identify scholarships — NOT university courses or degrees.\n" ++
  "Use the student\x27s transcript only to understand their background (e.g. Software Engineering, AI, Data Science).\n" ++
  "From the provided web search results, list the most relevant scholarships for this profile.\n" ++
  "\nReturn ONLY scholarships (no courses, no degrees, no projects).\n" ++
  "Each result must include:\n- title (scholarship name)\n" ++
  "- description (what it offers or who it\x27s for)\n- match (number 0–100)\n" ++
  "- link (URL to the scholarship)\n\nRespond ONLY in valid JSON format.\n"

/-- The system message of `generateScholarships` (lines 104 to 114). -/
def scholarshipSystem : String :=
  "\nYou are a strict JSON generator.\n" ++
  "Always return either a JSON array or a JSON object containing \"scholarships\": [ ... ].\n" ++
  "Do not include markdown, code fences, or commentary.\n\n" ++
  "Each scholarship must contain:\n- \"title\": string\n- \"description\": string\n" ++
  "- \"match\": number (0–100)\n- \"link\": string (valid URL)\n\t\t\t"

/-- The lines of the prompt for the web results (lines 89 to 98). -/
def webResultLines : List WebResult → String
  | [] => ""
  | w :: rest =>
    "- " ++ truncate w.Title 100 ++ "\n  Link: " ++ w.URL ++ "\n  About: " ++
      truncate w.Snippet 200 ++ "\n" ++ webResultLines rest

/-- The user prompt of `generateScholarships` (lines 68 to 98). -/
def scholarshipPrompt (txText : String) (webResults : List WebResult) : String :=
  scholarshipIntro ++ "Transcript:\n\"\"\"\n" ++ txText ++ "\n\"\"\"\n\n" ++
  (if 0 < webResults.length then "Scholarship Web Results:\n" ++ webResultLines webResults
   else "")

/-- The two messages of the scholarship call. -/
def scholarshipMessages (txText : String) (webResults : List WebResult) : List aiMessage :=
  [⟨"system", scholarshipSystem⟩, ⟨"user", scholarshipPrompt txText webResults⟩]

/-- Decoder of `ScholarshipReco`. -/
def decScholarshipReco (L : Lib) : Dec ScholarshipReco :=
  decStruct [
    Field.ofDec "title" decString (fun r => r.Title) (fun r v => { r with Title := v }),
    Field.ofDec "description" decString (fun r => r.Description)
      (fun r v => { r with Description := v }),
    Field.ofDec "match" (decFloat64 L) (fun r => r.Match) (fun r v => { r with Match := v }),
    Field.ofDec "link" decString (fun r => r.Link) (fun r v => { r with Link := v })]

/-- Decoder of `[]ScholarshipReco`. -/
def decScholarshipList (L : Lib) : Dec (GoSlice ScholarshipReco) :=
  decSlice (decScholarshipReco L) ⟨"", "", 0, ""⟩

/-- The function `strings.Index(s, sep)` for a separator of one ASCII character:
position of its first occurrence, `none` for -1. -/
def Index (sep : Char) : List Char → Option Nat
  | [] => none
  | x :: xs => if x = sep then some 0 else (Index sep xs).map (fun i => i + 1)

/-- The function `strings.LastIndex(s, sep)` for a separator of one ASCII
character: position of its last occurrence, `none` for -1. -/
def LastIndex (sep : Char) : List Char → Option Nat
  | [] => none
  | x :: xs =>
    match LastIndex sep xs with
    | some i => some (i + 1)
    | none => if x = sep then some 0 else none

/-- Lines 200 to 205 of `extractScholarshipJSON`: the text `raw[start : end+1]`
from the first `[` to the last `]`, or `none` where the function returns nil. -/
def bracketSpan (raw : List Char) : Option (List Char) :=
  match Index '[' raw, LastIndex ']' raw with
  | some start, some stop =>
    if stop ≤ start then none else some ((raw.drop start).take (stop + 1 - start))
  | _, _ => none

/-- The helper `extractScholarshipJSON`: the text from the first `[` to the last
`]` is decoded as a list; the error of that decoding is discarded. -/
def extractScholarshipJSON (L : Lib) (raw : String) : GoSlice ScholarshipReco :=
  match bracketSpan raw.data with
  | none => none
  | some sub => (Unmarshal (decScholarshipList L) (String.mk sub) none).1

/-- The local struct `wrapper` of `generateScholarships`. -/
structure scholarshipWrapper where
  Scholarships : GoSlice ScholarshipReco
  deriving DecidableEq, Repr

/-- Decoder of `wrapper`. -/
def decScholarshipWrapper (L : Lib) : Dec scholarshipWrapper :=
  freshSpare (decStruct [Field.ofSlice "scholarships" (decScholarshipReco L) ⟨"", "", 0, ""⟩
    (fun (w : scholarshipWrapper) => w.Scholarships) (fun _ v => ⟨v⟩)])

/-- Parsing of the inference response in `generateScholarships` (lines 134 to
148): the value of `recs` when the sanitizing loop starts. -/
def parseScholarshipResponse (L : Lib) (resp : String) : GoSlice ScholarshipReco :=
  let recs := Unmarshal (decScholarshipList L) resp none
  if recs.2 then
    let wrapper := Unmarshal (decScholarshipWrapper L) resp ⟨none⟩
    if !wrapper.2 && 0 < wrapper.1.Scholarships.elems.length then wrapper.1.Scholarships
    else extractScholarshipJSON L resp
  else recs.1

/-- The sanitizing loop of `generateScholarships` (lines 151 to 160): the
elements appended to `filtered`. -/
def filtered : List ScholarshipReco → List ScholarshipReco
  | [] => []
  | r :: rest =>
    let r1 : ScholarshipReco :=
      ⟨TrimSpace r.Title, TrimSpace r.Description, r.Match, TrimSpace r.Link⟩
    if r1.Title = "" ∨ r1.Link = "" then filtered rest else r1 :: filtered rest

/-- The list `generateScholarships` persists and returns for an inference
response (lines 134 to 164): parsed, sanitized, sorted by match, highest first. -/
def scholarshipList (L : Lib) (resp : String) : List ScholarshipReco :=
  sortSliceStable (fun (x y : ScholarshipReco) => decide (x.Match > y.Match))
    (filtered (parseScholarshipResponse L resp).elems)

/-- The argument of `CreateScholarship` for one item (lines 169 to 175). -/
def scholarshipParams (payload : token.Payload) (r : ScholarshipReco) :
    db.CreateScholarshipParams :=
  ⟨payload.Username, r.Title, ⟨r.Description, r.Description ≠ ""⟩, ⟨r.Match, r.Match > 0⟩,
    ⟨r.Link, r.Link ≠ ""⟩⟩

/-- The persistence loop of `generateScholarships` (lines 168 to 179): the calls
it makes; a failure is logged and the loop goes on. -/
def persistScholarships (s : Server) (payload : token.Payload) :
    List ScholarshipReco → List Call
  | [] => []
  | r :: rest =>
    match s.store.CreateScholarship (scholarshipParams payload r) with
    | .error _ =>
      .CreateScholarship (scholarshipParams payload r) :: persistScholarships s payload rest
    | .ok _ =>
      .CreateScholarship (scholarshipParams payload r) :: persistScholarships s payload rest

/-- Marshalled form of one `ScholarshipReco`. -/
def marshalScholarshipReco (r : ScholarshipReco) : JOut :=
  .obj [("title", .str r.Title), ("description", .str r.Description), ("match", .float r.Match),
    ("link", .str r.Link)]

/-- The second half of `generateScholarships` (lines 134 to 195), entered once the
inference call has answered with `resp`; `before` lists the calls made so far. -/
def finishScholarships (L : Lib) (s : Server) (c : Ctx) (payload : token.Payload)
    (resp : String) (before : List Call) : Run :=
  let recs := scholarshipList L resp
  ⟨⟨200, .obj [("count", .int recs.length), ("generated_at", .time c.Now),
      ("scholarships", .arr (recs.map marshalScholarshipReco)),
      ("user", .str payload.Username)]⟩,
    before ++ persistScholarships s payload recs⟩

/-- The web search of `generateScholarships` (lines 50 to 65): the results (the
nil slice after a failure, which is only logged) and the calls made. -/
def scholarshipSearch (s : Server) : GoSlice WebResult × List Call :=
  let web := fetchBraveResults s.brave
    "scholarships for international students studying computer science OR artificial intelligence"
    s.config.BraveAPIKey s.config.BraveAPIURL s.config.WebSearchMaxResults
  match web.1 with
  | .ok results => (results, web.2)
  | .error _ => (none, web.2)

/-- The handler `generateScholarships`. -/
def generateScholarships (L : Lib) (s : Server) (c : Ctx) : Run :=
  match c.Locals with
  | none => ⟨errorResponse 401 (.text "unauthorized"), []⟩
  | some payload =>
    match s.store.ListTranscripts payload.Username with
    | .error _ =>
      ⟨errorResponse 404 (.text "no transcripts found"), [.ListTranscripts payload.Username]⟩
    | .ok transcripts =>
      match transcripts.elems with
      | [] =>
        ⟨errorResponse 404 (.text "no transcripts found"), [.ListTranscripts payload.Username]⟩
      | first :: _ =>
        match s.store.GetTranscript first.ID with
        | .error e =>
          ⟨errorResponse 500 e, [.ListTranscripts payload.Username, .GetTranscript first.ID]⟩
        | .ok fullTr =>
          let txText := TrimSpace fullTr.TextExtracted.Str
          if txText = "" then
            ⟨errorResponse 400 (.text "transcript has no extracted text"),
              [.ListTranscripts payload.Username, .GetTranscript first.ID]⟩
          else
            let web := scholarshipSearch s
            match callOpenAIChat s.openai s.config.OpenAIAPIKey s.config.OpenAIModel
                (scholarshipMessages txText web.1.elems) true with
            | (.error e, calls) =>
              ⟨errorResponse 500 (.wrap "openai failed: " e),
                [.ListTranscripts payload.Username, .GetTranscript first.ID] ++ web.2 ++ calls⟩
            | (.ok resp, calls) =>
              finishScholarships L s c payload resp
                ([.ListTranscripts payload.Username, .GetTranscript first.ID] ++ web.2 ++ calls)

/-! ## middleware.go -/

/-- The loop of `strings.Fields`: `cur` holds, reversed, the characters of the
field being read. -/
def fieldsLoop : List Char → List Char → List String
  | [], cur => if cur.isEmpty then [] else [String.mk cur.reverse]
  | c :: cs, cur =>
    if isSpace c then
      if cur.isEmpty then fieldsLoop cs [] else String.mk cur.reverse :: fieldsLoop cs []
    else fieldsLoop cs (c :: cur)

/-- The function `strings.Fields`: the maximal runs of characters that are not
white space. -/
def Fields (s : String) : List String :=
  fieldsLoop s.data []

/-- What a middleware does with a request: it answers itself, or it calls
`c.Next()` on the context it was given, possibly with values stored in it. -/
inductive Handled where
  | respond (r : Response)
  | next (c : Ctx)

/-- The middleware `authMiddlewareFiber(tokenMaker)`; `VerifyToken` is the method
of the token maker, and `Locals` of the context is the value stored under
`authorizationPayloadKey`. -/
def authMiddlewareFiber (L : Lib) (VerifyToken : String → Except GoError token.Payload)
    (c : Ctx) : Handled :=
  let authorizationHeader := TrimSpace (c.Get "authorization")
  if authorizationHeader.utf8ByteSize = 0 then
    .respond ⟨401, .obj [("error", .str "authorization header is missing")]⟩
  else
    match Fields authorizationHeader with
    | authType :: accessToken :: _ =>
      if L.ToLower authType ≠ "bearer" then
        .respond ⟨401, .obj [("error", .str "unsupported authorization type")]⟩
      else
        match VerifyToken accessToken with
        | .error _ => .respond ⟨401, .obj [("error", .str "invalid or expired token")]⟩
        | .ok payload => .next { c with Locals := some payload }
    | _ => .respond ⟨401, .obj [("error", .str "invalid authorization header format")]⟩

/-! ## Reading a run -/

/-- Value of a key of a marshalled object. -/
def JOut.lookup (key : String) : JOut → Option JOut
  | .obj ms => (ms.find? (fun m => m.1 = key)).map Prod.snd
  | _ => none

/-- Keys of a marshalled object. -/
def JOut.keys : JOut → List String
  | .obj ms => ms.map Prod.fst
  | _ => []

/-- Elements of a marshalled array. -/
def JOut.items : JOut → Option (List JOut)
  | .arr l => some l
  | _ => none

/-- The `course_id` of a marshalled course entry (an absent key reads as 0). -/
def entryCourseID (j : JOut) : Int :=
  match j.lookup "course_id" with
  | some (.int n) => n
  | _ => 0

/-- Payload handed to `UpdateRecommendationPayload` or `CreateRecommendation` by a
call, if the call is one of these two writes. -/
def Call.written : Call → Option JOut
  | .UpdateRecommendationPayload arg => some arg.Payload
  | .CreateRecommendation arg => some arg.Payload
  | _ => none

/-- The payloads a run wrote to the store, in order. -/
def Run.writes (r : Run) : List JOut :=
  r.calls.filterMap Call.written

/-- Whether a call is an inference call carrying the recommendation prompt. -/
def Call.isRecommendationCall : Call → Bool
  | .OpenAIChat _ req => req.Messages.head?.map (fun m => m.Content) == some systemPrompt
  | _ => false

/-- The message contents an inference call carries (none for any other call). -/
def Call.prompts : Call → List String
  | .OpenAIChat _ req => req.Messages.map (fun m => m.Content)
  | _ => []

/-- Whether a call is an inference call. -/
def Call.isInference : Call → Bool
  | .OpenAIChat _ _ => true
  | _ => false

/-- The argument of a call of `CreateScholarship` (none for any other call). -/
def Call.scholarship : Call → Option db.CreateScholarshipParams
  | .CreateScholarship arg => some arg
  | _ => none

/-- Whether a call is a call of `CreateRecommendation`. -/
def Call.isCreateRecommendation : Call → Bool
  | .CreateRecommendation _ => true
  | _ => false

/-- The request of the last call of a run, when that call is an inference call. -/
def upstreamRequest (calls : List Call) : Option openAIChatRequest :=
  match calls.getLast? with
  | some (.OpenAIChat _ req) => some req
  | _ => none

/-- Source text of the value of the last member of a stored document whose key
selects the struct field `name` (exactly or under case folding). -/
def storedField (name : String) (data : String) : Option String :=
  match parseDoc data with
  | some (.obj ms) => ((ms.filter (fun m => equalFold name m.1)).getLast?).map (fun m => m.2.1)
  | _ => none

/-- Keys of the members of a stored document. -/
def storedKeys (data : String) : List String :=
  match parseDoc data with
  | some (.obj ms) => ms.map (fun m => m.1)
  | _ => []

/-! ## Reference instances -/

/-- Number of binary digits of a number (`bits.Len`), by repeated halving. -/
def bitLength : Nat → Nat → Nat
  | 0, _ => 0
  | fuel + 1, n => if n = 0 then 0 else bitLength fuel (n / 2) + 1

/-- The `float64` nearest to the non-negative fraction `n / d` (ties go to the
even significand), as the rational it denotes; `none` when the fraction rounds
beyond the largest `float64`. The unit in the last place is `2 ^ p`, with 53
significant bits above the subnormal range and `p = -1074` inside it. -/
def roundFloat64 (n d : Nat) : Option Rat :=
  if n = 0 then some 0
  else
    let e0 : Int := (bitLength n n : Int) - (bitLength d d : Int)
    let e : Int := if n * 2 ^ (-e0).toNat < d * 2 ^ e0.toNat then e0 - 1 else e0
    let p : Int := max (e - 52) (-1074)
    let num := n * 2 ^ (-p).toNat
    let den := d * 2 ^ p.toNat
    let q := num / den
    let r := num % den
    let m := if den < 2 * r ∨ (den = 2 * r ∧ q % 2 = 1) then q + 1 else q
    if 1024 < bitLength m m + p.toNat then none
    else some (mkRat (m * 2 ^ p.toNat) (2 ^ (-p).toNat))

/-- The function `strconv.ParseFloat(s, 64)` on the literals of JSON numbers:
the literal denotes a decimal fraction, which is rounded to the nearest
`float64`; a value beyond the range of `float64` is an error, a value below it
is zero. The sign of a zero is not kept. -/
def parseFloat64 (s : String) : Option Rat :=
  let sg := scanSign s.data
  let ip := spanDigits sg.2
  match scanFraction ip.2 with
  | none => none
  | some fr =>
    match scanExponent fr.2 with
    | none => none
    | some ex =>
      if ip.1.isEmpty || !ex.2.isEmpty then none
      else
        let fracDigits := fr.1.drop 1
        let mant := digitsVal (ip.1 ++ fracDigits)
        let expPart := scanExpSign (ex.1.drop 1)
        let e10 : Int :=
          (if expPart.1 = ['-'] then -(digitsVal expPart.2 : Int) else (digitsVal expPart.2 : Int)) -
            (fracDigits.length : Int)
        let ndigits : Int := ((toString mant).length : Int)
        if mant = 0 then some 0
        else if 310 < e10 + ndigits then none
        else if e10 + ndigits < -330 then some 0
        else
          (roundFloat64 (mant * 10 ^ e10.toNat) (10 ^ (-e10).toNat)).map
            (fun r => if sg.1.isEmpty then r else -r)

/-- The text `fmt` prints for a `float64` under the verb `%.0f`: the value
rounded to an integer, ties to the even one, with the sign of the value. -/
def formatFixed0 (r : Rat) : String :=
  let q := r.num.natAbs / r.den
  let m := r.num.natAbs % r.den
  let n := if r.den < 2 * m ∨ (r.den = 2 * m ∧ q % 2 = 1) then q + 1 else q
  (if r.num < 0 then "-" else "") ++ toString n

/-- A hexadecimal digit, in lower case. -/
def hexDigit (n : Nat) : Char := "0123456789abcdef".data.getD n '0'

/-- What `json.Marshal` writes for one character of a string (HTML escaping
on): short escapes for the quote, the backslash, newline, carriage return and
tab, `\u00XX` for the other control characters (as Go before 1.22 writes them,
also for backspace and form feed), `\u` escapes for `<`, `>`, `&`, U+2028 and
U+2029, and `\ufffd` for a stray byte. -/
def marshalChar (c : Char) : List Char :=
  if c == '"' then ['\\', '"']
  else if c == '\\' then ['\\', '\\']
  else if c == '\n' then ['\\', 'n']
  else if c == '\r' then ['\\', 'r']
  else if c == '\t' then ['\\', 't']
  else if c.toNat < 0x20 then
    ['\\', 'u', '0', '0', hexDigit (c.toNat / 16), hexDigit (c.toNat % 16)]
  else if c == '<' then "\\u003c".data
  else if c == '>' then "\\u003e".data
  else if c == '&' then "\\u0026".data
  else if c.toNat == 0x2028 then "\\u2028".data
  else if c.toNat == 0x2029 then "\\u2029".data
  else if 0x10FF00 ≤ c.toNat then "\\ufffd".data
  else [c]

/-- The text `json.Marshal` produces for a Go string. -/
def marshalText (s : String) : String :=
  "\"" ++ String.mk (s.data.flatMap marshalChar) ++ "\""

/-- Reference instance of the library parameters, used by the examples: case
mapping of the ASCII letters (it agrees with the Go library on ASCII text),
`parseFloat64`, `marshalText`, a xorshift step and `formatFixed0`; the examples
never reach the generator step. -/
def asciiLib : Lib where
  ToUpper := fun s => String.mk (s.data.map Char.toUpper)
  ToLower := fun s => String.mk (s.data.map Char.toLower)
  ParseFloat := parseFloat64
  MarshalString := marshalText
  Xorshift := xorshift64
  FormatFixed0 := formatFixed0

/-- The request reaches the payload edit of `deleteCourseFromRecommendation`: it
is authenticated, both ids parse, the store returns a recommendation owned by
the caller whose payload is `stored`, and that payload decodes (without error)
to `pm`. -/
def EditRequest (L : Lib) (s : Server) (c : Ctx) (recoID courseID : Int) (stored : String)
    (pm : payloadMap) : Prop :=
  ∃ payload reco, c.Locals = some payload ∧ parseIDParam c "reco_id" = .ok recoID ∧
    parseIDParam c "course_id" = .ok courseID ∧ s.store.GetRecommendation recoID = .ok reco ∧
    reco.UserUsername = payload.Username ∧ reco.Payload = stored ∧
    Unmarshal (decPayloadMap L) stored ⟨none, ""⟩ = (pm, false)

/-- The request reaches the decoding of the stored payload in
`deleteCourseFromRecommendation` (line 360): it is authenticated, both ids
parse, and the store returns a recommendation owned by the caller whose payload
is `stored`. Nothing is assumed about that payload. -/
def ReachesPayload (s : Server) (c : Ctx) (recoID courseID : Int) (stored : String) : Prop :=
  ∃ payload reco, c.Locals = some payload ∧ parseIDParam c "reco_id" = .ok recoID ∧
    parseIDParam c "course_id" = .ok courseID ∧ s.store.GetRecommendation recoID = .ok reco ∧
    reco.UserUsername = payload.Username ∧ reco.Payload = stored

/-- What `json.Marshal` writes for the kept courses: the loop appends to a
slice that starts nil, so an empty result is `null`. -/
def keptCoursesJSON (kept : List Recommendation) : JOut :=
  if kept = [] then .null else .arr (kept.map marshalRecommendation)

/-- The request reaches the candidate filter of `createRecommendation` (line 124)
with body `req` and the given candidate set: it is authenticated, its body
parses, the transcript exists and has text, the extraction call and the catalog
listing succeed. -/
def ReachesFilter (L : Lib) (s : Server) (c : Ctx) (req : createRecommendationRequest)
    (candidates : List db.Course) : Prop :=
  ∃ payload transcript completedCodes callsA allCourses,
    c.Locals = some payload ∧ c.BodyParser = .ok req ∧
    s.store.GetTranscript req.TranscriptID = .ok transcript ∧
    transcript.TextExtracted.Valid = true ∧ transcript.TextExtracted.Str ≠ "" ∧
    extractCompletedCourses L s transcript.TextExtracted.Str = (.ok completedCodes, callsA) ∧
    s.store.ListAllCourses = .ok allCourses ∧
    candidates = (filterAvailableCourses L allCourses.elems completedCodes).elems

/-- Text of a raw leaf. -/
def JOut.rawText : JOut → Option String
  | .raw t => some t
  | _ => none

/-- The course entries of a written payload: the elements under `courses` when
that value is an array. -/
def writtenCourses (w : JOut) : Option (List JOut) :=
  (w.lookup "courses").bind JOut.items

/-- The request reaches the transcript fetch of `generateSummary` and of
`generateScholarships`: it is authenticated, the owner has transcripts, and the
store returns `tr` for the first of them. -/
def LatestTranscript (s : Server) (c : Ctx) (payload : token.Payload) (tr : db.Transcript) :
    Prop :=
  ∃ transcripts first rest, c.Locals = some payload ∧
    s.store.ListTranscripts payload.Username = .ok transcripts ∧
    transcripts.elems = first :: rest ∧ s.store.GetTranscript first.ID = .ok tr

/-- The request reaches the parsing step of `generateScholarships` (line 134)
with the inference answer `resp`: the latest transcript has text and the
inference call succeeds. -/
def ReachesScholarshipParse (s : Server) (c : Ctx) (payload : token.Payload) (resp : String) :
    Prop :=
  ∃ tr calls, LatestTranscript s c payload tr ∧ TrimSpace tr.TextExtracted.Str ≠ "" ∧
    callOpenAIChat s.openai s.config.OpenAIAPIKey s.config.OpenAIModel
      (scholarshipMessages (TrimSpace tr.TextExtracted.Str) (scholarshipSearch s).1.elems) true =
      (.ok resp, calls)

/-- The request reaches the extraction call of `createRecommendation` (line 112)
with body `req` and transcript `transcript`: it is authenticated, its body
parses, the transcript exists and has text. -/
def ReachesExtraction (s : Server) (c : Ctx) (req : createRecommendationRequest)
    (transcript : db.Transcript) : Prop :=
  ∃ payload, c.Locals = some payload ∧ c.BodyParser = .ok req ∧
    s.store.GetTranscript req.TranscriptID = .ok transcript ∧
    transcript.TextExtracted.Valid = true ∧ transcript.TextExtracted.Str ≠ ""

/-- One of the three failures of `createRecommendation` after the transcript
fetch: the inference client fails on the extraction call (Phase A), the catalog
cannot be listed, or the inference client fails on the recommendation call
(Phase D, reached with at least one candidate). -/
def FatalFailure (L : Lib) (s : Server) (c : Ctx) : Prop :=
  (∃ req transcript e calls, ReachesExtraction s c req transcript ∧
    callOpenAIChat s.openai s.config.OpenAIAPIKey s.config.OpenAIModel
      (extractionMessages transcript.TextExtracted.Str) true = (.error e, calls)) ∨
  (∃ req transcript codes calls e, ReachesExtraction s c req transcript ∧
    extractCompletedCourses L s transcript.TextExtracted.Str = (.ok codes, calls) ∧
    s.store.ListAllCourses = .error e) ∨
  (∃ req candidates e calls, ReachesFilter L s c req candidates ∧ candidates ≠ [] ∧
    callOpenAIChat s.openai s.config.OpenAIAPIKey s.config.OpenAIModel
      (recommendationMessages L req candidates) true = (.error e, calls))

/-- A parsing tier as the specification words it: the tier is taken when its
decoding reports no error and yields at least one item. -/
def tierTaken (r : GoSlice ScholarshipReco × Bool) : Bool :=
  !r.2 && 0 < r.1.elems.length

/-- Tier (a): the whole text decoded as a bare array. -/
def tierArray (L : Lib) (resp : String) : GoSlice ScholarshipReco × Bool :=
  Unmarshal (decScholarshipList L) resp none

/-- Tier (b): the whole text decoded as an object with a `scholarships` array. -/
def tierWrapper (L : Lib) (resp : String) : GoSlice ScholarshipReco × Bool :=
  let w := Unmarshal (decScholarshipWrapper L) resp ⟨none⟩
  (w.1.Scholarships, w.2)

/-- Tier (c): the text from the first `[` to the last `]` decoded as a bare
array; without such a text the tier fails with nothing decoded. -/
def tierBracket (L : Lib) (resp : String) : GoSlice ScholarshipReco × Bool :=
  match bracketSpan resp.data with
  | some sub => Unmarshal (decScholarshipList L) (String.mk sub) none
  | none => (none, true)

/-- The first tier, in the order (a), (b), (c), that is taken. -/
def firstTier (L : Lib) (resp : String) : Option (List ScholarshipReco) :=
  if tierTaken (tierArray L resp) then some (tierArray L resp).1.elems
  else if tierTaken (tierWrapper L resp) then some (tierWrapper L resp).1.elems
  else if tierTaken (tierBracket L resp) then some (tierBracket L resp).1.elems
  else none

/-- The sanitized list as the specification words it: the items whose trimmed
title and trimmed link are both non-empty, in their order, with title,
description and link trimmed. -/
def sanitizedItems (recs : List ScholarshipReco) : List ScholarshipReco :=
  (recs.filter (fun r => decide (TrimSpace r.Title ≠ "" ∧ TrimSpace r.Link ≠ ""))).map
    (fun r => ⟨TrimSpace r.Title, TrimSpace r.Description, r.Match, TrimSpace r.Link⟩)

/-- The key under which the specification compares titles: trimmed and
lower-cased. -/
def titleKey (L : Lib) (r : ScholarshipReco) : String :=
  L.ToLower (TrimSpace r.Title)

/-- The message the specification of `chatStream` describes for one supplied
message, as the code builds it: role trimmed and lower-cased, replaced by
`user` outside the three known roles; content trimmed; nothing for a blank
content. -/
def normalizedMessage (L : Lib) (m : ChatMessage) : Option aiMessage :=
  if TrimSpace m.Content = "" then none
  else
    some ⟨if L.ToLower (TrimSpace m.Role) ∈ ["user", "assistant", "system"] then
        L.ToLower (TrimSpace m.Role) else "user", TrimSpace m.Content⟩

/-- The request reaches the message loop of `chatStream` with the supplied
messages: it is authenticated, the body parses and holds at least one
message, and the upstream request can be built. -/
def ChatRequest (L : Lib) (s : Server) (c : Ctx) (payload : token.Payload)
    (messages : List ChatMessage) : Prop :=
  ∃ body, c.Locals = some payload ∧ c.ChatBody = .ok body ∧ body.elems = messages ∧
    messages ≠ [] ∧
    (∀ e, s.openai s.config.OpenAIAPIKey
      ⟨s.config.OpenAIModel, ⟨"system", (systemContext L s c payload).1⟩ ::
        appendMessages L messages, true, none⟩ ≠ .buildError e)

/-- The data of an upstream line as the relay reads it: the line is trimmed, and
when it starts with `data: ` the data is what follows, trimmed; a line without
the prefix has no data. -/
def lineData (line : String) : Option String :=
  if startsWith (TrimSpace line).data "data: ".data then
    some (TrimSpace (TrimPrefix (TrimSpace line) "data: "))
  else none

/-- Whether the data of a line is the termination marker. -/
def isTermination (line : String) : Bool :=
  lineData line == some "[DONE]"

/-- The token of a line: the delta content of the first choice, when the line has
data that decodes as a chunk with at least one choice and that content is not
empty. -/
def lineToken (line : String) : Option String :=
  match lineData line with
  | none => none
  | some data =>
    if (Unmarshal decChunk data ⟨none⟩).2 then none
    else
      match (Unmarshal decChunk data ⟨none⟩).1.Choices.elems with
      | [] => none
      | ch :: _ => if ch.Delta.Content = "" then none else some ch.Delta.Content

/-- The outward event for a token: `data: `, the token with every newline
replaced by backslash and `n`, and a blank line. -/
def tokenEvent (t : String) : String :=
  "data: " ++ String.mk (escapeNewlines t.data) ++ "\n\n"

/-- The events the specification of the relay asks for: one per line with a
token, among the lines before the first termination line, in order. -/
def relayedEvents (lines : List String) : List String :=
  ((lines.takeWhile (fun line => !isTermination line)).filterMap lineToken).map tokenEvent

/-- The canonical link of a candidate course: its link when it has one, blank
otherwise. -/
def canonicalLink (c : db.Course) : String :=
  if c.CourseLink.Valid then c.CourseLink.Str else ""

/-- Source text of the value of the last member with the given key. -/
def lastRaw (key : String) (ms : List (String × String × Json)) : Option String :=
  ((ms.filter (fun m => m.1 = key)).getLast?).map (fun m => m.2.1)

/-- The entries of the map decoded from the members of an object. -/
def rawEntries (ms : List (String × String × Json)) : List (String × String) :=
  ms.foldl (fun m e => rawMapSet e.1 e.2.1 m) []

/-- The entries of a map are in strictly increasing key order. -/
def KeySorted (m : List (String × String)) : Prop :=
  m.Pairwise (fun x y => lessChars x.1.data y.1.data = true)

/-- The text placed in the chat context for the `courses` value of a payload
with the given members: the source text of the last `courses` member, under its
label, when that text is longer than two bytes. -/
def coursesBlock (ms : List (String × String × Json)) : String :=
  match lastRaw "courses" ms with
  | some raw =>
    if raw.utf8ByteSize > 2 then "\n\n[RECOMMENDED COURSES JSON]\n" ++ raw ++ "\n" else ""
  | none => ""

/-- The text placed in the chat context for the remaining keys of a payload with
the given members: the members other than `courses` and `scholarships`,
serialized again as one object, under their label, when there is any. -/
def otherBlock (L : Lib) (ms : List (String × String × Json)) : String :=
  if (marshalRawMap L (some (rawEntries
      (ms.filter (fun m => m.1 ≠ "courses" ∧ m.1 ≠ "scholarships"))))).utf8ByteSize > 2 then
    "\n\n[OTHER RECOMMENDATION DATA JSON]\n" ++
      marshalRawMap L (some (rawEntries
        (ms.filter (fun m => m.1 ≠ "courses" ∧ m.1 ≠ "scholarships")))) ++ "\n"
  else ""

/-- Two payloads are JSON objects whose members other than those under the key
`scholarships` are the same, in the same order. -/
def SameButScholarships (p q : String) : Prop :=
  ∃ ms ns, parseDoc p = some (.obj ms) ∧ parseDoc q = some (.obj ns) ∧
    ms.filter (fun m => m.1 ≠ "scholarships") = ns.filter (fun m => m.1 ≠ "scholarships")

/-- Two stores answer alike, except that the recommendations they return may
differ in the `scholarships` members of their payloads. -/
def StoresAgreeButScholarships (s t : Store) : Prop :=
  s.GetTranscript = t.GetTranscript ∧
  s.ListRecentScholarshipsByUser = t.ListRecentScholarshipsByUser ∧
  ∀ id, s.GetRecommendation id = t.GetRecommendation id ∨
    ∃ r q, s.GetRecommendation id = .ok r ∧ t.GetRecommendation id = .ok { r with Payload := q } ∧
      SameButScholarships r.Payload q

/-- The recommendation reference of a chat request does not resolve: the header
is not a valid integer (or is absent), or the store has no answer for it. -/
def UnresolvedReference (s : Server) (c : Ctx) : Prop :=
  ParseInt (c.Get "X-Recommendation-ID") = none ∨
  ∃ id e, ParseInt (c.Get "X-Recommendation-ID") = some id ∧
    s.store.GetRecommendation id = .error e

/-! ## Example data -/

/-- A stored payload with two courses (ids 7 and 8) and a scholarships block written
with white space and an ampersand. -/
def storedTwo : String :=
  "\x7b\"courses\":[" ++
  "\x7b\"type\":\"course\",\"title\":\"Algorithms\",\"description\":\"fits\",\"match\":90,\"code\":\"CS201\",\"course_id\":7\x7d," ++
  "\x7b\"type\":\"course\",\"title\":\"Databases\",\"description\":\"fits\",\"match\":80,\"code\":\"CS301\",\"course_id\":8\x7d]," ++
  "\"scholarships\": [ \x7b\"title\":\"R & D award\",\"link\":\"https://x.org/a\"\x7d ]\x7d"

/-- A stored payload whose scholarships block sits under the key `Scholarships`. -/
def storedCaps : String :=
  "\x7b\"courses\":[" ++
  "\x7b\"type\":\"course\",\"title\":\"Algorithms\",\"description\":\"fits\",\"match\":90,\"code\":\"CS201\",\"course_id\":7\x7d," ++
  "\x7b\"type\":\"course\",\"title\":\"Databases\",\"description\":\"fits\",\"match\":80,\"code\":\"CS301\",\"course_id\":8\x7d]," ++
  "\"Scholarships\":[1]\x7d"

/-- A stored payload in which course id 7 occurs twice. -/
def storedDup : String :=
  "\x7b\"courses\":[" ++
  "\x7b\"type\":\"course\",\"title\":\"Algorithms\",\"description\":\"fits\",\"match\":90,\"code\":\"CS201\",\"course_id\":7\x7d," ++
  "\x7b\"type\":\"course\",\"title\":\"Databases\",\"description\":\"fits\",\"match\":80,\"code\":\"CS301\",\"course_id\":8\x7d," ++
  "\x7b\"type\":\"course\",\"title\":\"Algorithms\",\"description\":\"fits\",\"match\":70,\"code\":\"CS201\",\"course_id\":7\x7d]\x7d"

/-- A stored payload whose single course (id 7) has a string under `match`: the
payload is valid JSON but does not decode into the payload struct. -/
def storedBadMatch : String :=
  "\x7b\"courses\":[" ++
  "\x7b\"type\":\"course\",\"title\":\"Algorithms\",\"description\":\"fits\",\"match\":\"high\",\"code\":\"CS201\",\"course_id\":7\x7d]\x7d"

/-- A stored payload with the key `courses` twice: first one entry with id 9,
then one entry that only has a title. -/
def storedRepeat : String :=
  "\x7b\"courses\":[\x7b\"title\":\"A\",\"code\":\"X1\",\"course_id\":9\x7d]," ++
  "\"courses\":[\x7b\"title\":\"B\"\x7d]\x7d"

/-- A stored payload whose second course has a member `year`, which is no field
of a course entry, and lacks `type`, `description` and `match`. -/
def storedYear : String :=
  "\x7b\"courses\":[\x7b\"title\":\"A\",\"course_id\":7\x7d," ++
  "\x7b\"title\":\"B\",\"course_id\":8,\"year\":2024\x7d]\x7d"

/-- A stored payload with a single course (id 7). -/
def storedOne : String :=
  "\x7b\"courses\":[" ++
  "\x7b\"type\":\"course\",\"title\":\"Algorithms\",\"description\":\"fits\",\"match\":90,\"code\":\"CS201\",\"course_id\":7\x7d]\x7d"

/-- An inference response naming course 2 twice. -/
def respDup : String :=
  "\x7b\"recommendations\":[" ++
  "\x7b\"course_id\":2,\"code\":\"CS102\",\"title\":\"Course 2\",\"rationale\":\"fits\",\"match\":90\x7d," ++
  "\x7b\"course_id\":2,\"code\":\"CS102\",\"title\":\"Course 2\",\"rationale\":\"fits\",\"match\":80\x7d]\x7d"

/-- An inference response with six distinct courses. -/
def respSix : String :=
  "\x7b\"recommendations\":[" ++
  "\x7b\"course_id\":2,\"code\":\"CS102\",\"title\":\"Course 2\",\"rationale\":\"fits\",\"match\":88\x7d," ++
  "\x7b\"course_id\":3,\"code\":\"CS103\",\"title\":\"Course 3\",\"rationale\":\"fits\",\"match\":87\x7d," ++
  "\x7b\"course_id\":4,\"code\":\"CS104\",\"title\":\"Course 4\",\"rationale\":\"fits\",\"match\":86\x7d," ++
  "\x7b\"course_id\":5,\"code\":\"CS105\",\"title\":\"Course 5\",\"rationale\":\"fits\",\"match\":85\x7d," ++
  "\x7b\"course_id\":6,\"code\":\"CS106\",\"title\":\"Course 6\",\"rationale\":\"fits\",\"match\":84\x7d," ++
  "\x7b\"course_id\":7,\"code\":\"CS107\",\"title\":\"Course 7\",\"rationale\":\"fits\",\"match\":83\x7d]\x7d"

/-- An inference response with thirteen items: twelve with match 50, then one with
match 60. -/
def respThirteen : String :=
  "\x7b\"recommendations\":[" ++
  "\x7b\"course_id\":1,\"code\":\"CS101\",\"title\":\"Course 1\",\"rationale\":\"fits\",\"match\":50\x7d," ++
  "\x7b\"course_id\":2,\"code\":\"CS102\",\"title\":\"Course 2\",\"rationale\":\"fits\",\"match\":50\x7d," ++
  "\x7b\"course_id\":3,\"code\":\"CS103\",\"title\":\"Course 3\",\"rationale\":\"fits\",\"match\":50\x7d," ++
  "\x7b\"course_id\":4,\"code\":\"CS104\",\"title\":\"Course 4\",\"rationale\":\"fits\",\"match\":50\x7d," ++
  "\x7b\"course_id\":5,\"code\":\"CS105\",\"title\":\"Course 5\",\"rationale\":\"fits\",\"match\":50\x7d," ++
  "\x7b\"course_id\":6,\"code\":\"CS106\",\"title\":\"Course 6\",\"rationale\":\"fits\",\"match\":50\x7d," ++
  "\x7b\"course_id\":7,\"code\":\"CS107\",\"title\":\"Course 7\",\"rationale\":\"fits\",\"match\":50\x7d," ++
  "\x7b\"course_id\":8,\"code\":\"CS108\",\"title\":\"Course 8\",\"rationale\":\"fits\",\"match\":50\x7d," ++
  "\x7b\"course_id\":9,\"code\":\"CS109\",\"title\":\"Course 9\",\"rationale\":\"fits\",\"match\":50\x7d," ++
  "\x7b\"course_id\":10,\"code\":\"CS110\",\"title\":\"Course 10\",\"rationale\":\"fits\",\"match\":50\x7d," ++
  "\x7b\"course_id\":11,\"code\":\"CS111\",\"title\":\"Course 11\",\"rationale\":\"fits\",\"match\":50\x7d," ++
  "\x7b\"course_id\":12,\"code\":\"CS112\",\"title\":\"Course 12\",\"rationale\":\"fits\",\"match\":50\x7d," ++
  "\x7b\"course_id\":13,\"code\":\"CS113\",\"title\":\"Course 13\",\"rationale\":\"fits\",\"match\":60\x7d]\x7d"

/-- An extraction response naming one completed course. -/
def completedOne : String :=
  "\x7b\"completed_codes\":[\" cs101 \"]\x7d"

/-- An extraction response naming every course of the example catalog. -/
def completedAll : String :=
  "\x7b\"completed_codes\":[\"cs101\",\"cs102\",\"cs103\",\"cs104\",\"cs105\",\"cs106\",\"cs107\"]\x7d"

/-- The example catalog: seven courses `CS101` to `CS107` with ids 1 to 7. -/
def exampleCatalog : List db.Course :=
  (List.range 7).map (fun i =>
    ⟨(i : Int) + 1, "CS10" ++ toString (i + 1), "Course " ++ toString (i + 1),
      ⟨"Outcomes", true⟩, ⟨"https://uni.example/c/" ++ toString (i + 1), true⟩⟩)

/-- An example store: transcript 1 and recommendation 3 belong to `alice`, the
recommendation carries the given payload, every write succeeds. -/
def exampleStore (payload : String) : Store where
  GetTranscript := fun id =>
    if id = 1 then .ok ⟨1, "alice", ⟨"CS101 Introduction to Programming, grade 5", true⟩⟩
    else .error .ErrNoRows
  ListAllCourses := .ok (some exampleCatalog)
  ListScholarshipsByUser := fun _ => .ok none
  CreateRecommendation := fun arg => .ok ⟨10, arg.UserUsername, arg.TranscriptID, "", "t1"⟩
  GetRecommendation := fun id =>
    if id = 3 then .ok ⟨3, "alice", ⟨1, true⟩, payload, "t0"⟩ else .error .ErrNoRows
  UpdateRecommendationPayload := fun arg => .ok ⟨arg.ID, arg.UserUsername, ⟨1, true⟩, "", "t0"⟩
  ListTranscripts := fun user =>
    if user = "alice" then
      .ok (some [⟨1, "alice", ⟨"CS101 Introduction to Programming, grade 5", true⟩⟩])
    else .ok none
  CreateScholarship := fun arg =>
    .ok ⟨20, arg.UserUsername, arg.Title, arg.Description, arg.MatchScore, arg.Link⟩
  ListRecentScholarshipsByUser := fun _ => .ok none

/-- A JSON string literal for text made of printable ASCII characters. -/
def quoteJSON (s : String) : String :=
  "\"" ++ String.mk (s.data.map (fun c =>
    if c == '"' then ['\\', '"'] else if c == '\\' then ['\\', '\\'] else [c])).flatten ++ "\""

/-- An example inference endpoint: it answers the recommendation prompt with
`recommended` and any other prompt with `completed`, each wrapped as the content
of the first choice. -/
def exampleOpenAI (completed recommended : String) (_ : String) (req : openAIChatRequest) :
    HttpResult :=
  let content :=
    if req.Messages.head?.map (fun m => m.Content) == some systemPrompt then recommended
    else completed
  .response 200 ("\x7b\"choices\":[\x7b\"message\":\x7b\"role\":\"assistant\",\"content\":" ++
    quoteJSON content ++ "\x7d\x7d]\x7d")

/-- An example server around a stored payload and the two inference answers; its
web search finds nothing. -/
def exampleServer (payload completed recommended : String) : Server :=
  ⟨⟨"sk-test", "gpt-4o-mini", "brave-key", "", 5⟩, exampleStore payload,
    exampleOpenAI completed recommended,
    fun _ => .ok (200, "\x7b\"web\":\x7b\"results\":[]\x7d\x7d")⟩

/-- An example request of `alice`: URL parameters `reco_id` and `course_id`, and
a body asking for recommendations from transcript 1. -/
def exampleCtx (recoID courseID : String) : Ctx :=
  ⟨some ⟨"alice"⟩, fun name => if name = "reco_id" then recoID else courseID,
    .ok ⟨1, "machine learning"⟩, "t2", fun _ => "", .ok none⟩

/-- A search answer with two results. -/
def braveTwo : String :=
  "\x7b\"web\":\x7b\"results\":[" ++
  "\x7b\"title\":\" Grant A \",\"url\":\"https://a.org\",\"description\":\"first\"\x7d," ++
  "\x7b\"title\":\"Grant B\",\"url\":\"https://b.org\",\"description\":\"second\"\x7d]\x7d\x7d"

/-- A scholarship answer whose only item has a `match` of the wrong type. -/
def respBadMatch : String :=
  "[\x7b\"title\":\"A\",\"link\":\"https://x.org\",\"match\":\"high\"\x7d]"

/-- A scholarship answer with two items whose titles differ in case and white
space only. -/
def respTwins : String :=
  "[\x7b\"title\":\"Grant\",\"link\":\"https://a.org\",\"match\":80\x7d," ++
  "\x7b\"title\":\" grant \",\"link\":\"https://b.org\",\"match\":70\x7d]"

/-- A scholarship answer with three items, one of them without link, in
increasing order of match. -/
def respMixed : String :=
  "[\x7b\"title\":\" Low \",\"description\":\" small \",\"link\":\"https://l.org\",\"match\":10\x7d," ++
  "\x7b\"title\":\"NoLink\",\"link\":\"  \",\"match\":95\x7d," ++
  "\x7b\"title\":\"High\",\"link\":\"https://h.org\",\"match\":90\x7d]"

/-- A scholarship answer whose array is wrapped in prose. -/
def respProse : String :=
  "Here is the list: " ++
  "[\x7b\"title\":\"A\",\"link\":\"https://x.org\",\"match\":80\x7d]" ++
  " Good luck!"

/-- An inference endpoint that cannot be reached. -/
def unreachableOpenAI (_ : String) (_ : openAIChatRequest) : HttpResult :=
  .transportError (.collaborator "connection refused")

/-- An inference endpoint that answers the extraction call with `completed` and
cannot be reached for the recommendation call. -/
def flakyOpenAI (completed : String) (key : String) (req : openAIChatRequest) : HttpResult :=
  if req.Messages.head?.map (fun m => m.Content) == some systemPrompt then
    .transportError (.collaborator "connection reset")
  else exampleOpenAI completed "" key req

/-- The example server with another inference endpoint. -/
def serverWithOpenAI (openai : String → openAIChatRequest → HttpResult) : Server :=
  { exampleServer "" "" "" with openai := openai }

/-- The example server with another store. -/
def serverWithStore (store : Store) (completed recommended : String) : Server :=
  { exampleServer "" completed recommended with store := store }

/-- The example store with a catalog that cannot be listed. -/
def noCatalogStore : Store :=
  { exampleStore "" with ListAllCourses := .error (.collaborator "db down") }

/-- The example store in which the text of transcript 1 is absent. -/
def noTextStore : Store :=
  { exampleStore "" with GetTranscript := fun _ => .ok ⟨1, "alice", ⟨"", false⟩⟩ }

/-- The example store in which no scholarship can be saved. -/
def readOnlyStore : Store :=
  { exampleStore "" with CreateScholarship := fun _ => .error (.collaborator "db down") }

/-- The example store with two more records, both owned by `bob`: transcript 2
and recommendation 4 (made from transcript 2, payload `storedOne`). -/
def sharedStore : Store :=
  { exampleStore "" with
    GetTranscript := fun id =>
      if id = 2 then .ok ⟨2, "bob", ⟨"BOB: thesis on cryptography, grade 5", true⟩⟩
      else (exampleStore "").GetTranscript id
    GetRecommendation := fun id =>
      if id = 4 then .ok ⟨4, "bob", ⟨2, true⟩, storedOne, "t0"⟩ else .error .ErrNoRows }

/-- An example server whose web search answers with `body`. -/
def searchServer (maxResults : Int) (body : String) : Server :=
  { exampleServer "" "" "" with
    config := ⟨"sk-test", "gpt-4o-mini", "brave-key", "", maxResults⟩
    brave := fun _ => .ok (200, body) }

/-- An example chat request of `alice`: the header `X-Recommendation-ID` and the
messages of the body. -/
def chatCtx (recoID : String) (messages : List ChatMessage) : Ctx :=
  ⟨some ⟨"alice"⟩, fun _ => "", .error (.text "no body"), "t2",
    fun name => if name = "X-Recommendation-ID" then recoID else "", .ok (some messages)⟩

/-- An example request of `alice` whose body names a transcript. -/
def bodyCtx (transcriptID : Int) : Ctx :=
  ⟨some ⟨"alice"⟩, fun _ => "", .ok ⟨transcriptID, "machine learning"⟩, "t2", fun _ => "",
    .ok none⟩

/-- An inference response in the object shape whose only item has a string under
`match`. -/
def respHalf : String :=
  "\x7b\"recommendations\":[" ++
  "\x7b\"course_id\":2,\"code\":\"CS102\",\"title\":\"Course 2\",\"rationale\":\"fits\",\"match\":\"high\"\x7d]\x7d"

/-- Upstream lines of a chat answer: a chunk whose content has a newline, a
comment line, a line that does not decode, the termination marker, and a chunk
after it. -/
def exampleLines : List String :=
  ["data: \x7b\"choices\":[\x7b\"delta\":\x7b\"content\":\"Hi\\nyou\"\x7d\x7d]\x7d\n",
    ": keep-alive\n",
    "data: \x7bbroken\n",
    "data: [DONE]\n",
    "data: \x7b\"choices\":[\x7b\"delta\":\x7b\"content\":\"late\"\x7d\x7d]\x7d\n"]

/-- A stored payload with an empty `courses` array, a note and scholarships. -/
def storedEmptyCourses : String :=
  "\x7b\"courses\":[],\"note\":\"x\",\"scholarships\":[1]\x7d"

/-- A stored payload with one course, a note and scholarships. -/
def storedNoteA : String :=
  "\x7b\"courses\":[\x7b\"course_id\":7\x7d],\"note\": \"x\",\"scholarships\":[1]\x7d"

/-- The payload `storedNoteA` with other scholarships. -/
def storedNoteB : String :=
  "\x7b\"courses\":[\x7b\"course_id\":7\x7d],\"note\": \"x\",\"scholarships\":[\x7b\"title\":\"G\"\x7d]\x7d"

/-- A stored payload with a further top-level key. -/
def storedExtra : String :=
  "\x7b\"courses\":[\x7b\"type\":\"course\",\"title\":\"Algorithms\",\"description\":\"fits\",\"match\":90,\"code\":\"CS201\",\"course_id\":7\x7d," ++
  "\x7b\"type\":\"course\",\"title\":\"Databases\",\"description\":\"fits\",\"match\":80,\"code\":\"CS301\",\"course_id\":8\x7d]," ++
  "\"scholarships\":[1],\"generated_by\":\"v1\"\x7d"

/-- The example store with recent scholarships for every user. -/
def scholarStore : Store :=
  { exampleStore "" with
    ListRecentScholarshipsByUser := fun _ =>
      .ok (some [⟨20, "alice", "Grant A", ⟨"for students", true⟩, ⟨80, true⟩,
        ⟨"https://a.org", true⟩⟩]) }

/-- The example store with two recent scholarships whose descriptions are not
ASCII: 150 times `é` (300 bytes, the cut after 200 bytes falls between two
characters) and 67 times `€` (201 bytes, the cut falls after the second byte of
the last character). -/
def accentStore : Store :=
  { exampleStore "" with
    ListRecentScholarshipsByUser := fun _ =>
      .ok (some [
        ⟨21, "alice", "Bourse", ⟨String.mk (List.replicate 150 'é'), true⟩, ⟨80, true⟩,
          ⟨"https://b.org", true⟩⟩,
        ⟨22, "alice", "Euro", ⟨String.mk (List.replicate 67 '€'), true⟩, ⟨0, false⟩,
          ⟨"", false⟩⟩]) }

/-- An example token maker: one token is valid, for `alice`. -/
def exampleVerify (accessToken : String) : Except GoError token.Payload :=
  if accessToken = "good-token" then .ok ⟨"alice"⟩ else .error (.text "token is invalid")

/-- An example request that carries only an `authorization` header. -/
def headerCtx (authorization : String) : Ctx :=
  ⟨none, fun _ => "", .error (.text "no body"), "t2",
    fun name => if name = "authorization" then authorization else "", .ok none⟩

/-! ## Sorting: every routine permutes the slice -/

section SortingProofs
variable {α : Type}

theorem set_cons_perm (a y : α) : ∀ (t : List α) (j : Nat), t[j]? = some y →
    (y :: t.set j a).Perm (a :: t)
  | [], j, h => by simp at h
  | b :: t, 0, h => by
    simp only [List.getElem?_cons_zero, Option.some.injEq] at h
    subst h
    simpa using List.Perm.swap a b t
  | b :: t, j + 1, h => by
    simp only [List.getElem?_cons_succ] at h
    have ih := set_cons_perm a y t j h
    simp only [List.set_cons_succ]
    exact ((List.Perm.swap b y _).trans (ih.cons b)).trans (List.Perm.swap a b t)

theorem swapAt_perm : ∀ (d : List α) (i j : Nat), (swapAt d i j).Perm d
  | [], i, j => by simp [swapAt]
  | a :: t, 0, 0 => by simp [swapAt]
  | a :: t, 0, j + 1 => by
    unfold swapAt
    simp only [List.getElem?_cons_zero, List.getElem?_cons_succ]
    cases h : t[j]? with
    | none => simp
    | some y => simpa using set_cons_perm a y t j h
  | a :: t, i + 1, 0 => by
    unfold swapAt
    simp only [List.getElem?_cons_zero, List.getElem?_cons_succ]
    cases h : t[i]? with
    | none => simp
    | some x => simpa using set_cons_perm a x t i h
  | a :: t, i + 1, j + 1 => by
    have ih := swapAt_perm t i j
    unfold swapAt at ih ⊢
    simp only [List.getElem?_cons_succ]
    cases hx : t[i]? with
    | none => simp
    | some x =>
      cases hy : t[j]? with
      | none => simp
      | some y =>
        simp only [hx, hy] at ih
        simpa using ih.cons a

theorem insertDown_perm (less : α → α → Bool) (a : Nat) : ∀ (j : Nat) (d : List α),
    (insertDown less a j d).Perm d
  | 0, d => by simp [insertDown]
  | j + 1, d => by
    unfold insertDown
    split
    · exact (insertDown_perm less a j _).trans (swapAt_perm d _ _)
    · exact List.Perm.refl d

theorem insertionLoop_perm (less : α → α → Bool) (a b : Nat) : ∀ (fuel i : Nat) (d : List α),
    (insertionLoop less a b fuel i d).Perm d
  | 0, i, d => by simp [insertionLoop]
  | fuel + 1, i, d => by
    unfold insertionLoop
    split
    · exact (insertionLoop_perm less a b fuel _ _).trans (insertDown_perm less a i d)
    · exact List.Perm.refl d

theorem insertionSort_func_perm (less : α → α → Bool) (d : List α) (a b : Nat) :
    (insertionSort_func less d a b).Perm d :=
  insertionLoop_perm less a b _ _ d

theorem siftDown_func_perm (less : α → α → Bool) (hi first : Nat) : ∀ (fuel root : Nat) (d : List α),
    (siftDown_func less hi first fuel root d).Perm d
  | 0, root, d => by simp [siftDown_func]
  | fuel + 1, root, d => by
    unfold siftDown_func
    simp only
    split_ifs <;>
      first
      | exact List.Perm.refl d
      | exact (siftDown_func_perm less hi first fuel _ _).trans (swapAt_perm d _ _)

theorem heapBuild_perm (less : α → α → Bool) (hi first : Nat) : ∀ (i : Nat) (d : List α),
    (heapBuild less hi first i d).Perm d
  | 0, d => siftDown_func_perm less hi first hi 0 d
  | i + 1, d => by
    unfold heapBuild
    exact (heapBuild_perm less hi first i _).trans (siftDown_func_perm less hi first hi (i + 1) d)

theorem heapPop_perm (less : α → α → Bool) (first : Nat) : ∀ (i : Nat) (d : List α),
    (heapPop less first i d).Perm d
  | 0, d => by
    unfold heapPop
    exact (siftDown_func_perm less 0 first 0 0 _).trans (swapAt_perm d _ _)
  | i + 1, d => by
    unfold heapPop
    exact (heapPop_perm less first i _).trans
      ((siftDown_func_perm less (i + 1) first (i + 1) 0 _).trans (swapAt_perm d _ _))

theorem heapSort_func_perm (less : α → α → Bool) (d : List α) (a b : Nat) :
    (heapSort_func less d a b).Perm d :=
  (heapPop_perm less a _ _).trans (heapBuild_perm less _ a _ d)

theorem breakSwaps_perm (next : Nat → Nat) (a length modulus idx : Nat) : ∀ (k random : Nat) (d : List α),
    (breakSwaps next a length modulus idx k random d).Perm d
  | 0, random, d => by simp [breakSwaps]
  | k + 1, random, d => by
    unfold breakSwaps
    exact (breakSwaps_perm next a length modulus idx k _ _).trans (swapAt_perm d _ _)

theorem breakPatterns_func_perm (next : Nat → Nat) (d : List α) (a b : Nat) :
    (breakPatterns_func next d a b).Perm d := by
  unfold breakPatterns_func
  simp only
  split
  · exact breakSwaps_perm _ _ _ _ _ _ _ d
  · exact List.Perm.refl d

theorem reverseLoop_perm : ∀ (fuel i j : Nat) (d : List α), (reverseLoop fuel i j d).Perm d
  | 0, i, j, d => by simp [reverseLoop]
  | fuel + 1, i, j, d => by
    unfold reverseLoop
    split
    · exact (reverseLoop_perm fuel _ _ _).trans (swapAt_perm d _ _)
    · exact List.Perm.refl d

theorem reverseRange_func_perm (d : List α) (a b : Nat) : (reverseRange_func d a b).Perm d :=
  reverseLoop_perm _ _ _ d

theorem shiftSmaller_perm (less : α → α → Bool) : ∀ (j : Nat) (d : List α),
    (shiftSmaller less j d).Perm d
  | 0, d => by simp [shiftSmaller]
  | j + 1, d => by
    unfold shiftSmaller
    split
    · exact List.Perm.refl d
    · exact (shiftSmaller_perm less j _).trans (swapAt_perm d _ _)

theorem shiftGreater_perm (less : α → α → Bool) (b : Nat) : ∀ (fuel j : Nat) (d : List α),
    (shiftGreater less b fuel j d).Perm d
  | 0, j, d => by simp [shiftGreater]
  | fuel + 1, j, d => by
    unfold shiftGreater
    split_ifs <;>
      first
      | exact List.Perm.refl d
      | exact (shiftGreater_perm less b fuel _ _).trans (swapAt_perm d _ _)

theorem partialInsertionSteps_perm (less : α → α → Bool) (a b : Nat) :
    ∀ (steps i : Nat) (d : List α), (partialInsertionSteps less a b steps i d).1.Perm d
  | 0, i, d => by simp [partialInsertionSteps]
  | steps + 1, i, d => by
    unfold partialInsertionSteps
    simp only
    split_ifs <;>
      first
      | exact List.Perm.refl d
      | refine (partialInsertionSteps_perm less a b steps _ _).trans ?_
        first
        | exact ((shiftGreater_perm less b _ _ _).trans (shiftSmaller_perm less _ _)).trans
            (swapAt_perm d _ _)
        | exact (shiftGreater_perm less b _ _ _).trans (swapAt_perm d _ _)
        | exact (shiftSmaller_perm less _ _).trans (swapAt_perm d _ _)
        | exact swapAt_perm d _ _

theorem partialInsertionSort_func_perm (less : α → α → Bool) (d : List α) (a b : Nat) :
    (partialInsertionSort_func less d a b).1.Perm d :=
  partialInsertionSteps_perm less a b _ _ d

theorem partitionEqualLoop_perm (less : α → α → Bool) (a : Nat) :
    ∀ (fuel i j : Nat) (d : List α), (partitionEqualLoop less a fuel i j d).1.Perm d
  | 0, i, j, d => by simp [partitionEqualLoop]
  | fuel + 1, i, j, d => by
    unfold partitionEqualLoop
    simp only
    split
    · exact List.Perm.refl d
    · exact (partitionEqualLoop_perm less a fuel _ _ _).trans (swapAt_perm d _ _)

theorem partitionEqual_func_perm (less : α → α → Bool) (d : List α) (a b pivot : Nat) :
    (partitionEqual_func less d a b pivot).1.Perm d :=
  (partitionEqualLoop_perm less a _ _ _ _).trans (swapAt_perm d _ _)

theorem partitionLoop_perm (less : α → α → Bool) (a : Nat) :
    ∀ (fuel i j : Nat) (d : List α), (partitionLoop less a fuel i j d).1.Perm d
  | 0, i, j, d => by simp [partitionLoop]
  | fuel + 1, i, j, d => by
    unfold partitionLoop
    simp only
    split
    · exact List.Perm.refl d
    · exact (partitionLoop_perm less a fuel _ _ _).trans (swapAt_perm d _ _)

theorem partition_func_perm (less : α → α → Bool) (d : List α) (a b pivot : Nat) :
    (partition_func less d a b pivot).1.Perm d := by
  unfold partition_func
  simp only
  split
  · exact (swapAt_perm _ _ _).trans (swapAt_perm d _ _)
  · exact (swapAt_perm _ _ _).trans
      ((partitionLoop_perm less a _ _ _ _).trans ((swapAt_perm _ _ _).trans (swapAt_perm d _ _)))

theorem pdqsort_func_perm (next : Nat → Nat) (less : α → α → Bool) :
    ∀ (fuel : Nat) (d : List α) (a b limit : Nat) (wb wp : Bool),
      (pdqsort_func next less fuel d a b limit wb wp).Perm d
  | 0, d, a, b, limit, wb, wp => by simp [pdqsort_func]
  | fuel + 1, d, a, b, limit, wb, wp => by
    unfold pdqsort_func
    lift_lets
    intro length d1 limit1 ph d2 pivot hint pis pe pr mid leftLen rightLen balanceThreshold
    have hd1 : d1.Perm d := by
      show (if (!wb) = true then breakPatterns_func next d a b else d).Perm d
      split
      · exact breakPatterns_func_perm next d a b
      · exact List.Perm.refl d
    have hd2 : d2.Perm d := by
      show (if ph.2 = .decreasingHint then reverseRange_func d1 a b else d1).Perm d
      split
      · exact (reverseRange_func_perm _ a b).trans hd1
      · exact hd1
    have hd3 : pis.1.Perm d := by
      show (if (wb && wp && decide (hint = .increasingHint)) = true
        then partialInsertionSort_func less d2 a b else (d2, false)).1.Perm d
      split
      · exact (partialInsertionSort_func_perm less _ a b).trans hd2
      · exact hd2
    split
    · exact insertionSort_func_perm less d a b
    · split
      · exact heapSort_func_perm less d a b
      · split
        · exact hd3
        · split
          · exact (pdqsort_func_perm next less fuel _ _ _ _ _ _).trans
              ((partitionEqual_func_perm less _ a b _).trans hd3)
          · split
            · exact (pdqsort_func_perm next less fuel _ _ _ _ _ _).trans
                ((pdqsort_func_perm next less fuel _ _ _ _ _ _).trans
                  ((partition_func_perm less _ a b _).trans hd3))
            · exact (pdqsort_func_perm next less fuel _ _ _ _ _ _).trans
                ((pdqsort_func_perm next less fuel _ _ _ _ _ _).trans
                  ((partition_func_perm less _ a b _).trans hd3))

theorem sortSlice_perm (next : Nat → Nat) (less : α → α → Bool) (d : List α) :
    (sortSlice next less d).Perm d :=
  pdqsort_func_perm next less _ d _ _ _ _ _

end SortingProofs

/-! ## encoding/json: every value consumes input -/

theorem skipSpace_length_le : ∀ cs : List Char, (skipSpace cs).length ≤ cs.length
  | [] => by simp [skipSpace]
  | c :: cs => by
    unfold skipSpace
    split
    · exact Nat.le_succ_of_le (skipSpace_length_le cs)
    · exact Nat.le_refl _

theorem startsWith_length : ∀ (cs p : List Char), startsWith cs p = true → p.length ≤ cs.length
  | _, [], _ => by simp
  | [], _ :: _, h => by simp [startsWith] at h
  | c :: cs, p :: ps, h => by
    simp only [startsWith, Bool.and_eq_true] at h
    simpa using startsWith_length cs ps h.2

theorem spanDigits_length : ∀ cs : List Char,
    (spanDigits cs).1.length + (spanDigits cs).2.length = cs.length
  | [] => by simp [spanDigits]
  | c :: cs => by
    unfold spanDigits
    split
    · have := spanDigits_length cs
      simp only [List.length_cons]
      omega
    · simp

theorem unicodeEscape_used (rr : Nat) (after : List Char) :
    0 < (unicodeEscape rr after).2 := by
  unfold unicodeEscape
  split
  · split
    · split <;> simp
    · simp
  · simp

theorem scanString_length : ∀ (fuel : Nat) (cs acc : List Char) (s : String) (r : List Char),
    scanString fuel cs acc = some (s, r) → r.length < cs.length
  | 0, _, _, _, _, h => by simp [scanString] at h
  | fuel + 1, [], acc, s, r, h => by simp [scanString] at h
  | fuel + 1, c :: rest, acc, s, r, h => by
    unfold scanString at h
    simp only at h
    by_cases h1 : (c == '"') = true
    · rw [if_pos h1] at h
      have hr := (Prod.mk.inj (Option.some.inj h)).2
      rw [← hr]
      exact Nat.lt_succ_self _
    · rw [if_neg h1] at h
      by_cases h2 : (c == '\\') = true
      · rw [if_pos h2] at h
        cases rest with
        | nil => simp at h
        | cons e rest2 =>
          simp only at h
          by_cases h3 : (e == 'u') = true
          · rw [if_pos h3] at h
            cases hg : getu4 (c :: e :: rest2) with
            | none => rw [hg] at h; simp at h
            | some rr =>
              rw [hg] at h
              simp only at h
              have := scanString_length fuel _ _ s r h
              have hu := unicodeEscape_used rr ((c :: e :: rest2).drop 6)
              simp only [List.length_drop, List.length_cons] at this ⊢
              omega
          · rw [if_neg h3] at h
            cases hs : simpleEscape e with
            | none => rw [hs] at h; simp at h
            | some d =>
              rw [hs] at h
              simp only at h
              have := scanString_length fuel rest2 _ s r h
              simp only [List.length_cons]
              omega
      · rw [if_neg h2] at h
        by_cases h4 : c.toNat < 0x20
        · rw [if_pos h4] at h
          simp at h
        · rw [if_neg h4] at h
          have := scanString_length fuel rest _ s r h
          simp only [List.length_cons]
          omega

theorem scanSign_length (cs : List Char) : (scanSign cs).2.length ≤ cs.length := by
  cases cs with
  | nil => simp [scanSign]
  | cons c r =>
    simp only [scanSign]
    split <;> simp

theorem scanExpSign_length (cs : List Char) : (scanExpSign cs).2.length ≤ cs.length := by
  cases cs with
  | nil => simp [scanExpSign]
  | cons c r =>
    simp only [scanExpSign]
    split <;> simp

theorem spanDigits_rest_le (cs : List Char) : (spanDigits cs).2.length ≤ cs.length := by
  have := spanDigits_length cs
  omega

theorem scanFraction_length (cs fp r : List Char) (h : scanFraction cs = some (fp, r)) :
    r.length ≤ cs.length := by
  cases cs with
  | nil =>
    simp only [scanFraction, Option.some.injEq, Prod.mk.injEq] at h
    rw [← h.2]
  | cons c t =>
    simp only [scanFraction] at h
    split at h
    · split at h
      · simp at h
      · have hr := (Prod.mk.inj (Option.some.inj h)).2
        rw [← hr]
        exact Nat.le_succ_of_le (spanDigits_rest_le t)
    · have hr := (Prod.mk.inj (Option.some.inj h)).2
      rw [← hr]

theorem scanExponent_length (cs ep r : List Char) (h : scanExponent cs = some (ep, r)) :
    r.length ≤ cs.length := by
  cases cs with
  | nil =>
    simp only [scanExponent, Option.some.injEq, Prod.mk.injEq] at h
    rw [← h.2]
  | cons c t =>
    simp only [scanExponent] at h
    split at h
    · split at h
      · simp at h
      · have hr := (Prod.mk.inj (Option.some.inj h)).2
        rw [← hr]
        exact Nat.le_succ_of_le ((spanDigits_rest_le _).trans (scanExpSign_length t))
    · have hr := (Prod.mk.inj (Option.some.inj h)).2
      rw [← hr]

theorem scanNumber_length (cs : List Char) (lit : String) (r : List Char)
    (h : scanNumber cs = some (lit, r)) : r.length < cs.length := by
  unfold scanNumber at h
  simp only at h
  split at h
  · simp at h
  · next hne =>
    have hip : 0 < (spanDigits (scanSign cs).2).1.length := by
      simp only [Bool.or_eq_true, not_or] at hne
      cases hd : (spanDigits (scanSign cs).2).1 with
      | nil => rw [hd] at hne; simp at hne
      | cons a b => simp
    have h1 := spanDigits_length (scanSign cs).2
    have h2 := scanSign_length cs
    split at h
    · simp at h
    · next fr hfr =>
      have h3 := scanFraction_length _ fr.1 fr.2 hfr
      split at h
      · simp at h
      · next ex hex =>
        have h4 := scanExponent_length _ ex.1 ex.2 hex
        have hr := (Prod.mk.inj (Option.some.inj h)).2
        rw [← hr]
        omega

theorem parse_length : ∀ fuel : Nat,
    (∀ cs v r, parseValue fuel cs = some (v, r) → r.length < cs.length) ∧
    (∀ cs acc v r, parseItems fuel cs acc = some (v, r) → r.length < cs.length) ∧
    (∀ cs acc v r, parseMembers fuel cs acc = some (v, r) → r.length < cs.length)
  | 0 => by
    refine ⟨?_, ?_, ?_⟩ <;> intros <;> simp_all [parseValue, parseItems, parseMembers]
  | fuel + 1 => by
    obtain ⟨ihV, ihI, ihM⟩ := parse_length fuel
    refine ⟨?_, ?_, ?_⟩
    · intro cs v r h
      cases cs with
      | nil => simp [parseValue] at h
      | cons c rest =>
        unfold parseValue at h
        simp only at h
        by_cases h1 : (c == '\x7b') = true
        · rw [if_pos h1] at h
          have hs := skipSpace_length_le rest
          cases hsk : skipSpace rest with
          | nil => rw [hsk] at h; simp at h
          | cons d rest2 =>
            rw [hsk] at h hs
            simp only at h
            split at h
            · have hr := (Prod.mk.inj (Option.some.inj h)).2
              rw [← hr]
              simp only [List.length_cons] at hs ⊢
              omega
            · have := ihM _ _ _ _ h
              simp only [List.length_cons] at hs this ⊢
              omega
        · rw [if_neg h1] at h
          by_cases h2 : (c == '[') = true
          · rw [if_pos h2] at h
            have hs := skipSpace_length_le rest
            cases hsk : skipSpace rest with
            | nil => rw [hsk] at h; simp at h
            | cons d rest2 =>
              rw [hsk] at h hs
              simp only at h
              split at h
              · have hr := (Prod.mk.inj (Option.some.inj h)).2
                rw [← hr]
                simp only [List.length_cons] at hs ⊢
                omega
              · have := ihI _ _ _ _ h
                simp only [List.length_cons] at hs this ⊢
                omega
          · rw [if_neg h2] at h
            by_cases h3 : (c == '"') = true
            · rw [if_pos h3] at h
              split at h
              · next s r0 hss =>
                have := scanString_length _ _ _ _ _ hss
                have hr := (Prod.mk.inj (Option.some.inj h)).2
                rw [← hr]
                simp only [List.length_cons]
                omega
              · simp at h
            · rw [if_neg h3] at h
              split at h
              · next hst =>
                have := startsWith_length _ _ hst
                have hr := (Prod.mk.inj (Option.some.inj h)).2
                rw [← hr]
                simp only [List.length_drop, List.length_cons] at this ⊢
                have : "true".data.length = 4 := rfl
                omega
              · split at h
                · next hst =>
                  have := startsWith_length _ _ hst
                  have hr := (Prod.mk.inj (Option.some.inj h)).2
                  rw [← hr]
                  simp only [List.length_drop, List.length_cons] at this ⊢
                  have : "false".data.length = 5 := rfl
                  omega
                · split at h
                  · next hst =>
                    have := startsWith_length _ _ hst
                    have hr := (Prod.mk.inj (Option.some.inj h)).2
                    rw [← hr]
                    simp only [List.length_drop, List.length_cons] at this ⊢
                    have : "null".data.length = 4 := rfl
                    omega
                  · split at h
                    · next lit r0 hn =>
                      have := scanNumber_length _ _ _ hn
                      have hr := (Prod.mk.inj (Option.some.inj h)).2
                      rw [← hr]
                      exact this
                    · simp at h
    · intro cs acc v r h
      unfold parseItems at h
      split at h
      · simp at h
      · next v0 r0 hv =>
        have h0 := ihV _ _ _ hv
        have hs := skipSpace_length_le r0
        cases hsk : skipSpace r0 with
        | nil => rw [hsk] at h; simp at h
        | cons d r2 =>
          rw [hsk] at h hs
          simp only at h
          split at h
          · have := ihI _ _ _ _ h
            have hs2 := skipSpace_length_le r2
            simp only [List.length_cons] at hs
            omega
          · split at h
            · have hr := (Prod.mk.inj (Option.some.inj h)).2
              rw [← hr]
              simp only [List.length_cons] at hs
              omega
            · simp at h
    · intro cs acc v r h
      cases cs with
      | nil => simp [parseMembers] at h
      | cons q afterQuote =>
        unfold parseMembers at h
        simp only at h
        split at h
        · split at h
          · simp at h
          · next key r0 hss =>
            have h0 := scanString_length _ _ _ _ _ hss
            have hs := skipSpace_length_le r0
            cases hsk : skipSpace r0 with
            | nil => rw [hsk] at h; simp at h
            | cons colon r1 =>
              rw [hsk] at h hs
              simp only at h
              split at h
              · split at h
                · simp at h
                · next v0 r2 hv =>
                  have h1 := ihV _ _ _ hv
                  have hs1 := skipSpace_length_le r1
                  have hs2 := skipSpace_length_le r2
                  cases hsk2 : skipSpace r2 with
                  | nil => rw [hsk2] at h; simp at h
                  | cons d r3 =>
                    rw [hsk2] at h hs2
                    simp only at h
                    simp only [List.length_cons] at hs hs2 ⊢
                    split at h
                    · have := ihM _ _ _ _ h
                      have hs3 := skipSpace_length_le r3
                      omega
                    · split at h
                      · have hr := (Prod.mk.inj (Option.some.inj h)).2
                        rw [← hr]
                        omega
                      · simp at h
              · simp at h
        · simp at h

theorem parseItems_arr : ∀ (fuel : Nat) (cs : List Char) (acc : List Json) (v : Json)
    (r : List Char), parseItems fuel cs acc = some (v, r) → ∃ xs, v = .arr xs
  | 0, _, _, _, _, h => by simp [parseItems] at h
  | fuel + 1, cs, acc, v, r, h => by
    unfold parseItems at h
    split at h
    · simp at h
    · split at h
      · simp at h
      · split at h
        · exact parseItems_arr fuel _ _ v r h
        · split at h
          · exact ⟨_, ((Prod.mk.inj (Option.some.inj h)).1).symm⟩
          · simp at h

theorem parseMembers_raw : ∀ (fuel : Nat) (cs : List Char) (acc : List (String × String × Json))
    (v : Json) (r : List Char), parseMembers fuel cs acc = some (v, r) →
    (∀ m ∈ acc, 0 < m.2.1.length) → ∃ ms, v = .obj ms ∧ ∀ m ∈ ms, 0 < m.2.1.length
  | 0, _, _, _, _, h, _ => by simp [parseMembers] at h
  | fuel + 1, [], acc, v, r, h, _ => by simp [parseMembers] at h
  | fuel + 1, q :: afterQuote, acc, v, r, h, hacc => by
    unfold parseMembers at h
    simp only at h
    split at h
    · split at h
      · simp at h
      · next key r0 hss =>
        cases hsk : skipSpace r0 with
        | nil => rw [hsk] at h; simp at h
        | cons colon r1 =>
          rw [hsk] at h
          simp only at h
          split at h
          · split at h
            · simp at h
            · next v0 r2 hv =>
              have h1 := (parse_length fuel).1 _ _ _ hv
              have hraw : 0 < (String.mk ((skipSpace r1).take
                  ((skipSpace r1).length - r2.length))).length := by
                show 0 < ((skipSpace r1).take ((skipSpace r1).length - r2.length)).length
                rw [List.length_take]
                omega
              have hacc2 : ∀ m ∈ (key, String.mk ((skipSpace r1).take
                  ((skipSpace r1).length - r2.length)), v0) :: acc, 0 < m.2.1.length := by
                intro m hm
                rcases List.mem_cons.mp hm with rfl | hm
                · exact hraw
                · exact hacc m hm
              cases hsk2 : skipSpace r2 with
              | nil => rw [hsk2] at h; simp at h
              | cons d r3 =>
                rw [hsk2] at h
                simp only at h
                split at h
                · exact parseMembers_raw fuel _ _ v r h hacc2
                · split at h
                  · refine ⟨_, ((Prod.mk.inj (Option.some.inj h)).1).symm, ?_⟩
                    intro m hm
                    exact hacc2 m (List.mem_reverse.mp hm)
                  · simp at h
          · simp at h
    · simp at h

theorem parseValue_obj_raw (fuel : Nat) (cs : List Char) (ms : List (String × String × Json))
    (r : List Char) (h : parseValue fuel cs = some (.obj ms, r)) :
    ∀ m ∈ ms, 0 < m.2.1.length := by
  cases fuel with
  | zero => simp [parseValue] at h
  | succ fuel =>
    cases cs with
    | nil => simp [parseValue] at h
    | cons c rest =>
      unfold parseValue at h
      simp only at h
      by_cases h1 : (c == '\x7b') = true
      · rw [if_pos h1] at h
        cases hsk : skipSpace rest with
        | nil => rw [hsk] at h; simp at h
        | cons d rest2 =>
          rw [hsk] at h
          simp only at h
          split at h
          · have hv := (Prod.mk.inj (Option.some.inj h)).1
            injection hv with hv
            rw [← hv]
            simp
          · obtain ⟨ms2, hms, hall⟩ := parseMembers_raw fuel _ _ _ _ h (by simp)
            injection hms with hms
            rw [hms]
            exact hall
      · rw [if_neg h1] at h
        by_cases h2 : (c == '[') = true
        · rw [if_pos h2] at h
          cases hsk : skipSpace rest with
          | nil => rw [hsk] at h; simp at h
          | cons d rest2 =>
            rw [hsk] at h
            simp only at h
            split at h
            · have hv := (Prod.mk.inj (Option.some.inj h)).1
              cases hv
            · obtain ⟨xs, hxs⟩ := parseItems_arr fuel _ _ _ _ h
              cases hxs
        · rw [if_neg h2] at h
          by_cases h3 : (c == '"') = true
          · rw [if_pos h3] at h
            split at h
            · have hv := (Prod.mk.inj (Option.some.inj h)).1
              cases hv
            · simp at h
          · rw [if_neg h3] at h
            repeat' split at h
            all_goals first
              | (have hv := (Prod.mk.inj (Option.some.inj h)).1; cases hv)
              | (simp at h)

theorem parseDoc_text (data : String) (j : Json) (h : parseDoc data = some j) :
    parseText data = some j := by
  unfold parseDoc at h
  split at h
  · simp at h
  · exact h

theorem parseDoc_of_text (data : String) (j : Json) (h : parseText data = some j)
    (hd : nestingDepth false false 0 0 data.data ≤ maxNestingDepth) : parseDoc data = some j := by
  unfold parseDoc
  rw [if_neg (by omega)]
  exact h

theorem nestingDepth_space (depth deepest : Nat) (rest : List Char) :
    ∀ ws : List Char, (∀ c ∈ ws, isJsonSpace c = true) →
      nestingDepth false false depth deepest (ws ++ rest) =
        nestingDepth false false depth deepest rest
  | [], _ => rfl
  | c :: ws, h => by
    have hc := h c (List.mem_cons_self _ _)
    have ih := nestingDepth_space depth deepest rest ws
      (fun x hx => h x (List.mem_cons_of_mem _ hx))
    have h1 : (c == '"') = false := by
      cases hq : c == '"'
      · rfl
      · rw [beq_iff_eq] at hq; subst hq; revert hc; decide
    have h2 : (c == '[' || c == '\x7b') = false := by
      cases hq : (c == '[' || c == '\x7b')
      · rfl
      · simp only [Bool.or_eq_true, beq_iff_eq] at hq
        rcases hq with hq | hq <;> (subst hq; revert hc; decide)
    have h3 : (c == ']' || c == '\x7d') = false := by
      cases hq : (c == ']' || c == '\x7d')
      · rfl
      · simp only [Bool.or_eq_true, beq_iff_eq] at hq
        rcases hq with hq | hq <;> (subst hq; revert hc; decide)
    simp only [List.cons_append, nestingDepth, h1, h2, h3, Bool.false_eq_true, if_false]
    exact ih

theorem storedField_nonempty (name data raw : String) (h : storedField name data = some raw) :
    0 < raw.length := by
  unfold storedField at h
  split at h
  · next ms hp =>
    replace hp := parseDoc_text _ _ hp
    unfold parseText at hp
    split at hp
    · next v r hv =>
      split at hp
      · have hv2 := Option.some.inj hp
        subst hv2
        have hall := parseValue_obj_raw _ _ _ _ hv
        cases hl : (ms.filter (fun m => equalFold name m.1)).getLast? with
        | none => rw [hl] at h; simp at h
        | some m =>
          rw [hl] at h
          simp only [Option.map_some', Option.some.injEq] at h
          rw [← h]
          exact hall m (List.mem_of_mem_filter (List.mem_of_getLast?_eq_some hl))
      · simp at hp
    · simp at hp
  · simp at h

/-! ## Decoding into slices -/

theorem decElems_nil {α : Type} (elem : Dec α) (zero : α) (xs : List Json) :
    decElems elem zero xs [] = xs.map (fun x => elem x zero) := by
  induction xs with
  | nil => rfl
  | cons x xs ih => simp [decElems, ih]

theorem decElems_length {α : Type} (elem : Dec α) (zero : α) (xs : List Json) (old : List α) :
    (decElems elem zero xs old).length = xs.length := by
  induction xs generalizing old with
  | nil => simp [decElems]
  | cons x xs ih => cases old <;> simp [decElems, ih]

theorem decSlice_arr {α : Type} (elem : Dec α) (zero : α) (xs : List Json) :
    decSlice elem zero (.arr xs) none =
      (some (xs.map (fun x => (elem x zero).1)), xs.any (fun x => (elem x zero).2)) := by
  have hany : ∀ l : List Json, (l.map (fun x => elem x zero)).any Prod.snd =
      l.any (fun x => (elem x zero).2) := by
    intro l
    induction l with
    | nil => rfl
    | cons y ys ih => simp [ih]
  simp [decSlice, decSliceVar, GoSlice.elems, decElems_nil, List.map_map, Function.comp_def, hany]

/-! ## The payload edit -/

theorem removeCourse_fold (courseID : Int) (courses : List Recommendation)
    (acc : GoSlice Recommendation × Bool) :
    courses.foldl (fun (acc : GoSlice Recommendation × Bool) course =>
      if course.CourseID ≠ courseID then (acc.1.append course, acc.2) else (acc.1, true)) acc =
    (if courses.filter (fun x => decide (x.CourseID ≠ courseID)) = [] then acc.1
      else some (acc.1.elems ++ courses.filter (fun x => decide (x.CourseID ≠ courseID))),
     acc.2 || courses.any (fun x => decide (x.CourseID = courseID))) := by
  induction courses generalizing acc with
  | nil => simp
  | cons x xs ih =>
    simp only [List.foldl_cons]
    rw [ih]
    by_cases h : x.CourseID = courseID
    · simp [h]
    · simp [h, GoSlice.append, GoSlice.elems]

theorem removeCourse_spec (courses : List Recommendation) (courseID : Int) :
    (removeCourse courses courseID).1.elems = courses.filter (fun x => decide (x.CourseID ≠ courseID)) ∧
    (removeCourse courses courseID).2 = courses.any (fun x => decide (x.CourseID = courseID)) := by
  unfold removeCourse
  rw [removeCourse_fold]
  constructor
  · by_cases h : courses.filter (fun x => decide (x.CourseID ≠ courseID)) = []
    · rw [if_pos h, h]; rfl
    · rw [if_neg h]; simp [GoSlice.elems]
  · simp

theorem deleteCourse_at_payload (L : Lib) (s : Server) (c : Ctx) (recoID courseID : Int)
    (stored : String) (h : ReachesPayload s c recoID courseID stored) :
    ∃ user, deleteCourseFromRecommendation L s c =
      if (Unmarshal (decPayloadMap L) stored ⟨none, ""⟩).2 then
        ⟨errorResponse 500 (.wrap "failed to parse recommendation payload: " .jsonError),
          [.GetRecommendation recoID]⟩
      else if !(removeCourse
          (Unmarshal (decPayloadMap L) stored ⟨none, ""⟩).1.Courses.elems courseID).2 then
        ⟨errorResponse 404 (.text ("course ID " ++ toString courseID ++
          " not found in recommendation " ++ toString recoID)), [.GetRecommendation recoID]⟩
      else
        match s.store.UpdateRecommendationPayload
            ⟨recoID, user, newPayloadJSON (removeCourse
              (Unmarshal (decPayloadMap L) stored ⟨none, ""⟩).1.Courses.elems courseID).1
              (Unmarshal (decPayloadMap L) stored ⟨none, ""⟩).1.Scholarships⟩ with
        | .error e =>
          ⟨errorResponse 500 (.wrap "failed to save updated recommendation: " e),
            [.GetRecommendation recoID, .UpdateRecommendationPayload
              ⟨recoID, user, newPayloadJSON (removeCourse
                (Unmarshal (decPayloadMap L) stored ⟨none, ""⟩).1.Courses.elems courseID).1
                (Unmarshal (decPayloadMap L) stored ⟨none, ""⟩).1.Scholarships⟩]⟩
        | .ok _ =>
          ⟨⟨200, .obj [("courses", marshalCourses (removeCourse
              (Unmarshal (decPayloadMap L) stored ⟨none, ""⟩).1.Courses.elems courseID).1),
              ("message", .str "Course deleted.")]⟩,
            [.GetRecommendation recoID, .UpdateRecommendationPayload
              ⟨recoID, user, newPayloadJSON (removeCourse
                (Unmarshal (decPayloadMap L) stored ⟨none, ""⟩).1.Courses.elems courseID).1
                (Unmarshal (decPayloadMap L) stored ⟨none, ""⟩).1.Scholarships⟩]⟩ := by
  obtain ⟨payload, reco, h1, h2, h3, h4, h5, h6⟩ := h
  refine ⟨payload.Username, ?_⟩
  subst h6
  simp only [deleteCourseFromRecommendation, h1, h2, h3, h4, h5]
  simp

theorem marshalCourses_removeCourse (courses : List Recommendation) (courseID : Int) :
    marshalCourses (removeCourse courses courseID).1 =
      keptCoursesJSON (courses.filter (fun x => decide (x.CourseID ≠ courseID))) := by
  unfold removeCourse keptCoursesJSON
  rw [removeCourse_fold]
  by_cases h : courses.filter (fun x => decide (x.CourseID ≠ courseID)) = []
  · rw [if_pos h, if_pos h]; rfl
  · rw [if_neg h, if_neg h]; simp [marshalCourses, GoSlice.elems]

theorem deleteCourse_run (L : Lib) (s : Server) (c : Ctx) (recoID courseID : Int) (stored : String)
    (pm : payloadMap) (h : EditRequest L s c recoID courseID stored pm) :
    ∃ user, deleteCourseFromRecommendation L s c =
      if !(removeCourse pm.Courses.elems courseID).2 then
        ⟨errorResponse 404 (.text ("course ID " ++ toString courseID ++
          " not found in recommendation " ++ toString recoID)), [.GetRecommendation recoID]⟩
      else
        match s.store.UpdateRecommendationPayload
            ⟨recoID, user, newPayloadJSON (removeCourse pm.Courses.elems courseID).1 pm.Scholarships⟩ with
        | .error e =>
          ⟨errorResponse 500 (.wrap "failed to save updated recommendation: " e),
            [.GetRecommendation recoID, .UpdateRecommendationPayload
              ⟨recoID, user, newPayloadJSON (removeCourse pm.Courses.elems courseID).1 pm.Scholarships⟩]⟩
        | .ok _ =>
          ⟨⟨200, .obj [("courses", marshalCourses (removeCourse pm.Courses.elems courseID).1),
              ("message", .str "Course deleted.")]⟩,
            [.GetRecommendation recoID, .UpdateRecommendationPayload
              ⟨recoID, user, newPayloadJSON (removeCourse pm.Courses.elems courseID).1 pm.Scholarships⟩]⟩ := by
  obtain ⟨payload, reco, h1, h2, h3, h4, h5, h6, h7⟩ := h
  refine ⟨payload.Username, ?_⟩
  subst h6
  simp only [deleteCourseFromRecommendation, h1, h2, h3, h4, h5, h7]
  simp


theorem payload_scholarships_fold (L : Lib) (ms : List (String × String × Json))
    (acc : (payloadMap × List Recommendation) × Bool) :
    (ms.foldl (storeMember [
      Field.ofSlice "courses" (decRecommendation L) ⟨"", "", "", 0, "", "", 0⟩
        (fun p => p.Courses) (fun p v => { p with Courses := v }),
      (⟨"scholarships", fun raw _ p => ({ p with Scholarships := raw }, false)⟩ :
        Field payloadMap).keepSpare]) acc).1.1.Scholarships =
    (((ms.filter (fun m => equalFold "scholarships" m.1)).getLast?).map (fun m => m.2.1)).getD
      acc.1.1.Scholarships := by
  induction ms generalizing acc with
  | nil => simp
  | cons m ms ih =>
    simp only [List.foldl_cons]
    rw [ih]
    by_cases hs : equalFold "scholarships" m.1 = true
    · have hc : equalFold "courses" m.1 = false := by
        cases hcc : equalFold "courses" m.1
        · rfl
        · exfalso
          simp only [equalFold, beq_iff_eq] at hs hcc
          have := hcc.trans hs.symm
          revert this
          decide
      have hstep : (storeMember [
          Field.ofSlice "courses" (decRecommendation L) ⟨"", "", "", 0, "", "", 0⟩
            (fun p => p.Courses) (fun p v => { p with Courses := v }),
          (⟨"scholarships", fun raw _ p => ({ p with Scholarships := raw }, false)⟩ :
            Field payloadMap).keepSpare] acc m).1.1.Scholarships
          = m.2.1 := by
        simp [storeMember, List.find?, Field.ofSlice, Field.keepSpare, hc, hs]
      rw [hstep]
      simp only [List.filter_cons, hs, if_true, List.getLast?_cons]
      cases (List.filter (fun m => equalFold "scholarships" m.1) ms).getLast? <;> simp
    · have hstep : (storeMember [
          Field.ofSlice "courses" (decRecommendation L) ⟨"", "", "", 0, "", "", 0⟩
            (fun p => p.Courses) (fun p v => { p with Courses := v }),
          (⟨"scholarships", fun raw _ p => ({ p with Scholarships := raw }, false)⟩ :
            Field payloadMap).keepSpare] acc m).1.1.Scholarships
          = acc.1.1.Scholarships := by
        simp only [Bool.not_eq_true] at hs
        cases hc : equalFold "courses" m.1 <;>
          simp [storeMember, List.find?, Field.ofSlice, Field.keepSpare, hc, hs]
      rw [hstep]
      simp only [List.filter_cons, hs, Bool.false_eq_true, if_false]


theorem unmarshal_payload_scholarships (L : Lib) (stored : String) :
    (Unmarshal (decPayloadMap L) stored ⟨none, ""⟩).1.Scholarships =
      (storedField "scholarships" stored).getD "" := by
  unfold Unmarshal storedField
  cases hp : parseDoc stored with
  | none => rfl
  | some j =>
    cases j with
    | obj ms => simp only [decPayloadMap, freshSpare, decStruct]; rw [payload_scholarships_fold]
    | _ => rfl

theorem compactFrom_id (cs : List Char) (a b : Bool)
    (h : ∀ ch ∈ cs, isJsonSpace ch = false ∧ ch ≠ '<' ∧ ch ≠ '>' ∧ ch ≠ '&' ∧
      ch.toNat ≠ 0x2028 ∧ ch.toNat ≠ 0x2029) :
    compactFrom a b cs = cs := by
  induction cs generalizing a b with
  | nil => rfl
  | cons ch cs ih =>
    obtain ⟨h1, h2, h3, h4, h5, h6⟩ := h ch (List.mem_cons_self _ _)
    simp only [compactFrom]
    rw [ih _ _ (fun x hx => h x (List.mem_cons_of_mem _ hx))]
    simp [h1, h2, h3, h4, h5, h6]


theorem lookup_newPayload_scholarships (kept : GoSlice Recommendation) (raw : String) :
    (newPayloadJSON kept raw).lookup "scholarships" =
      if 0 < raw.length then some (.raw (compact raw)) else none := by
  unfold newPayloadJSON JOut.lookup
  by_cases h : 0 < raw.length
  · simp [h, List.find?]
  · simp [h, List.find?]

theorem lookup_newPayload_courses (kept : GoSlice Recommendation) (raw : String) :
    (newPayloadJSON kept raw).lookup "courses" = some (marshalCourses kept) := by
  simp [newPayloadJSON, JOut.lookup, List.find?]

theorem deleteCourse_writes (L : Lib) (s : Server) (c : Ctx) (recoID courseID : Int)
    (stored : String) (pm : payloadMap) (h : EditRequest L s c recoID courseID stored pm) :
    (deleteCourseFromRecommendation L s c).writes =
      if (removeCourse pm.Courses.elems courseID).2
      then [newPayloadJSON (removeCourse pm.Courses.elems courseID).1 pm.Scholarships] else [] := by
  obtain ⟨user, hrun⟩ := deleteCourse_run L s c recoID courseID stored pm h
  rw [hrun]
  cases hf : (removeCourse pm.Courses.elems courseID).2
  · simp [Run.writes, Call.written]
  · simp only [Bool.not_true, Bool.false_eq_true, if_false, if_true]
    cases s.store.UpdateRecommendationPayload
      ⟨recoID, user, newPayloadJSON (removeCourse pm.Courses.elems courseID).1 pm.Scholarships⟩ <;>
      simp [Run.writes, Call.written]

theorem filter_not_eq_eraseP {α : Type} (p : α → Bool) : ∀ (l : List α), l.countP p = 1 →
    l.filter (fun x => !p x) = l.eraseP p
  | [], h => by simp at h
  | x :: xs, h => by
    by_cases hx : p x = true
    · have h0 : xs.countP p = 0 := by
        rw [List.countP_cons_of_pos _ _ hx] at h
        omega
      have hall : ∀ a ∈ xs, ¬ p a = true := by
        rwa [List.countP_eq_zero] at h0
      simp only [List.filter_cons, hx, Bool.not_true, Bool.false_eq_true, if_false,
        List.eraseP_cons_of_pos]
      exact List.filter_eq_self.mpr (fun a ha => by simpa using hall a ha)
    · have h1 : xs.countP p = 1 := by
        rwa [List.countP_cons_of_neg _ _ hx] at h
      simp only [Bool.not_eq_true] at hx
      simp only [List.filter_cons, hx, Bool.not_false, if_true]
      rw [List.eraseP_cons_of_neg (by simp [hx]), filter_not_eq_eraseP p xs h1]

/-! ## The recommendation pipeline -/

theorem completedMap_fold (completed : List String) (m : BoolMap) (x : String) :
    completed.foldl (fun (m : BoolMap) code => m.set code true) m x =
      (m x || decide (x ∈ completed)) := by
  induction completed generalizing m with
  | nil => simp
  | cons a as ih =>
    simp only [List.foldl_cons]
    rw [ih]
    by_cases hx : x = a
    · simp [BoolMap.set, hx]
    · simp [BoolMap.set, hx]

theorem available_fold (keep : db.Course → Bool) (all : List db.Course) (acc : GoSlice db.Course) :
    (all.foldl (fun (available : GoSlice db.Course) course =>
      if keep course then available.append course else available) acc).elems =
      acc.elems ++ all.filter keep := by
  induction all generalizing acc with
  | nil => simp
  | cons a as ih =>
    simp only [List.foldl_cons]
    rw [ih]
    by_cases hk : keep a = true
    · simp [hk, GoSlice.append, GoSlice.elems]
    · simp [hk]

theorem callOpenAIChat_calls (http : String → openAIChatRequest → HttpResult)
    (apiKey model : String) (messages : List aiMessage) (expectJSON : Bool) :
    ∀ call ∈ (callOpenAIChat http apiKey model messages expectJSON).2,
      ∃ req, call = .OpenAIChat apiKey req ∧ req.Messages = messages := by
  intro call hcall
  unfold callOpenAIChat at hcall
  split at hcall
  · simp at hcall
  · simp only at hcall
    split at hcall
    · simp at hcall
    · simp only [List.mem_singleton] at hcall
      exact ⟨_, hcall, rfl⟩
    · repeat' split at hcall
      all_goals
        simp only [List.mem_singleton] at hcall
        exact ⟨_, hcall, rfl⟩

theorem extractCompletedCourses_calls (L : Lib) (s : Server) (text : String) :
    ∀ call ∈ (extractCompletedCourses L s text).2,
      call.isRecommendationCall = false ∧ call.written = none := by
  intro call hcall
  unfold extractCompletedCourses at hcall
  simp only at hcall
  have hsub : ∀ call ∈ (callOpenAIChat s.openai s.config.OpenAIAPIKey s.config.OpenAIModel
      [⟨"system", "You are a data extraction assistant. Analyze the academic transcript and return a JSON object with a single key \x27completed_codes\x27 containing a list of strings. Each string must be a Course Code (e.g. \x27CS101\x27) the student has completed."⟩,
        ⟨"user", text⟩] true).2, call.isRecommendationCall = false ∧ call.written = none := by
    intro call hc
    obtain ⟨req, rfl, hreq⟩ := callOpenAIChat_calls _ _ _ _ _ call hc
    refine ⟨?_, rfl⟩
    simp only [Call.isRecommendationCall, hreq, List.head?_cons, Option.map_some']
    decide
  split at hcall
  · next e calls heq =>
    rw [heq] at hsub
    exact hsub call hcall
  · next raw calls heq =>
    rw [heq] at hsub
    split at hcall <;> exact hsub call hcall

theorem createRecommendation_at_filter (L : Lib) (s : Server) (c : Ctx)
    (req : createRecommendationRequest) (candidates : List db.Course)
    (h : ReachesFilter L s c req candidates) :
    ∃ payload callsA,
      (∀ call ∈ callsA, call.isRecommendationCall = false ∧ call.written = none) ∧
      createRecommendation L s c =
        if candidates.length = 0 then
          ⟨⟨200, .obj [("courses", .arr []), ("message", .str "No new courses available.")]⟩,
            .GetTranscript req.TranscriptID :: callsA ++ [.ListAllCourses]⟩
        else
          match callOpenAIChat s.openai s.config.OpenAIAPIKey s.config.OpenAIModel
              (recommendationMessages L req candidates) true with
          | (.error e, calls2) =>
            ⟨errorResponse 500 e,
              .GetTranscript req.TranscriptID :: callsA ++ [.ListAllCourses] ++ calls2⟩
          | (.ok rawResponse, calls2) =>
            finishRecommendation L s c payload req candidates rawResponse
              (.GetTranscript req.TranscriptID :: callsA ++ [.ListAllCourses] ++ calls2) := by
  obtain ⟨payload, transcript, codes, callsA, allCourses, h1, h2, h3, h4, h5, h6, h7, h8⟩ := h
  have hA := extractCompletedCourses_calls L s transcript.TextExtracted.Str
  rw [h6] at hA
  refine ⟨payload, callsA, hA, ?_⟩
  subst h8
  simp only [createRecommendation, h1, h2, h3, h4, h5, h6, h7]
  by_cases hc : (filterAvailableCourses L allCourses.elems codes).elems = []
  · simp [hc, h5]
  · simp only [h5, decide_False, Bool.or_false, Bool.not_true, Bool.false_eq_true, if_false,
      List.length_eq_zero, hc]

theorem entryCourseID_marshal (r : Recommendation) :
    entryCourseID (marshalRecommendation r) = r.CourseID := by
  unfold entryCourseID marshalRecommendation JOut.lookup
  by_cases h1 : r.Code = "" <;> by_cases h2 : r.Link = "" <;> by_cases h3 : r.CourseID = 0 <;>
    simp [h1, h2, h3, List.find?]

theorem finishRecommendation_writes (L : Lib) (s : Server) (c : Ctx) (payload : token.Payload)
    (req : createRecommendationRequest) (candidates : List db.Course) (rawResponse : String)
    (before : List Call) :
    ∃ w, (finishRecommendation L s c payload req candidates rawResponse before).writes =
        before.filterMap Call.written ++ [w] ∧
      writtenCourses w = some ((finalRecs L candidates rawResponse).map marshalRecommendation) := by
  refine ⟨resultJSON (finalRecs L candidates rawResponse)
    (match s.store.ListScholarshipsByUser payload.Username with
      | .ok rows => rows
      | .error _ => none), ?_, ?_⟩
  · unfold finishRecommendation
    simp only
    split <;> simp [Run.writes, Call.written]
  · simp [writtenCourses, resultJSON, JOut.lookup, List.find?, marshalCourses, JOut.items]

theorem createRecommendation_persists (L : Lib) (s : Server) (c : Ctx)
    (req : createRecommendationRequest) (candidates : List db.Course)
    (rawResponse : String) (calls2 : List Call)
    (h : ReachesFilter L s c req candidates) (hne : candidates ≠ [])
    (hcall : callOpenAIChat s.openai s.config.OpenAIAPIKey s.config.OpenAIModel
      (recommendationMessages L req candidates) true = (.ok rawResponse, calls2)) :
    ∃ w, (createRecommendation L s c).writes = [w] ∧
      writtenCourses w = some ((finalRecs L candidates rawResponse).map marshalRecommendation) := by
  obtain ⟨payload, callsA, hA, hrun⟩ := createRecommendation_at_filter L s c req candidates h
  have hlen : ¬ candidates.length = 0 := by simpa using hne
  rw [hrun, if_neg hlen, hcall]
  obtain ⟨w, hw, hcourses⟩ := finishRecommendation_writes L s c payload req candidates rawResponse
    (.GetTranscript req.TranscriptID :: callsA ++ [.ListAllCourses] ++ calls2)
  refine ⟨w, ?_, hcourses⟩
  simp only at hw ⊢
  rw [hw]
  have h2 : ∀ call ∈ calls2, call.written = none := by
    intro call hc
    have := callOpenAIChat_calls s.openai s.config.OpenAIAPIKey s.config.OpenAIModel
      (recommendationMessages L req candidates) true
    rw [hcall] at this
    obtain ⟨r, rfl, _⟩ := this call hc
    rfl
  have hnil : (Call.GetTranscript req.TranscriptID :: callsA ++ [Call.ListAllCourses] ++
      calls2).filterMap Call.written = [] := by
    rw [List.filterMap_eq_nil_iff]
    intro call hc
    simp only [List.cons_append, List.mem_cons, List.mem_append, List.mem_singleton,
      List.not_mem_nil, or_false] at hc
    rcases hc with rfl | (hc | rfl) | hc
    · rfl
    · exact (hA call hc).2
    · rfl
    · exact h2 call hc
  rw [hnil]
  rfl

/-! ## The streaming relay and its sentinel -/

/-- Every stream relayed from an upstream body ends with the completion sentinel. -/
theorem chatStreamRelay_response_ends_with_done (status : Nat) (body : String) :
    doneEvent.data <:+ (chatStreamRelay (.response status body)).data := by
  simp [chatStreamRelay, String.data_append]

/-- C1 (code at the failing input): when the connection to the inference endpoint
fails, the outward stream is the single error event and nothing else; it does
not end with the completion sentinel `data: [DONE]` and a blank line. The same
holds when building the request fails. -/
theorem chatStreamRelay_connection_failure (e : GoError) :
    chatStreamRelay (.transportError e) = "event: error\ndata: connection failed\n\n" ∧
    ¬ doneEvent.data <:+ (chatStreamRelay (.transportError e)).data ∧
    chatStreamRelay (.buildError e) = "event: error\ndata: build error\n\n" ∧
    ¬ doneEvent.data <:+ (chatStreamRelay (.buildError e)).data := by
  refine ⟨rfl, ?_, rfl, ?_⟩ <;> simp only [chatStreamRelay] <;> decide

/-! ## The claims on payload editing and recommendation -/

set_option maxRecDepth 100000

/-- The example request reaches the payload edit whenever the stored payload decodes. -/
theorem exampleEdit (stored courseParam : String) (courseID : Int)
    (hc : parseIDParam (exampleCtx "3" courseParam) "course_id" = .ok courseID)
    (hd : (Unmarshal (decPayloadMap asciiLib) stored ⟨none, ""⟩).2 = false) :
    EditRequest asciiLib (exampleServer stored "" "") (exampleCtx "3" courseParam) 3 courseID
      stored (Unmarshal (decPayloadMap asciiLib) stored ⟨none, ""⟩).1 :=
  ⟨⟨"alice"⟩, ⟨3, "alice", ⟨1, true⟩, stored, "t0"⟩, rfl, rfl, hc, rfl, rfl, rfl,
    Prod.ext rfl hd⟩

/-- The example request reaches the stored payload, whatever that payload is. -/
theorem examplePayload (stored courseParam : String) (courseID : Int)
    (hc : parseIDParam (exampleCtx "3" courseParam) "course_id" = .ok courseID) :
    ReachesPayload (exampleServer stored "" "") (exampleCtx "3" courseParam) 3 courseID stored :=
  ⟨⟨"alice"⟩, ⟨3, "alice", ⟨1, true⟩, stored, "t0"⟩, rfl, rfl, hc, rfl, rfl, rfl⟩

/-- The example request reaches the candidate filter with the codes the extraction call yields. -/
theorem exampleReaches (completed recommended : String) (codes : List String)
    (h : (extractCompletedCourses asciiLib (exampleServer "" completed recommended)
      "CS101 Introduction to Programming, grade 5").1 = .ok codes) :
    ReachesFilter asciiLib (exampleServer "" completed recommended) (exampleCtx "" "")
      ⟨1, "machine learning"⟩ (filterAvailableCourses asciiLib exampleCatalog codes).elems :=
  ⟨⟨"alice"⟩, ⟨1, "alice", ⟨"CS101 Introduction to Programming, grade 5", true⟩⟩, codes,
    (extractCompletedCourses asciiLib (exampleServer "" completed recommended)
      "CS101 Introduction to Programming, grade 5").2, some exampleCatalog,
    rfl, rfl, rfl, rfl, by decide, Prod.ext h rfl, rfl, rfl⟩

/-- C2 (counterexample): the stored payload `storedTwo` has the key `scholarships`
with the bytes `[ {"title":"R & D award","link":"https://x.org/a"} ]`; after
deleting course 7 the written payload carries under `scholarships` the bytes
`[{"title":"R \u0026 D award","link":"https://x.org/a"}]`: the white space is gone
and the ampersand is escaped, so the bytes are not the stored ones. And the
stored payload `storedCaps` has no key `scholarships` (its keys are `courses` and
`Scholarships`), yet the payload written for it has the key `scholarships`. -/
theorem deleteCourse_scholarships_bytes_counterexample :
    storedField "scholarships" storedTwo =
      some "[ \x7b\"title\":\"R & D award\",\"link\":\"https://x.org/a\"\x7d ]" ∧
    (deleteCourseFromRecommendation asciiLib (exampleServer storedTwo "" "")
      (exampleCtx "3" "7")).writes.map (fun w => (w.lookup "scholarships").bind JOut.rawText) =
      [some "[\x7b\"title\":\"R \\u0026 D award\",\"link\":\"https://x.org/a\"\x7d]"] ∧
    (deleteCourseFromRecommendation asciiLib (exampleServer storedTwo "" "")
      (exampleCtx "3" "7")).writes.map (fun w => (w.lookup "scholarships").bind JOut.rawText) ≠
      [storedField "scholarships" storedTwo] ∧
    storedKeys storedCaps = ["courses", "Scholarships"] ∧
    (deleteCourseFromRecommendation asciiLib (exampleServer storedCaps "" "")
      (exampleCtx "3" "7")).writes.map JOut.keys = [["courses", "scholarships"]] := by
  decide

/-- C2 (amended): every payload written by `deleteCourseFromRecommendation`
carries under `scholarships` the compacted form (white space outside strings
dropped; `<`, `>`, `&`, U+2028 and U+2029 escaped) of the text the stored payload
has for the last member whose key selects the field `scholarships` (exactly or
under case folding), and has no `scholarships` key when the stored payload has
no such member; the compacted form is the stored text itself whenever that text
has no white space and none of the five escaped characters. -/
theorem deleteCourse_scholarships_compacted (L : Lib) (s : Server) (c : Ctx)
    (recoID courseID : Int) (stored : String) (pm : payloadMap)
    (h : EditRequest L s c recoID courseID stored pm) :
    (∀ w ∈ (deleteCourseFromRecommendation L s c).writes,
      w.lookup "scholarships" =
        (storedField "scholarships" stored).map (fun raw => .raw (compact raw))) ∧
    (∀ raw : String, (∀ ch ∈ raw.data, isJsonSpace ch = false ∧ ch ≠ '<' ∧ ch ≠ '>' ∧ ch ≠ '&' ∧
      ch.toNat ≠ 0x2028 ∧ ch.toNat ≠ 0x2029) → compact raw = raw) := by
  constructor
  · intro w hw
    rw [deleteCourse_writes L s c recoID courseID stored pm h] at hw
    have hs : pm.Scholarships = (storedField "scholarships" stored).getD "" := by
      obtain ⟨_, _, _, _, _, _, _, _, hdec⟩ := h
      have := unmarshal_payload_scholarships L stored
      rw [hdec] at this
      exact this
    split at hw
    · simp only [List.mem_singleton] at hw
      subst hw
      rw [lookup_newPayload_scholarships, hs]
      cases hf : storedField "scholarships" stored with
      | none => simp
      | some raw =>
        have := storedField_nonempty _ _ _ hf
        simp [this]
    · simp at hw
  · intro raw hraw
    unfold compact
    rw [compactFrom_id _ _ _ hraw]

/-- C3 (counterexample): the stored payload `storedBadMatch` has one course, with
id 7, so no entry has the target id 9; its `match` is a string, the payload
does not decode, and the answer is 500 (internal error), not 404. And in the
stored payload `storedRepeat` the value of `courses` is `[{"title":"B"}]`, which
has no entry with the target id 9; the decoder stores that entry into the
element the first `courses` member left behind, the decoded entry has title
`B`, code `X1` and id 9, and the handler answers 200 and calls
`UpdateRecommendationPayload` with `{"courses":null}`. -/
theorem deleteCourse_absent_course_counterexample :
    (Unmarshal (decPayloadMap asciiLib) storedBadMatch ⟨none, ""⟩).1.Courses.elems.map
      (fun x => x.CourseID) = [7] ∧
    (Unmarshal (decPayloadMap asciiLib) storedBadMatch ⟨none, ""⟩).2 = true ∧
    (deleteCourseFromRecommendation asciiLib (exampleServer storedBadMatch "" "")
      (exampleCtx "3" "9")).response.status = 500 ∧
    storedField "courses" storedRepeat = some "[\x7b\"title\":\"B\"\x7d]" ∧
    Unmarshal (decPayloadMap asciiLib) storedRepeat ⟨none, ""⟩ =
      (⟨some [⟨"", "B", "", 0, "X1", "", 9⟩], ""⟩, false) ∧
    (deleteCourseFromRecommendation asciiLib (exampleServer storedRepeat "" "")
      (exampleCtx "3" "9")).response.status = 200 ∧
    (deleteCourseFromRecommendation asciiLib (exampleServer storedRepeat "" "")
      (exampleCtx "3" "9")).writes = [.obj [("courses", .null)]] :=
  ⟨by decide, by decide, by decide, by decide, by decide, by decide, rfl⟩

/-- C3 (amended): when the request reaches the stored payload and no entry of the
`courses` list decoded from that payload has the target course id,
`deleteCourseFromRecommendation` never calls `UpdateRecommendationPayload`: its
only external call is `GetRecommendation` and it writes no payload. It answers
404 (not found, naming the course and the recommendation) when the payload
decodes without error, and 500 when the payload does not decode. -/
theorem deleteCourse_absent_course_not_found (L : Lib) (s : Server) (c : Ctx)
    (recoID courseID : Int) (stored : String)
    (h : ReachesPayload s c recoID courseID stored)
    (habsent : ∀ x ∈ (Unmarshal (decPayloadMap L) stored ⟨none, ""⟩).1.Courses.elems,
      x.CourseID ≠ courseID) :
    ((Unmarshal (decPayloadMap L) stored ⟨none, ""⟩).2 = false →
      (deleteCourseFromRecommendation L s c).response =
        errorResponse 404 (.text ("course ID " ++ toString courseID ++
          " not found in recommendation " ++ toString recoID))) ∧
    ((Unmarshal (decPayloadMap L) stored ⟨none, ""⟩).2 = true →
      (deleteCourseFromRecommendation L s c).response =
        errorResponse 500 (.wrap "failed to parse recommendation payload: " .jsonError)) ∧
    (deleteCourseFromRecommendation L s c).calls = [.GetRecommendation recoID] ∧
    (deleteCourseFromRecommendation L s c).writes = [] := by
  obtain ⟨user, hrun⟩ := deleteCourse_at_payload L s c recoID courseID stored h
  have hf : (removeCourse
      (Unmarshal (decPayloadMap L) stored ⟨none, ""⟩).1.Courses.elems courseID).2 = false := by
    rw [(removeCourse_spec _ _).2]
    simpa using habsent
  rw [hrun, hf]
  cases hd : (Unmarshal (decPayloadMap L) stored ⟨none, ""⟩).2 <;>
    simp [Run.writes, Call.written]

/-- C4 (amended): when the stored payload decodes without error and the decoded
`courses` list has an entry with the target course id,
`deleteCourseFromRecommendation` removes every entry with that id: it writes one
payload, whose `courses` value is the decoded list without the entries whose
`course_id` equals the target, the other entries in their original order, each
marshalled again from its decoded fields (`null` when no entry is left), and it
returns that value when the store accepts the write; when exactly one decoded
entry has the target id, that is the decoded list with this single entry
removed and the length drops by exactly one. -/
theorem deleteCourse_removes_matching_entries (L : Lib) (s : Server) (c : Ctx)
    (recoID courseID : Int) (stored : String) (pm : payloadMap)
    (h : EditRequest L s c recoID courseID stored pm)
    (hfound : ∃ x ∈ pm.Courses.elems, x.CourseID = courseID) :
    (∃ w, (deleteCourseFromRecommendation L s c).writes = [w] ∧
      w.lookup "courses" = some (keptCoursesJSON
        (pm.Courses.elems.filter (fun x => decide (x.CourseID ≠ courseID))))) ∧
    ((deleteCourseFromRecommendation L s c).response.status = 200 →
      (deleteCourseFromRecommendation L s c).response.body.lookup "courses" =
        some (keptCoursesJSON
          (pm.Courses.elems.filter (fun x => decide (x.CourseID ≠ courseID))))) ∧
    (pm.Courses.elems.countP (fun x => decide (x.CourseID = courseID)) = 1 →
      pm.Courses.elems.filter (fun x => decide (x.CourseID ≠ courseID)) =
        pm.Courses.elems.eraseP (fun x => decide (x.CourseID = courseID)) ∧
      (pm.Courses.elems.filter (fun x => decide (x.CourseID ≠ courseID))).length + 1 =
        pm.Courses.elems.length) := by
  have hf : (removeCourse pm.Courses.elems courseID).2 = true := by
    rw [(removeCourse_spec _ _).2]
    simpa using hfound
  refine ⟨⟨newPayloadJSON (removeCourse pm.Courses.elems courseID).1 pm.Scholarships, ?_, ?_⟩,
    ?_, ?_⟩
  · rw [deleteCourse_writes L s c recoID courseID stored pm h, hf]
    rfl
  · rw [lookup_newPayload_courses, marshalCourses_removeCourse]
  · obtain ⟨user, hrun⟩ := deleteCourse_run L s c recoID courseID stored pm h
    rw [hrun, hf]
    simp only [Bool.not_true, Bool.false_eq_true, if_false]
    cases s.store.UpdateRecommendationPayload
      ⟨recoID, user, newPayloadJSON (removeCourse pm.Courses.elems courseID).1 pm.Scholarships⟩
    · simp [errorResponse]
    · simp [JOut.lookup, List.find?, marshalCourses_removeCourse]
  · intro hcount
    have hE : pm.Courses.elems.filter (fun x => decide (x.CourseID ≠ courseID)) =
        pm.Courses.elems.eraseP (fun x => decide (x.CourseID = courseID)) := by
      rw [← filter_not_eq_eraseP _ _ hcount]
      congr 1
      funext x
      simp
    refine ⟨hE, ?_⟩
    rw [hE]
    obtain ⟨x, hx, hxc⟩ := hfound
    have := List.length_eraseP_of_mem hx (p := fun x => decide (x.CourseID = courseID))
      (by simpa using hxc)
    have hpos : 0 < pm.Courses.elems.length := List.length_pos_of_mem hx
    omega

/-- C9: for every catalog and every completed-code list (trimmed and upper-cased
or not), `filterAvailableCourses` returns exactly the catalog courses whose
trimmed, upper-cased code is not in the completed list, in catalog order and
unaltered. -/
theorem filterAvailableCourses_spec (L : Lib) (allCourses : List db.Course)
    (completedCodes : List String) :
    (filterAvailableCourses L allCourses completedCodes).elems =
      allCourses.filter (fun course =>
        decide (L.ToUpper (TrimSpace course.Code) ∉ completedCodes)) := by
  unfold filterAvailableCourses
  simp only
  have hk : (fun (available : GoSlice db.Course) (course : db.Course) =>
      if (!(completedCodes.foldl (fun (m : BoolMap) code => m.set code true) (fun _ => false))
          (L.ToUpper (TrimSpace course.Code))) = true
      then available.append course else available) =
      (fun available course =>
        if (fun course => decide (L.ToUpper (TrimSpace course.Code) ∉ completedCodes)) course
        then available.append course else available) := by
    funext available course
    rw [completedMap_fold]
    simp
  rw [hk, available_fold]
  simp [GoSlice.elems]


/-- C5 (code at the failing input): deleting course 7 from the stored payload
`storedOne`, whose only course is 7, writes the payload `{"courses":null}` and
answers with `"courses":null`: after the last course is removed the value under
`courses` is `null`, not a JSON array. -/
theorem deleteCourse_last_course_writes_null :
    (deleteCourseFromRecommendation asciiLib (exampleServer storedOne "" "")
      (exampleCtx "3" "7")).writes = [.obj [("courses", .null)]] ∧
    (deleteCourseFromRecommendation asciiLib (exampleServer storedOne "" "")
      (exampleCtx "3" "7")).response.body =
        .obj [("courses", .null), ("message", .str "Course deleted.")] :=
  ⟨rfl, rfl⟩

/-- Witness of C3 (amended): course 9 is absent from the stored payload
`storedTwo`, which decodes without error. -/
theorem deleteCourse_absent_course_not_found_witness :
    (deleteCourseFromRecommendation asciiLib (exampleServer storedTwo "" "")
      (exampleCtx "3" "9")).response =
        errorResponse 404 (.text "course ID 9 not found in recommendation 3") ∧
    (deleteCourseFromRecommendation asciiLib (exampleServer storedTwo "" "")
      (exampleCtx "3" "9")).calls = [.GetRecommendation 3] ∧
    (deleteCourseFromRecommendation asciiLib (exampleServer storedTwo "" "")
      (exampleCtx "3" "9")).writes = [] :=
  ⟨(deleteCourse_absent_course_not_found asciiLib (exampleServer storedTwo "" "")
      (exampleCtx "3" "9") 3 9 storedTwo (examplePayload storedTwo "9" 9 rfl) (by decide)).1
      (by decide),
    (deleteCourse_absent_course_not_found asciiLib (exampleServer storedTwo "" "")
      (exampleCtx "3" "9") 3 9 storedTwo (examplePayload storedTwo "9" 9 rfl) (by decide)).2.2⟩

/-- Witness of C2 (amended): deleting course 7 from `storedTwo` writes one payload. -/
theorem deleteCourse_scholarships_compacted_witness :
    EditRequest asciiLib (exampleServer storedTwo "" "") (exampleCtx "3" "7") 3 7 storedTwo
      (Unmarshal (decPayloadMap asciiLib) storedTwo ⟨none, ""⟩).1 ∧
    (deleteCourseFromRecommendation asciiLib (exampleServer storedTwo "" "")
      (exampleCtx "3" "7")).writes.length = 1 ∧
    (∀ w ∈ (deleteCourseFromRecommendation asciiLib (exampleServer storedTwo "" "")
        (exampleCtx "3" "7")).writes,
      w.lookup "scholarships" =
        (storedField "scholarships" storedTwo).map (fun raw => .raw (compact raw))) :=
  ⟨exampleEdit storedTwo "7" 7 rfl (by decide), by decide,
    (deleteCourse_scholarships_compacted asciiLib (exampleServer storedTwo "" "")
      (exampleCtx "3" "7") 3 7 storedTwo _ (exampleEdit storedTwo "7" 7 rfl (by decide))).1⟩

/-- C4 (counterexample): the stored payload `storedDup` lists the course ids
7, 8, 7; deleting course 7 persists a list with the single id 8, so the length
drops by two, not by exactly one. The stored payload `storedBadMatch` has an
entry with the target id 7 but does not decode: the answer is 500 and nothing
is persisted. And the entry with id 8 of the stored payload `storedYear` has
the members `title`, `course_id` and `year`; the entry persisted for it has the
members `type`, `title`, `description`, `match` and `course_id`, so it is not
the stored entry unchanged. -/
theorem deleteCourse_duplicate_id_counterexample :
    (Unmarshal (decPayloadMap asciiLib) storedDup ⟨none, ""⟩).1.Courses.elems.map
      (fun x => x.CourseID) = [7, 8, 7] ∧
    (deleteCourseFromRecommendation asciiLib (exampleServer storedDup "" "")
      (exampleCtx "3" "7")).writes.map
        (fun w => (writtenCourses w).map (List.map entryCourseID)) = [some [8]] ∧
    (deleteCourseFromRecommendation asciiLib (exampleServer storedDup "" "")
      (exampleCtx "3" "7")).writes.map (fun w => (writtenCourses w).map List.length) ≠
        [some (3 - 1)] ∧
    (Unmarshal (decPayloadMap asciiLib) storedBadMatch ⟨none, ""⟩).1.Courses.elems.map
      (fun x => x.CourseID) = [7] ∧
    (deleteCourseFromRecommendation asciiLib (exampleServer storedBadMatch "" "")
      (exampleCtx "3" "7")).response.status = 500 ∧
    (deleteCourseFromRecommendation asciiLib (exampleServer storedBadMatch "" "")
      (exampleCtx "3" "7")).writes.length = 0 ∧
    storedField "courses" storedYear =
      some ("[\x7b\"title\":\"A\",\"course_id\":7\x7d," ++
        "\x7b\"title\":\"B\",\"course_id\":8,\"year\":2024\x7d]") ∧
    (deleteCourseFromRecommendation asciiLib (exampleServer storedYear "" "")
      (exampleCtx "3" "7")).writes.map (fun w => (writtenCourses w).map (List.map JOut.keys)) =
        [some [["type", "title", "description", "match", "course_id"]]] := by
  decide

/-- Witness of C4 (amended): deleting course 7 from `storedTwo`, whose decoded
list has the ids 7 and 8. -/
theorem deleteCourse_removes_matching_entries_witness :
    (∃ w, (deleteCourseFromRecommendation asciiLib (exampleServer storedTwo "" "")
        (exampleCtx "3" "7")).writes = [w] ∧
      w.lookup "courses" = some (keptCoursesJSON
        ((Unmarshal (decPayloadMap asciiLib) storedTwo ⟨none, ""⟩).1.Courses.elems.filter
          (fun x => decide (x.CourseID ≠ 7))))) ∧
    (Unmarshal (decPayloadMap asciiLib) storedTwo ⟨none, ""⟩).1.Courses.elems.filter
        (fun x => decide (x.CourseID ≠ 7)) =
      [⟨"course", "Databases", "fits", 80, "CS301", "", 8⟩] ∧
    ((Unmarshal (decPayloadMap asciiLib) storedTwo ⟨none, ""⟩).1.Courses.elems.filter
        (fun x => decide (x.CourseID ≠ 7))).length + 1 =
      (Unmarshal (decPayloadMap asciiLib) storedTwo ⟨none, ""⟩).1.Courses.elems.length :=
  ⟨(deleteCourse_removes_matching_entries asciiLib (exampleServer storedTwo "" "")
      (exampleCtx "3" "7") 3 7 storedTwo _ (exampleEdit storedTwo "7" 7 rfl (by decide))
      (by decide)).1,
    by decide,
    ((deleteCourse_removes_matching_entries asciiLib (exampleServer storedTwo "" "")
      (exampleCtx "3" "7") 3 7 storedTwo _ (exampleEdit storedTwo "7" 7 rfl (by decide))
      (by decide)).2.2 (by decide)).2⟩

/-- C6 (counterexample): when the inference response names course 2 twice, the
`courses` list placed in the persisted payload has two entries with
`course_id` 2. -/
theorem createRecommendation_duplicate_ids_counterexample :
    (createRecommendation asciiLib (exampleServer "" completedOne respDup)
      (exampleCtx "" "")).writes.map
        (fun w => (writtenCourses w).map (List.map entryCourseID)) = [some [2, 2]] ∧
    ¬ ([2, 2] : List Int).Nodup := by
  decide

/-- C6 (amended): when `createRecommendation` persists a payload, the `course_id`s
of its `courses` entries are the `course_id`s of the items parsed from the
inference response, each as often as it occurs there (in sorted order); hence
no two entries share a `course_id` exactly when no two parsed items do. The
handler does not remove duplicates. -/
theorem createRecommendation_course_ids (L : Lib) (s : Server) (c : Ctx)
    (req : createRecommendationRequest) (candidates : List db.Course)
    (rawResponse : String) (calls2 : List Call)
    (h : ReachesFilter L s c req candidates) (hne : candidates ≠ [])
    (hcall : callOpenAIChat s.openai s.config.OpenAIAPIKey s.config.OpenAIModel
      (recommendationMessages L req candidates) true = (.ok rawResponse, calls2)) :
    ∃ w ids, (createRecommendation L s c).writes = [w] ∧
      (writtenCourses w).map (List.map entryCourseID) = some ids ∧
      ids.Perm ((parseAIResult L rawResponse).elems.map (fun r => r.CourseID)) ∧
      (ids.Nodup ↔ ((parseAIResult L rawResponse).elems.map (fun r => r.CourseID)).Nodup) := by
  obtain ⟨w, hw, hcourses⟩ :=
    createRecommendation_persists L s c req candidates rawResponse calls2 h hne hcall
  have hperm : ((finalRecs L candidates rawResponse).map (fun r => r.CourseID)).Perm
      ((parseAIResult L rawResponse).elems.map (fun r => r.CourseID)) := by
    have := (sortSlice_perm L.Xorshift (fun (x y : Recommendation) => decide (x.Match > y.Match))
      ((parseAIResult L rawResponse).elems.map (toRecommendation candidates))).map
        (fun r => r.CourseID)
    simpa [finalRecs, List.map_map, Function.comp_def, toRecommendation] using this
  refine ⟨w, (finalRecs L candidates rawResponse).map (fun r => r.CourseID), hw, ?_, hperm,
    hperm.nodup_iff⟩
  rw [hcourses]
  simp [List.map_map, Function.comp_def, entryCourseID_marshal]

/-- C7 (code at the failing input): for the inference response `respThirteen`
(courses 1 to 12 with match 50, then course 13 with match 60) the final list of
`createRecommendation`, sorted with `sort.Slice`, has the courses in the order
13, 7, 3, 4, 5, 6, 1, 8, 9, 10, 11, 12, 2, whereas the stable descending sort
(what `sort.SliceStable` returns, as used by `generateScholarships`) keeps the
equal-match courses in response order: 13, 1, 2, ..., 12. -/
theorem finalRecs_thirteen_items_not_stable :
    ((parseAIResult asciiLib respThirteen).elems.map (fun r => (r.CourseID, r.Match))) =
      [(1, 50), (2, 50), (3, 50), (4, 50), (5, 50), (6, 50), (7, 50), (8, 50), (9, 50),
        (10, 50), (11, 50), (12, 50), (13, 60)] ∧
    (finalRecs asciiLib exampleCatalog respThirteen).map (fun r => r.CourseID) =
      [13, 7, 3, 4, 5, 6, 1, 8, 9, 10, 11, 12, 2] ∧
    (sortSliceStable (fun (x y : Recommendation) => decide (x.Match > y.Match))
      ((parseAIResult asciiLib respThirteen).elems.map
        (toRecommendation exampleCatalog))).map (fun r => r.CourseID) =
      [13, 1, 2, 3, 4, 5, 6, 7, 8, 9, 10, 11, 12] := by
  decide

/-- C8 (counterexample): with six candidate courses and an inference response of
six distinct courses the persisted `courses` list has six entries, more than
five. -/
theorem createRecommendation_six_courses_counterexample :
    (filterAvailableCourses asciiLib exampleCatalog ["CS101"]).elems.length = 6 ∧
    (createRecommendation asciiLib (exampleServer "" completedOne respSix)
      (exampleCtx "" "")).writes.map (fun w => (writtenCourses w).map List.length) = [some 6] ∧
    ¬ (6 ≤ 5) := by
  decide

/-- C8 (amended): when the candidate set is empty `createRecommendation` persists
nothing and answers with an empty `courses` array; otherwise, when the
recommendation call answers, the persisted `courses` list has exactly as many
entries as the item list parsed from the inference response, whatever that
number is (the range 3 to 5 is only requested in the prompt). -/
theorem createRecommendation_course_count (L : Lib) (s : Server) (c : Ctx)
    (req : createRecommendationRequest) (candidates : List db.Course)
    (h : ReachesFilter L s c req candidates) :
    (candidates = [] → (createRecommendation L s c).writes = [] ∧
      (createRecommendation L s c).response.body.lookup "courses" = some (.arr [])) ∧
    (candidates ≠ [] → ∀ rawResponse calls2,
      callOpenAIChat s.openai s.config.OpenAIAPIKey s.config.OpenAIModel
        (recommendationMessages L req candidates) true = (.ok rawResponse, calls2) →
      ∃ w, (createRecommendation L s c).writes = [w] ∧
        (writtenCourses w).map List.length = some (parseAIResult L rawResponse).elems.length) := by
  constructor
  · intro hnil
    subst hnil
    obtain ⟨payload, callsA, hA, hrun⟩ := createRecommendation_at_filter L s c req [] h
    rw [hrun, if_pos (show ([] : List db.Course).length = 0 from rfl)]
    refine ⟨?_, rfl⟩
    simp only [Run.writes, List.cons_append, List.filterMap_cons, Call.written,
      List.filterMap_append, List.filterMap_nil, List.append_nil]
    rw [List.filterMap_eq_nil_iff]
    intro call hc
    exact (hA call hc).2
  · intro hne rawResponse calls2 hcall
    obtain ⟨w, hw, hcourses⟩ :=
      createRecommendation_persists L s c req candidates rawResponse calls2 h hne hcall
    refine ⟨w, hw, ?_⟩
    rw [hcourses]
    have hlen := (sortSlice_perm L.Xorshift (fun (x y : Recommendation) => decide (x.Match > y.Match))
      ((parseAIResult L rawResponse).elems.map (toRecommendation candidates))).length_eq
    simpa [finalRecs] using hlen

/-- C10: when filtering leaves zero candidates, `createRecommendation` answers 200
with an empty `courses` array and the message `No new courses available.`, none
of its external calls is an inference call carrying the recommendation prompt,
and it writes nothing. -/
theorem createRecommendation_no_candidates (L : Lib) (s : Server) (c : Ctx)
    (req : createRecommendationRequest) (h : ReachesFilter L s c req []) :
    (createRecommendation L s c).response =
      ⟨200, .obj [("courses", .arr []), ("message", .str "No new courses available.")]⟩ ∧
    (createRecommendation L s c).calls.all (fun call => !call.isRecommendationCall) = true ∧
    (createRecommendation L s c).writes = [] := by
  obtain ⟨payload, callsA, hA, hrun⟩ := createRecommendation_at_filter L s c req [] h
  rw [hrun, if_pos (show ([] : List db.Course).length = 0 from rfl)]
  refine ⟨rfl, ?_, ?_⟩
  · simp only [List.all_eq_true, Bool.not_eq_true']
    intro call hc
    simp only [List.cons_append, List.mem_cons, List.mem_append, List.mem_singleton,
      List.not_mem_nil, or_false] at hc
    rcases hc with rfl | hc | rfl
    · rfl
    · exact (hA call hc).1
    · rfl
  · simp only [Run.writes, List.cons_append, List.filterMap_cons, Call.written,
      List.filterMap_append, List.filterMap_nil, List.append_nil]
    rw [List.filterMap_eq_nil_iff]
    intro call hc
    exact (hA call hc).2

/-- Witness of C6 (amended): the response `respSix` with six candidates. -/
theorem createRecommendation_course_ids_witness :
    ∃ w ids, (createRecommendation asciiLib (exampleServer "" completedOne respSix)
        (exampleCtx "" "")).writes = [w] ∧
      (writtenCourses w).map (List.map entryCourseID) = some ids ∧
      ids.Perm ((parseAIResult asciiLib respSix).elems.map (fun r => r.CourseID)) ∧
      (ids.Nodup ↔ ((parseAIResult asciiLib respSix).elems.map (fun r => r.CourseID)).Nodup) :=
  createRecommendation_course_ids asciiLib (exampleServer "" completedOne respSix)
    (exampleCtx "" "") ⟨1, "machine learning"⟩
    (filterAvailableCourses asciiLib exampleCatalog ["CS101"]).elems respSix
    (callOpenAIChat (exampleServer "" completedOne respSix).openai "sk-test" "gpt-4o-mini"
      (recommendationMessages asciiLib ⟨1, "machine learning"⟩
        (filterAvailableCourses asciiLib exampleCatalog ["CS101"]).elems) true).2
    (exampleReaches completedOne respSix ["CS101"] rfl) (by decide) (Prod.ext rfl rfl)

/-- Witness of C8 (amended): the response `respSix` with six candidates. -/
theorem createRecommendation_course_count_witness :
    ReachesFilter asciiLib (exampleServer "" completedOne respSix) (exampleCtx "" "")
      ⟨1, "machine learning"⟩ (filterAvailableCourses asciiLib exampleCatalog ["CS101"]).elems ∧
    ∃ w, (createRecommendation asciiLib (exampleServer "" completedOne respSix)
        (exampleCtx "" "")).writes = [w] ∧
      (writtenCourses w).map List.length = some (parseAIResult asciiLib respSix).elems.length :=
  ⟨exampleReaches completedOne respSix ["CS101"] rfl,
    (createRecommendation_course_count asciiLib (exampleServer "" completedOne respSix)
      (exampleCtx "" "") ⟨1, "machine learning"⟩
      (filterAvailableCourses asciiLib exampleCatalog ["CS101"]).elems
      (exampleReaches completedOne respSix ["CS101"] rfl)).2 (by decide) respSix
      (callOpenAIChat (exampleServer "" completedOne respSix).openai "sk-test" "gpt-4o-mini"
        (recommendationMessages asciiLib ⟨1, "machine learning"⟩
          (filterAvailableCourses asciiLib exampleCatalog ["CS101"]).elems) true).2
      (Prod.ext rfl rfl)⟩

/-- Witness of C10: every course of the example catalog is completed. -/
theorem createRecommendation_no_candidates_witness :
    (filterAvailableCourses asciiLib exampleCatalog
      ["CS101", "CS102", "CS103", "CS104", "CS105", "CS106", "CS107"]).elems = [] ∧
    (createRecommendation asciiLib (exampleServer "" completedAll respSix)
      (exampleCtx "" "")).response =
      ⟨200, .obj [("courses", .arr []), ("message", .str "No new courses available.")]⟩ ∧
    (createRecommendation asciiLib (exampleServer "" completedAll respSix)
      (exampleCtx "" "")).calls.all (fun call => !call.isRecommendationCall) = true ∧
    (createRecommendation asciiLib (exampleServer "" completedAll respSix)
      (exampleCtx "" "")).writes = [] :=
  ⟨by decide, createRecommendation_no_candidates asciiLib (exampleServer "" completedAll respSix)
    (exampleCtx "" "") ⟨1, "machine learning"⟩
    (exampleReaches completedAll respSix
      ["CS101", "CS102", "CS103", "CS104", "CS105", "CS106", "CS107"] rfl)⟩

/-! ## Locating the bracketed text -/

theorem Index_none (c : Char) : ∀ l : List Char, c ∉ l → Index c l = none
  | [], _ => rfl
  | x :: xs, h => by
    simp only [List.mem_cons, not_or] at h
    simp only [Index, if_neg (Ne.symm h.1), Index_none c xs h.2, Option.map_none']

theorem Index_append (c : Char) (rest : List Char) :
    ∀ pre : List Char, c ∉ pre → Index c (pre ++ c :: rest) = some pre.length
  | [], _ => by simp [Index]
  | x :: xs, h => by
    simp only [List.mem_cons, not_or] at h
    have ih := Index_append c rest xs h.2
    show Index c (x :: (xs ++ c :: rest)) = _
    rw [Index, if_neg (Ne.symm h.1), ih]
    rfl

theorem LastIndex_none (c : Char) : ∀ l : List Char, c ∉ l → LastIndex c l = none
  | [], _ => rfl
  | x :: xs, h => by
    simp only [List.mem_cons, not_or] at h
    simp only [LastIndex, LastIndex_none c xs h.2, if_neg (Ne.symm h.1)]

theorem LastIndex_append (c : Char) (suf : List Char) (hs : c ∉ suf) :
    ∀ pre : List Char, LastIndex c (pre ++ c :: suf) = some pre.length
  | [] => by simp [LastIndex, LastIndex_none c suf hs]
  | x :: xs => by
    have ih := LastIndex_append c suf hs xs
    show LastIndex c (x :: (xs ++ c :: suf)) = _
    rw [LastIndex, ih]
    rfl

theorem bracketSpan_append (pre mid suf : List Char) (hp : '[' ∉ pre) (hs : ']' ∉ suf) :
    bracketSpan (pre ++ '[' :: (mid ++ ']' :: suf)) = some ('[' :: (mid ++ [']'])) := by
  have h1 : Index '[' (pre ++ '[' :: (mid ++ ']' :: suf)) = some pre.length :=
    Index_append '[' _ pre hp
  have h2 : LastIndex ']' (pre ++ '[' :: (mid ++ ']' :: suf)) =
      some (pre.length + 1 + mid.length) := by
    have := LastIndex_append ']' suf hs (pre ++ '[' :: mid)
    simp only [List.append_assoc, List.cons_append, List.length_append, List.length_cons] at this
    rw [this]
    congr 1
    omega
  unfold bracketSpan
  rw [h1, h2]
  simp only
  rw [if_neg (by omega)]
  have h3 : pre.length + 1 + mid.length + 1 - pre.length = ('[' :: (mid ++ [']'])).length := by
    simp only [List.length_cons, List.length_append, List.length_nil]
    omega
  rw [h3, List.drop_left]
  have h4 : '[' :: (mid ++ ']' :: suf) = ('[' :: (mid ++ [']'])) ++ suf := by simp
  rw [h4, List.take_left]

theorem bracketSpan_embedded (pre A suf : List Char) (hHead : A.head? = some '[')
    (hLast : A.getLast? = some ']') (hp : '[' ∉ pre) (hs : ']' ∉ suf) :
    bracketSpan (pre ++ A ++ suf) = some A := by
  cases A with
  | nil => simp at hHead
  | cons a rest =>
    simp only [List.head?_cons, Option.some.injEq] at hHead
    subst hHead
    cases rest with
    | nil => simp at hLast
    | cons y ys =>
      rw [List.getLast?_cons_cons] at hLast
      have hsplit := List.dropLast_append_getLast? ']' hLast
      rw [← hsplit, List.append_assoc, List.cons_append, List.append_assoc]
      exact bracketSpan_append pre _ suf hp hs

theorem bracketSpan_none (raw : List Char)
    (h : '[' ∉ raw ∨ ']' ∉ raw ∨
      ∃ i j, Index '[' raw = some i ∧ LastIndex ']' raw = some j ∧ j ≤ i) :
    bracketSpan raw = none := by
  unfold bracketSpan
  rcases h with h | h | ⟨i, j, hi, hj, hle⟩
  · rw [Index_none _ _ h]
  · rw [LastIndex_none _ _ h]
    cases Index '[' raw <;> rfl
  · rw [hi, hj]
    simp only [if_pos hle]

/-! ## The parsing tiers of the scholarship answer -/

theorem skipSpace_split : ∀ cs : List Char,
    ∃ ws, cs = ws ++ skipSpace cs ∧ ∀ c ∈ ws, isJsonSpace c = true
  | [] => ⟨[], rfl, by simp⟩
  | c :: cs => by
    unfold skipSpace
    split
    · next h =>
      obtain ⟨ws, h1, h2⟩ := skipSpace_split cs
      refine ⟨c :: ws, by rw [List.cons_append, ← h1], ?_⟩
      intro x hx
      rcases List.mem_cons.mp hx with rfl | hx
      · exact h
      · exact h2 x hx
    · exact ⟨[], rfl, by simp⟩

theorem skipSpace_nil : ∀ cs : List Char, skipSpace cs = [] → ∀ c ∈ cs, isJsonSpace c = true
  | [], _ => by simp
  | c :: cs, h => by
    unfold skipSpace at h
    split at h
    · next hc =>
      intro x hx
      rcases List.mem_cons.mp hx with rfl | hx
      · exact hc
      · exact skipSpace_nil cs h x hx
    · simp at h

theorem skipSpace_append : ∀ (ws rest : List Char), (∀ c ∈ ws, isJsonSpace c = true) →
    skipSpace (ws ++ rest) = skipSpace rest
  | [], _, _ => rfl
  | c :: ws, rest, h => by
    show skipSpace (c :: (ws ++ rest)) = _
    rw [skipSpace, if_pos (h c (List.mem_cons_self _ _))]
    exact skipSpace_append ws rest (fun x hx => h x (List.mem_cons_of_mem _ hx))

theorem space_ne_open (c : Char) (h : isJsonSpace c = true) : c ≠ '[' := by
  rintro rfl
  exact absurd h (by decide)

theorem space_ne_close (c : Char) (h : isJsonSpace c = true) : c ≠ ']' := by
  rintro rfl
  exact absurd h (by decide)

theorem parseItems_nonempty : ∀ (fuel : Nat) (cs : List Char) (acc : List Json) (v : Json)
    (r : List Char), parseItems fuel cs acc = some (v, r) → ∃ x xs, v = .arr (x :: xs)
  | 0, _, _, _, _, h => by simp [parseItems] at h
  | fuel + 1, cs, acc, v, r, h => by
    unfold parseItems at h
    split at h
    · simp at h
    · split at h
      · simp at h
      · split at h
        · exact parseItems_nonempty fuel _ _ v r h
        · split at h
          · have hv := ((Prod.mk.inj (Option.some.inj h)).1).symm
            rw [hv, List.reverse_cons]
            cases acc.reverse with
            | nil => exact ⟨_, _, rfl⟩
            | cons x xs => exact ⟨_, _, rfl⟩
          · simp at h

theorem parseMembers_obj (fuel : Nat) (cs : List Char) (v : Json) (r : List Char)
    (h : parseMembers fuel cs [] = some (v, r)) : ∃ ms, v = .obj ms := by
  obtain ⟨ms, hms, _⟩ := parseMembers_raw fuel cs [] v r h (by simp)
  exact ⟨ms, hms⟩

theorem startsWith_eq : ∀ (cs p : List Char), startsWith cs p = true →
    cs = p ++ cs.drop p.length
  | _, [], _ => by simp
  | [], _ :: _, h => by simp [startsWith] at h
  | c :: cs, p :: ps, h => by
    simp only [startsWith, Bool.and_eq_true, beq_iff_eq] at h
    rw [h.1]
    simp only [List.cons_append, List.length_cons, List.drop_succ_cons]
    rw [← startsWith_eq cs ps h.2]

theorem parseValue_empty_array (fuel : Nat) (cs r : List Char)
    (h : parseValue fuel cs = some (.arr [], r)) :
    ∃ ws, cs = '[' :: (ws ++ ']' :: r) ∧ ∀ c ∈ ws, isJsonSpace c = true := by
  cases fuel with
  | zero => simp [parseValue] at h
  | succ fuel =>
    cases cs with
    | nil => simp [parseValue] at h
    | cons c rest =>
      unfold parseValue at h
      simp only at h
      by_cases h1 : (c == '\x7b') = true
      · rw [if_pos h1] at h
        cases hsk : skipSpace rest with
        | nil => rw [hsk] at h; simp at h
        | cons d rest2 =>
          rw [hsk] at h
          simp only at h
          split at h
          · have hv := (Prod.mk.inj (Option.some.inj h)).1
            cases hv
          · obtain ⟨ms, hms⟩ := parseMembers_obj fuel _ _ _ h
            cases hms
      · rw [if_neg h1] at h
        by_cases h2 : (c == '[') = true
        · rw [if_pos h2] at h
          obtain ⟨ws, hws, hall⟩ := skipSpace_split rest
          cases hsk : skipSpace rest with
          | nil => rw [hsk] at h; simp at h
          | cons d rest2 =>
            rw [hsk] at h hws
            simp only at h
            split at h
            · next hd =>
              have hr := (Prod.mk.inj (Option.some.inj h)).2
              refine ⟨ws, ?_, hall⟩
              rw [beq_iff_eq] at h2 hd
              rw [h2, hws, hd, hr]
            · obtain ⟨x, xs, hxs⟩ := parseItems_nonempty fuel _ _ _ _ h
              cases hxs
        · rw [if_neg h2] at h
          by_cases h3 : (c == '"') = true
          · rw [if_pos h3] at h
            split at h
            · have hv := (Prod.mk.inj (Option.some.inj h)).1
              cases hv
            · simp at h
          · rw [if_neg h3] at h
            repeat' split at h
            all_goals first
              | (have hv := (Prod.mk.inj (Option.some.inj h)).1; cases hv)
              | (simp at h)

theorem parseValue_null (fuel : Nat) (cs r : List Char)
    (h : parseValue fuel cs = some (.null, r)) : cs = "null".data ++ r := by
  cases fuel with
  | zero => simp [parseValue] at h
  | succ fuel =>
    cases cs with
    | nil => simp [parseValue] at h
    | cons c rest =>
      unfold parseValue at h
      simp only at h
      by_cases h1 : (c == '\x7b') = true
      · rw [if_pos h1] at h
        cases hsk : skipSpace rest with
        | nil => rw [hsk] at h; simp at h
        | cons d rest2 =>
          rw [hsk] at h
          simp only at h
          split at h
          · have hv := (Prod.mk.inj (Option.some.inj h)).1
            cases hv
          · obtain ⟨ms, hms⟩ := parseMembers_obj fuel _ _ _ h
            cases hms
      · rw [if_neg h1] at h
        by_cases h2 : (c == '[') = true
        · rw [if_pos h2] at h
          cases hsk : skipSpace rest with
          | nil => rw [hsk] at h; simp at h
          | cons d rest2 =>
            rw [hsk] at h
            simp only at h
            split at h
            · have hv := (Prod.mk.inj (Option.some.inj h)).1
              cases hv
            · obtain ⟨xs, hxs⟩ := parseItems_arr fuel _ _ _ _ h
              cases hxs
        · rw [if_neg h2] at h
          by_cases h3 : (c == '"') = true
          · rw [if_pos h3] at h
            split at h
            · have hv := (Prod.mk.inj (Option.some.inj h)).1
              cases hv
            · simp at h
          · rw [if_neg h3] at h
            by_cases h4 : startsWith (c :: rest) "true".data = true
            · rw [if_pos h4] at h
              have hv := (Prod.mk.inj (Option.some.inj h)).1
              cases hv
            · rw [if_neg h4] at h
              by_cases h5 : startsWith (c :: rest) "false".data = true
              · rw [if_pos h5] at h
                have hv := (Prod.mk.inj (Option.some.inj h)).1
                cases hv
              · rw [if_neg h5] at h
                by_cases h6 : startsWith (c :: rest) "null".data = true
                · rw [if_pos h6] at h
                  have hr := (Prod.mk.inj (Option.some.inj h)).2
                  have := startsWith_eq _ _ h6
                  rw [← hr]
                  exact this
                · rw [if_neg h6] at h
                  split at h
                  · have hv := (Prod.mk.inj (Option.some.inj h)).1
                    cases hv
                  · simp at h

theorem parseDoc_empty_array (ws : List Char) (h : ∀ c ∈ ws, isJsonSpace c = true) :
    parseDoc (String.mk ('[' :: (ws ++ [']']))) = some (.arr []) := by
  refine parseDoc_of_text _ _ ?_ (by
    show nestingDepth false false 0 0 ('[' :: (ws ++ [']'])) ≤ maxNestingDepth
    simp only [nestingDepth, Bool.false_eq_true, if_false]
    rw [show (('[' == '"') = false) from by decide,
      show (('[' == '[' || '[' == '\x7b') = true) from by decide]
    simp only [Bool.false_eq_true, if_false, if_true]
    rw [nestingDepth_space _ _ _ ws h]
    decide)
  unfold parseText
  have h1 : skipSpace ('[' :: (ws ++ [']'])) = '[' :: (ws ++ [']']) := by
    rw [skipSpace, if_neg (by decide)]
  have h2 : skipSpace (ws ++ [']']) = [']'] := by
    rw [skipSpace_append ws _ h, skipSpace, if_neg (by decide)]
  simp only [h1]
  rw [show 2 * ('[' :: (ws ++ [']'])).length + 2 = (2 * ('[' :: (ws ++ [']'])).length + 1) + 1
    from rfl]
  unfold parseValue
  simp only [h2]
  rfl

theorem tierBracket_of_empty_array (L : Lib) (resp : String)
    (h : parseDoc resp = some (.arr [])) : (tierBracket L resp).1.elems = [] := by
  replace h := parseDoc_text _ _ h
  unfold parseText at h
  split at h
  · next v r hv =>
    split at h
    · next hr =>
      have hv2 := Option.some.inj h
      subst hv2
      obtain ⟨ws2, hcs, hall2⟩ := parseValue_empty_array _ _ _ hv
      obtain ⟨ws1, hdata, hall1⟩ := skipSpace_split resp.data
      have hall3 := skipSpace_nil r (by simpa using hr)
      have hspan : bracketSpan resp.data = some ('[' :: (ws2 ++ [']'])) := by
        rw [hdata, hcs]
        exact bracketSpan_append ws1 ws2 r
          (fun hm => space_ne_open _ (hall1 _ hm) rfl)
          (fun hm => space_ne_close _ (hall3 _ hm) rfl)
      simp only [tierBracket, hspan, Unmarshal, parseDoc_empty_array ws2 hall2]
      rfl
    · simp at h
  · simp at h

theorem tierBracket_of_null (L : Lib) (resp : String)
    (h : parseDoc resp = some .null) : (tierBracket L resp).1.elems = [] := by
  replace h := parseDoc_text _ _ h
  unfold parseText at h
  split at h
  · next v r hv =>
    split at h
    · next hr =>
      have hv2 := Option.some.inj h
      subst hv2
      have hcs := parseValue_null _ _ _ hv
      obtain ⟨ws1, hdata, hall1⟩ := skipSpace_split resp.data
      have hall3 := skipSpace_nil r (by simpa using hr)
      have hno : '[' ∉ resp.data := by
        rw [hdata, hcs]
        simp only [List.mem_append, not_or]
        refine ⟨fun hm => space_ne_open _ (hall1 _ hm) rfl, by decide,
          fun hm => space_ne_open _ (hall3 _ hm) rfl⟩
      simp only [tierBracket, bracketSpan, Index_none _ _ hno]
      rfl
    · simp at h
  · simp at h

theorem tierArray_empty (L : Lib) (resp : String) (hok : (tierArray L resp).2 = false)
    (hnone : (tierArray L resp).1.elems = []) :
    tierTaken (tierWrapper L resp) = false ∧ (tierBracket L resp).1.elems = [] := by
  unfold tierArray Unmarshal at hok hnone
  cases hp : parseDoc resp with
  | none => rw [hp] at hok; simp at hok
  | some j =>
    rw [hp] at hok hnone
    simp only at hok hnone
    cases j with
    | null =>
      refine ⟨?_, tierBracket_of_null L resp hp⟩
      simp only [tierTaken, tierWrapper, Unmarshal, hp, decScholarshipWrapper, decStruct]
      rfl
    | arr xs =>
      have hxs : xs = [] := by
        rw [decScholarshipList, decSlice_arr] at hnone
        simpa [GoSlice.elems] using hnone
      subst hxs
      refine ⟨?_, tierBracket_of_empty_array L resp hp⟩
      simp only [tierTaken, tierWrapper, Unmarshal, hp, decScholarshipWrapper, decStruct]
      rfl
    | bool b => simp [decScholarshipList, decSlice, decSliceVar] at hok
    | num n => simp [decScholarshipList, decSlice, decSliceVar] at hok
    | str n => simp [decScholarshipList, decSlice, decSliceVar] at hok
    | obj n => simp [decScholarshipList, decSlice, decSliceVar] at hok

/-! ## Scholarship generation, web search and chat: the calls of a run -/

theorem persistScholarships_calls (s : Server) (payload : token.Payload)
    (recs : List ScholarshipReco) :
    persistScholarships s payload recs =
      recs.map (fun r => Call.CreateScholarship (scholarshipParams payload r)) := by
  induction recs with
  | nil => rfl
  | cons r rest ih =>
    simp only [persistScholarships, List.map_cons]
    split <;> rw [ih]

theorem fetchBraveResults_calls (http : braveRequest → Except GoError (Nat × String))
    (q apiKey baseURL : String) (maxResults : Int) :
    ∀ call ∈ (fetchBraveResults http q apiKey baseURL maxResults).2,
      ∃ req, call = .BraveSearch req := by
  intro call hcall
  unfold fetchBraveResults at hcall
  simp only at hcall
  repeat' split at hcall
  all_goals
    simp only [List.mem_singleton] at hcall
    exact ⟨_, hcall⟩

theorem scholarshipSearch_calls (s : Server) :
    ∀ call ∈ (scholarshipSearch s).2, ∃ req, call = .BraveSearch req := by
  intro call hcall
  unfold scholarshipSearch at hcall
  simp only at hcall
  split at hcall <;> exact fetchBraveResults_calls _ _ _ _ _ call hcall

theorem generateScholarships_at_parse (L : Lib) (s : Server) (c : Ctx)
    (payload : token.Payload) (resp : String) (h : ReachesScholarshipParse s c payload resp) :
    ∃ before, (∀ call ∈ before, call.scholarship = none) ∧
      generateScholarships L s c = finishScholarships L s c payload resp before := by
  obtain ⟨tr, calls, ⟨transcripts, first, rest, h1, h2, h3, h4⟩, h5, h6⟩ := h
  refine ⟨[.ListTranscripts payload.Username, .GetTranscript first.ID] ++
    (scholarshipSearch s).2 ++ calls, ?_, ?_⟩
  · intro call hc
    simp only [List.cons_append, List.nil_append, List.mem_cons, List.mem_append] at hc
    rcases hc with rfl | rfl | hc | hc
    · rfl
    · rfl
    · obtain ⟨req, rfl⟩ := scholarshipSearch_calls s call hc
      rfl
    · have := callOpenAIChat_calls _ _ _ _ _ call (by rw [h6]; exact hc)
      obtain ⟨req, rfl, _⟩ := this
      rfl
  · simp only [generateScholarships, h1, h2, h3, h4, h5, if_false, h6]

theorem finishScholarships_saved (L : Lib) (s : Server) (c : Ctx) (payload : token.Payload)
    (resp : String) (before : List Call) (hb : ∀ call ∈ before, call.scholarship = none) :
    (finishScholarships L s c payload resp before).calls.filterMap Call.scholarship =
      (scholarshipList L resp).map (scholarshipParams payload) := by
  simp only [finishScholarships, List.filterMap_append, persistScholarships_calls]
  rw [List.filterMap_eq_nil_iff.mpr hb, List.nil_append, List.filterMap_map]
  induction scholarshipList L resp with
  | nil => rfl
  | cons r rest ih =>
    simp only [List.filterMap_cons, Function.comp, Call.scholarship, List.map_cons, ih]

theorem sortSliceStable_perm {α : Type} (less : α → α → Bool) (d : List α) :
    (sortSliceStable less d).Perm d :=
  insertionSort_func_perm less d 0 d.length

theorem getElem?_append_pair {α : Type} (p : List α) (y x : α) (rest : List α) :
    (p ++ y :: x :: rest)[p.length]? = some y ∧ (p ++ y :: x :: rest)[p.length + 1]? = some x := by
  constructor
  · rw [List.getElem?_append_right (Nat.le_refl _)]; simp
  · rw [List.getElem?_append_right (Nat.le_succ _)]; simp

theorem lessAt_append_pair {α : Type} (less : α → α → Bool) (p : List α) (y x : α) (rest : List α) :
    lessAt less (p ++ y :: x :: rest) (p.length + 1) p.length = less x y := by
  unfold lessAt
  rw [(getElem?_append_pair p y x rest).1, (getElem?_append_pair p y x rest).2]

theorem swapAt_append_pair {α : Type} (p : List α) (y x : α) (rest : List α) :
    swapAt (p ++ y :: x :: rest) (p.length + 1) p.length = p ++ x :: y :: rest := by
  unfold swapAt
  rw [(getElem?_append_pair p y x rest).1, (getElem?_append_pair p y x rest).2]
  simp [List.set_append_right]

theorem insertDown_spec {α : Type} (less : α → α → Bool) (x : α) :
    ∀ (q rest : List α),
      insertDown less 0 q.length (q.reverse ++ x :: rest) =
        (List.orderedInsert (fun a b => less a b = false) x q).reverse ++ rest
  | [], rest => by simp [insertDown]
  | y :: q, rest => by
    have hd : (y :: q).reverse ++ x :: rest = q.reverse ++ y :: x :: rest := by simp
    have hl : (y :: q).length = q.reverse.length + 1 := by simp
    rw [hd, hl]
    unfold insertDown
    rw [lessAt_append_pair, swapAt_append_pair]
    cases hxy : less x y
    · simp [List.orderedInsert, hxy]
    · have ih := insertDown_spec less x q (y :: rest)
      simp only [List.length_reverse] at ih ⊢
      simp [List.orderedInsert, hxy, ih]

theorem insertionLoop_spec {α : Type} (less : α → α → Bool) :
    ∀ (s q : List α) (fuel : Nat), s.length ≤ fuel →
      insertionLoop less 0 (q.length + s.length) fuel q.length (q.reverse ++ s) =
        (s.foldl (fun rp x => List.orderedInsert (fun a b => less a b = false) x rp) q).reverse
  | [], q, fuel, _ => by
    cases fuel <;> simp [insertionLoop]
  | x :: s, q, 0, h => by simp at h
  | x :: s, q, fuel + 1, h => by
    unfold insertionLoop
    rw [if_pos (by simp)]
    rw [insertDown_spec]
    have ih := insertionLoop_spec less s (List.orderedInsert (fun a b => less a b = false) x q) fuel
      (by simpa using h)
    rw [List.orderedInsert_length] at ih
    simp only [List.length_cons, List.foldl_cons]
    rw [← ih]
    congr 1
    omega

theorem sortSliceStable_eq {α : Type} (less : α → α → Bool) (d : List α) :
    sortSliceStable less d =
      (d.foldl (fun rp x => List.orderedInsert (fun a b => less a b = false) x rp) []).reverse := by
  unfold sortSliceStable insertionSort_func
  cases d with
  | nil => simp [insertionLoop]
  | cons x s =>
    have h := insertionLoop_spec less s [x] (s.length + 1) (Nat.le_succ _)
    simp only [List.length_cons, List.length_nil, List.reverse_cons, List.reverse_nil,
      List.nil_append, List.singleton_append, Nat.zero_add] at h
    simp only [List.length_cons, Nat.sub_zero, Nat.zero_add, List.foldl_cons, List.orderedInsert]
    rw [← h]
    congr 1
    omega

theorem foldl_orderedInsert_sorted {α : Type} (less : α → α → Bool)
    (hasym : ∀ x y, less x y = true → less y x = false)
    (htrans : ∀ x y z, less x y = false → less y z = false → less x z = false) :
    ∀ (d q : List α), q.Pairwise (fun a b => less a b = false) →
      (d.foldl (fun rp x => List.orderedInsert (fun a b => less a b = false) x rp) q).Pairwise
        (fun a b => less a b = false)
  | [], q, hq => hq
  | x :: d, q, hq => by
    haveI : IsTotal α (fun a b => less a b = false) := ⟨fun a b => by
      cases hab : less a b
      · exact Or.inl rfl
      · exact Or.inr (hasym a b hab)⟩
    haveI : IsTrans α (fun a b => less a b = false) := ⟨fun a b c => htrans a b c⟩
    exact foldl_orderedInsert_sorted less hasym htrans d _ (List.Sorted.orderedInsert x q hq)

theorem sortSliceStable_sorted {α : Type} (less : α → α → Bool)
    (hasym : ∀ x y, less x y = true → less y x = false)
    (htrans : ∀ x y z, less x y = false → less y z = false → less x z = false) (d : List α) :
    (sortSliceStable less d).Pairwise (fun a b => less b a = false) := by
  rw [sortSliceStable_eq, List.pairwise_reverse]
  exact foldl_orderedInsert_sorted less hasym htrans d [] List.Pairwise.nil

theorem filter_orderedInsert {α : Type} (less : α → α → Bool) (p : α → Bool)
    (hp : ∀ x y, less x y = true → p x = true → p y = false) (x : α) :
    ∀ l : List α, (List.orderedInsert (fun a b => less a b = false) x l).filter p =
      if p x then x :: l.filter p else l.filter p
  | [] => by cases h : p x <;> simp [h]
  | b :: l => by
    cases hxb : less x b
    · simp only [List.orderedInsert, hxb, if_true]
      cases h : p x <;> simp [h]
    · have ih := filter_orderedInsert less p hp x l
      simp only [List.orderedInsert, hxb, Bool.true_eq_false, if_false, List.filter_cons, ih]
      cases h : p x
      · simp
      · simp [hp x b hxb h]

theorem filter_foldl_orderedInsert {α : Type} (less : α → α → Bool) (p : α → Bool)
    (hp : ∀ x y, less x y = true → p x = true → p y = false) :
    ∀ (d q : List α),
      (d.foldl (fun rp x => List.orderedInsert (fun a b => less a b = false) x rp) q).filter p =
        (d.filter p).reverse ++ q.filter p
  | [], q => by simp
  | x :: d, q => by
    simp only [List.foldl_cons]
    rw [filter_foldl_orderedInsert less p hp d, filter_orderedInsert less p hp]
    cases h : p x <;> simp [h]

theorem sortSliceStable_stable {α : Type} (less : α → α → Bool) (p : α → Bool)
    (hp : ∀ x y, less x y = true → p x = true → p y = false) (d : List α) :
    (sortSliceStable less d).filter p = d.filter p := by
  rw [sortSliceStable_eq, List.filter_reverse, filter_foldl_orderedInsert less p hp]
  simp

theorem stableSorted_unique {α : Type} (key : α → Rat) :
    ∀ (l1 l2 : List α), l1.Perm l2 →
      l1.Pairwise (fun a b => key a ≥ key b) → l2.Pairwise (fun a b => key a ≥ key b) →
      (∀ k, l1.filter (fun x => decide (key x = k)) = l2.filter (fun x => decide (key x = k))) →
      l1 = l2
  | [], l2, hperm, _, _, _ => (List.Perm.nil_eq hperm)
  | x :: t1, [], hperm, _, _, _ => by simpa using hperm.length_eq
  | x :: t1, y :: t2, hperm, h1, h2, hst => by
    have hxy : x = y := by
      by_cases hne : x = y
      · exact hne
      · have hx : x ∈ t2 := by
          have := hperm.subset (List.mem_cons_self x t1)
          simpa [hne] using this
        have hy : y ∈ t1 := by
          have := hperm.symm.subset (List.mem_cons_self y t2)
          simpa [Ne.symm hne] using this
        have hk1 := (List.pairwise_cons.mp h1).1 y hy
        have hk2 := (List.pairwise_cons.mp h2).1 x hx
        have hk : key y = key x := le_antisymm hk1 hk2
        have := hst (key x)
        simp [hk] at this
        exact this.1
    subst hxy
    have ih := stableSorted_unique key t1 t2 (List.Perm.cons_inv hperm)
      (List.pairwise_cons.mp h1).2 (List.pairwise_cons.mp h2).2 (by
        intro k
        have := hst k
        by_cases hk : key x = k
        · simpa [hk] using this
        · simpa [hk] using this)
    rw [ih]

theorem filtered_eq_sanitizedItems (recs : List ScholarshipReco) :
    filtered recs = sanitizedItems recs := by
  unfold sanitizedItems
  induction recs with
  | nil => rfl
  | cons r rest ih =>
    simp only [filtered, List.filter_cons]
    by_cases h : TrimSpace r.Title = "" ∨ TrimSpace r.Link = ""
    · rw [if_pos h, if_neg (by
        simp only [decide_eq_true_eq]
        rintro ⟨a, b⟩
        rcases h with h | h
        · exact a h
        · exact b h)]
      exact ih
    · rw [if_neg h, if_pos (by
        simp only [decide_eq_true_eq]
        exact ⟨fun a => h (Or.inl a), fun b => h (Or.inr b)⟩), List.map_cons, ih]

theorem scholarshipList_stableSorted (L : Lib) (resp : String) :
    (scholarshipList L resp).Perm (sanitizedItems (parseScholarshipResponse L resp).elems) ∧
    (scholarshipList L resp).Pairwise (fun x y => x.Match ≥ y.Match) ∧
    ∀ k : Rat, (scholarshipList L resp).filter (fun x => decide (x.Match = k)) =
      (sanitizedItems (parseScholarshipResponse L resp).elems).filter
        (fun x => decide (x.Match = k)) := by
  rw [← filtered_eq_sanitizedItems]
  refine ⟨sortSliceStable_perm _ _, ?_, ?_⟩
  · have h := sortSliceStable_sorted (fun (x y : ScholarshipReco) => decide (x.Match > y.Match))
      (fun x y hxy => by
        simp only [gt_iff_lt, decide_eq_true_eq, decide_eq_false_iff_not, not_lt] at hxy ⊢
        exact le_of_lt hxy)
      (fun x y z hxy hyz => by
        simp only [gt_iff_lt, decide_eq_false_iff_not, not_lt] at hxy hyz ⊢
        exact le_trans hxy hyz)
      (filtered (parseScholarshipResponse L resp).elems)
    refine List.Pairwise.imp ?_ h
    intro a b hab
    simpa using hab
  · intro k
    exact sortSliceStable_stable _ _ (fun x y hxy hx => by
      simp only [gt_iff_lt, decide_eq_true_eq, decide_eq_false_iff_not] at hxy hx ⊢
      intro hy
      rw [hx, hy] at hxy
      exact lt_irrefl _ hxy) _

theorem collectResults_from (maxResults : Int) (rows : List braveRow) (i : Nat) :
    collectResults maxResults i rows =
      ((if 0 < maxResults then rows.take (maxResults.toNat - i) else rows).map
        (fun r => ⟨TrimSpace r.Title, TrimSpace r.URL, TrimSpace r.Description⟩)) := by
  induction rows generalizing i with
  | nil => simp [collectResults]
  | cons r rest ih =>
    simp only [collectResults]
    by_cases hpos : 0 < maxResults
    · by_cases hi : maxResults ≤ (i : Int)
      · rw [if_pos ⟨hpos, hi⟩, if_pos hpos]
        have : maxResults.toNat - i = 0 := by omega
        rw [this]; rfl
      · rw [if_neg (fun h => hi h.2), ih, if_pos hpos, if_pos hpos]
        have : maxResults.toNat - i = (maxResults.toNat - (i + 1)) + 1 := by omega
        rw [this, List.take_succ_cons, List.map_cons]
    · rw [if_neg (fun h => hpos h.1), ih, if_neg hpos, if_neg hpos, List.map_cons]

theorem appendMessages_eq (L : Lib) (messages : List ChatMessage) :
    appendMessages L messages = messages.filterMap (normalizedMessage L) := by
  induction messages with
  | nil => rfl
  | cons m rest ih =>
    simp only [appendMessages, List.filterMap_cons, normalizedMessage]
    by_cases h : TrimSpace m.Content = ""
    · simp only [h, ne_eq, not_true_eq_false, if_false, if_true]
      exact ih
    · simp only [h, ne_eq, not_false_eq_true, if_true, if_false, ih]
      congr 2
      by_cases h1 : L.ToLower (TrimSpace m.Role) = "user"
      · simp [h1]
      · by_cases h2 : L.ToLower (TrimSpace m.Role) = "assistant"
        · simp [h2]
        · by_cases h3 : L.ToLower (TrimSpace m.Role) = "system"
          · simp [h3]
          · simp [h1, h2, h3]

theorem extractCompletedCourses_error (L : Lib) (s : Server) (text : String) (e : GoError)
    (calls : List Call)
    (h : callOpenAIChat s.openai s.config.OpenAIAPIKey s.config.OpenAIModel
      (extractionMessages text) true = (.error e, calls)) :
    extractCompletedCourses L s text = (.error e, calls) := by
  unfold extractionMessages at h
  simp only [extractCompletedCourses, h]

theorem callOpenAIChat_no_create (http : String → openAIChatRequest → HttpResult)
    (apiKey model : String) (messages : List aiMessage) (expectJSON : Bool) :
    ∀ call ∈ (callOpenAIChat http apiKey model messages expectJSON).2,
      call.isCreateRecommendation = false := by
  intro call hc
  obtain ⟨req, rfl, _⟩ := callOpenAIChat_calls _ _ _ _ _ call hc
  rfl

theorem extractCompletedCourses_no_create (L : Lib) (s : Server) (text : String) :
    ∀ call ∈ (extractCompletedCourses L s text).2, call.isCreateRecommendation = false := by
  intro call hcall
  unfold extractCompletedCourses at hcall
  simp only at hcall
  split at hcall
  · rename_i e calls heq
    exact callOpenAIChat_no_create _ _ _ _ _ call (by rw [heq]; exact hcall)
  · rename_i raw calls heq
    have hc : call ∈ calls := by
      split at hcall <;> exact hcall
    exact callOpenAIChat_no_create _ _ _ _ _ call (by rw [heq]; exact hc)

/-- The example request reaches the parsing step of `generateScholarships` once
the example endpoint hands back the answer `resp`. -/
theorem exampleParse (store : Store) (resp : String)
    (hList : store.ListTranscripts "alice" = (exampleStore "").ListTranscripts "alice")
    (hGet : store.GetTranscript 1 = (exampleStore "").GetTranscript 1)
    (h : (callOpenAIChat (exampleOpenAI resp "") "sk-test" "gpt-4o-mini"
      (scholarshipMessages "CS101 Introduction to Programming, grade 5" []) true).1 = .ok resp) :
    ReachesScholarshipParse (serverWithStore store resp "") (exampleCtx "" "") ⟨"alice"⟩ resp :=
  ⟨_, _, ⟨_, _, _, rfl, hList, rfl, hGet⟩, by decide, Prod.ext h rfl⟩

/-! ## The claims on failures, scholarships, web search and chat -/

/-- C11: when the inference client fails on the extraction call (Phase A), when
the catalog cannot be listed, or when the inference client fails on the
recommendation call (Phase D), `createRecommendation` answers with an error
(status 500) and none of its calls is a call of `CreateRecommendation`; it
writes nothing. -/
theorem createRecommendation_failure_persists_nothing (L : Lib) (s : Server) (c : Ctx)
    (h : FatalFailure L s c) :
    (∃ e, (createRecommendation L s c).response = errorResponse 500 e) ∧
    (createRecommendation L s c).calls.all (fun call => !call.isCreateRecommendation) = true := by
  rcases h with ⟨req, tr, e, calls, ⟨payload, h1, h2, h3, h4, h5⟩, hA⟩ |
    ⟨req, tr, codes, calls, e, ⟨payload, h1, h2, h3, h4, h5⟩, hA, hCat⟩ |
    ⟨req, candidates, e, calls, hReach, hne, hD⟩
  · have hE := extractCompletedCourses_error L s _ e calls hA
    have hcalls := extractCompletedCourses_no_create L s tr.TextExtracted.Str
    rw [hE] at hcalls
    simp only [createRecommendation, h1, h2, h3, h4, h5, hE, Bool.not_true, decide_False,
      Bool.or_false, Bool.false_eq_true, if_false]
    refine ⟨⟨_, rfl⟩, ?_⟩
    simp only [List.all_eq_true, Bool.not_eq_true', List.mem_cons]
    rintro call (rfl | hc)
    · rfl
    · exact hcalls call hc
  · have hcalls := extractCompletedCourses_no_create L s tr.TextExtracted.Str
    rw [hA] at hcalls
    simp only [createRecommendation, h1, h2, h3, h4, h5, hA, hCat, Bool.not_true, decide_False,
      Bool.or_false, Bool.false_eq_true, if_false]
    refine ⟨⟨_, rfl⟩, ?_⟩
    simp only [List.all_eq_true, Bool.not_eq_true', List.mem_cons, List.mem_append,
      List.mem_singleton, List.not_mem_nil, or_false, List.cons_append]
    rintro call (rfl | hc | rfl)
    · rfl
    · exact hcalls call hc
    · rfl
  · obtain ⟨payload, tr, codes, callsA, all, h1, h2, h3, h4, h5, h6, h7, h8⟩ := hReach
    have hcallsA := extractCompletedCourses_no_create L s tr.TextExtracted.Str
    rw [h6] at hcallsA
    have hcallsD := callOpenAIChat_no_create s.openai s.config.OpenAIAPIKey s.config.OpenAIModel
      (recommendationMessages L req candidates) true
    rw [hD] at hcallsD
    subst h8
    have hlen : ¬ (filterAvailableCourses L all.elems codes).elems.length = 0 := by
      simpa [List.length_eq_zero] using hne
    simp only [createRecommendation, h1, h2, h3, h4, h5, h6, h7, hD, Bool.not_true, decide_False,
      Bool.or_false, Bool.false_eq_true, if_false, hlen]
    refine ⟨⟨_, rfl⟩, ?_⟩
    simp only [List.all_eq_true, Bool.not_eq_true', List.mem_cons, List.mem_append,
      List.mem_singleton, List.not_mem_nil, or_false, List.cons_append]
    rintro call (rfl | (hc | rfl) | hc)
    · rfl
    · exact hcallsA call hc
    · rfl
    · exact hcallsD call hc

/-- Witness of C11: an endpoint that cannot be reached (Phase A), a catalog that
cannot be listed, and an endpoint that fails on the recommendation call only
(Phase D). -/
theorem createRecommendation_failure_persists_nothing_witness :
    ((∃ e, (createRecommendation asciiLib (serverWithOpenAI unreachableOpenAI)
        (exampleCtx "" "")).response = errorResponse 500 e) ∧
      (createRecommendation asciiLib (serverWithOpenAI unreachableOpenAI)
        (exampleCtx "" "")).calls.all (fun call => !call.isCreateRecommendation) = true) ∧
    ((∃ e, (createRecommendation asciiLib (serverWithStore noCatalogStore completedOne respSix)
        (exampleCtx "" "")).response = errorResponse 500 e) ∧
      (createRecommendation asciiLib (serverWithStore noCatalogStore completedOne respSix)
        (exampleCtx "" "")).calls.all (fun call => !call.isCreateRecommendation) = true) ∧
    ((∃ e, (createRecommendation asciiLib (serverWithOpenAI (flakyOpenAI completedOne))
        (exampleCtx "" "")).response = errorResponse 500 e) ∧
      (createRecommendation asciiLib (serverWithOpenAI (flakyOpenAI completedOne))
        (exampleCtx "" "")).calls.all (fun call => !call.isCreateRecommendation) = true) :=
  ⟨createRecommendation_failure_persists_nothing asciiLib (serverWithOpenAI unreachableOpenAI)
      (exampleCtx "" "")
      (Or.inl ⟨⟨1, "machine learning"⟩, _, _, _, ⟨⟨"alice"⟩, rfl, rfl, rfl, rfl, by decide⟩,
        Prod.ext rfl rfl⟩),
    createRecommendation_failure_persists_nothing asciiLib
      (serverWithStore noCatalogStore completedOne respSix) (exampleCtx "" "")
      (Or.inr (Or.inl ⟨⟨1, "machine learning"⟩, _, _, _, _,
        ⟨⟨"alice"⟩, rfl, rfl, rfl, rfl, by decide⟩, Prod.ext rfl rfl, rfl⟩)),
    createRecommendation_failure_persists_nothing asciiLib
      (serverWithOpenAI (flakyOpenAI completedOne)) (exampleCtx "" "")
      (Or.inr (Or.inr ⟨⟨1, "machine learning"⟩, _, _, _,
        ⟨⟨"alice"⟩, _, _, _, some exampleCatalog, rfl, rfl, rfl, rfl, by decide,
          Prod.ext rfl rfl, rfl, rfl⟩, by decide, Prod.ext rfl rfl⟩))⟩

/-- C12 (counterexample): for the answer `respBadMatch`, an array whose only item
has a string under `match`, none of the three tiers decodes without error, yet
the parsed list is not empty: it holds the item as far as tier (c) decoded it. -/
theorem parseScholarshipResponse_leftover_counterexample :
    (tierArray asciiLib respBadMatch).2 = true ∧ (tierWrapper asciiLib respBadMatch).2 = true ∧
    (tierBracket asciiLib respBadMatch).2 = true ∧ firstTier asciiLib respBadMatch = none ∧
    (parseScholarshipResponse asciiLib respBadMatch).elems = [⟨"A", "", 0, "https://x.org"⟩] ∧
    (parseScholarshipResponse asciiLib respBadMatch).elems ≠ [] := by
  decide

/-- C12 (amended): for every raw inference response, the scholarship list parsed
by `generateScholarships` is the result of the first tier, in the order (a)
whole text as a bare array, (b) whole text as an object with a `scholarships`
array, (c) text from the first `[` to the last `]` as a bare array, whose
decoding succeeds and yields at least one item; if no tier does, the parsed
list is what tier (c) stored before its decoding failed (empty when there is no
such text or nothing was stored). -/
theorem parseScholarshipResponse_tiers (L : Lib) (resp : String) :
    (parseScholarshipResponse L resp).elems =
      match firstTier L resp with
      | some items => items
      | none => (tierBracket L resp).1.elems := by
  have hext : (extractScholarshipJSON L resp).elems = (tierBracket L resp).1.elems := by
    unfold extractScholarshipJSON tierBracket
    cases bracketSpan resp.data <;> rfl
  unfold parseScholarshipResponse firstTier
  simp only
  by_cases ha : (tierArray L resp).2 = true
  · have ha2 : tierTaken (tierArray L resp) = false := by simp [tierTaken, ha]
    have ha3 : (Unmarshal (decScholarshipList L) resp none).2 = true := ha
    rw [if_pos ha3, ha2]
    simp only [Bool.false_eq_true, if_false]
    by_cases hb : tierTaken (tierWrapper L resp) = true
    · have hb2 : (!(Unmarshal (decScholarshipWrapper L) resp ⟨none⟩).2 &&
          decide (0 < (Unmarshal (decScholarshipWrapper L) resp ⟨none⟩).1.Scholarships.elems.length))
          = true := hb
      rw [if_pos hb2, if_pos hb]
      rfl
    · have hb2 : ¬ (!(Unmarshal (decScholarshipWrapper L) resp ⟨none⟩).2 &&
          decide (0 < (Unmarshal (decScholarshipWrapper L) resp ⟨none⟩).1.Scholarships.elems.length))
          = true := hb
      rw [if_neg hb2, if_neg hb, hext]
      by_cases hc : tierTaken (tierBracket L resp) = true
      · rw [if_pos hc]
      · rw [if_neg hc]
  · have ha3 : ¬ (Unmarshal (decScholarshipList L) resp none).2 = true := ha
    rw [if_neg ha3]
    by_cases hlen : 0 < (tierArray L resp).1.elems.length
    · have ht : tierTaken (tierArray L resp) = true := by
        simp only [tierTaken, Bool.and_eq_true, Bool.not_eq_true', decide_eq_true_eq]
        exact ⟨by simpa using ha, hlen⟩
      rw [if_pos ht]
      rfl
    · have hnil : (tierArray L resp).1.elems = [] := by
        simpa [List.length_eq_zero] using hlen
      have ht : ¬ tierTaken (tierArray L resp) = true := by
        simp [tierTaken, hnil]
      obtain ⟨hw, hbr⟩ := tierArray_empty L resp (by simpa using ha) hnil
      have hbt : ¬ tierTaken (tierBracket L resp) = true := by
        simp [tierTaken, hbr]
      rw [if_neg ht, hw, if_neg (by simp), if_neg hbt]
      simp only
      rw [hbr]
      exact hnil

/-- C13: for every text `pre ++ A ++ suf` in which `A` is the text of a JSON
array (from its `[` to its `]`), `pre` contains no `[` and `suf` contains no
`]`, `extractScholarshipJSON` returns exactly what decoding `A` as a list of
scholarship objects yields; and for every text with no `[`, no `]`, or whose
last `]` does not come after its first `[`, it returns the nil (empty) list. -/
theorem extractScholarshipJSON_embedded_array (L : Lib) (pre A suf : String)
    (hHead : A.data.head? = some '[') (hLast : A.data.getLast? = some ']')
    (hPre : '[' ∉ pre.data) (hSuf : ']' ∉ suf.data) :
    extractScholarshipJSON L (pre ++ A ++ suf) = (Unmarshal (decScholarshipList L) A none).1 ∧
    ∀ raw : String,
      ('[' ∉ raw.data ∨ ']' ∉ raw.data ∨
        ∃ i j, Index '[' raw.data = some i ∧ LastIndex ']' raw.data = some j ∧ j ≤ i) →
      extractScholarshipJSON L raw = none ∧ (extractScholarshipJSON L raw).elems = [] := by
  constructor
  · unfold extractScholarshipJSON
    rw [String.data_append, String.data_append,
      bracketSpan_embedded pre.data A.data suf.data hHead hLast hPre hSuf]
  · intro raw hraw
    unfold extractScholarshipJSON
    rw [bracketSpan_none raw.data hraw]
    exact ⟨rfl, rfl⟩

/-- Witness of C13: the array of `respProse` between a sentence and a greeting,
and a text whose only `]` comes before its only `[`. -/
theorem extractScholarshipJSON_embedded_array_witness :
    extractScholarshipJSON asciiLib ("Here is the list: " ++
        "[\x7b\"title\":\"A\",\"link\":\"https://x.org\",\"match\":80\x7d]" ++ " Good luck!") =
      some [⟨"A", "", 80, "https://x.org"⟩] ∧
    extractScholarshipJSON asciiLib "see ] and [" = none :=
  ⟨(extractScholarshipJSON_embedded_array asciiLib "Here is the list: "
      "[\x7b\"title\":\"A\",\"link\":\"https://x.org\",\"match\":80\x7d]" " Good luck!"
      (by decide) (by decide) (by decide) (by decide)).1.trans (by decide),
    ((extractScholarshipJSON_embedded_array asciiLib "Here is the list: "
      "[\x7b\"title\":\"A\",\"link\":\"https://x.org\",\"match\":80\x7d]" " Good luck!"
      (by decide) (by decide) (by decide) (by decide)).2 "see ] and ["
      (Or.inr (Or.inr ⟨10, 4, by decide, by decide, by decide⟩))).1⟩

/-- C14: the sanitized list is the sub-list, in original order, of the items
whose trimmed title and trimmed link are both non-empty, with title,
description and link replaced by their trimmed values and match unchanged;
hence every surviving item has a non-empty title and a non-empty link. -/
theorem filtered_sanitizes (recs : List ScholarshipReco) :
    filtered recs =
      (recs.filter (fun r => decide (TrimSpace r.Title ≠ "" ∧ TrimSpace r.Link ≠ ""))).map
        (fun r => ⟨TrimSpace r.Title, TrimSpace r.Description, r.Match, TrimSpace r.Link⟩) ∧
    ∀ r ∈ filtered recs, r.Title ≠ "" ∧ r.Link ≠ "" := by
  have h1 : filtered recs =
      (recs.filter (fun r => decide (TrimSpace r.Title ≠ "" ∧ TrimSpace r.Link ≠ ""))).map
        (fun r => ⟨TrimSpace r.Title, TrimSpace r.Description, r.Match, TrimSpace r.Link⟩) := by
    induction recs with
    | nil => rfl
    | cons r rest ih =>
      simp only [filtered, List.filter_cons]
      by_cases h : TrimSpace r.Title = "" ∨ TrimSpace r.Link = ""
      · rw [if_pos h, if_neg (by
          simp only [decide_eq_true_eq]
          rintro ⟨a, b⟩
          rcases h with h | h
          · exact a h
          · exact b h)]
        exact ih
      · rw [if_neg h, if_pos (by
          simp only [decide_eq_true_eq]
          exact ⟨fun a => h (Or.inl a), fun b => h (Or.inr b)⟩), List.map_cons, ih]
  refine ⟨h1, ?_⟩
  intro r hr
  rw [h1] at hr
  simp only [List.mem_map, List.mem_filter, decide_eq_true_eq] at hr
  obtain ⟨x, ⟨_, hx⟩, rfl⟩ := hr
  exact hx

/-- C15 (counterexample): for the answer `respTwins`, whose two items are titled
`Grant` and ` grant `, `generateScholarships` persists both, and the two entries
of its list have the same lower-cased, trimmed title `grant`. -/
theorem generateScholarships_duplicate_titles_counterexample :
    ((generateScholarships asciiLib (exampleServer "" respTwins "")
      (exampleCtx "" "")).calls.filterMap Call.scholarship).map (fun arg => arg.Title) =
      ["Grant", "grant"] ∧
    (scholarshipList asciiLib respTwins).map (titleKey asciiLib) = ["grant", "grant"] ∧
    ¬ (["grant", "grant"] : List String).Nodup := by
  decide

/-- C15 (amended): the titles `generateScholarships` persists are those of its
scholarship list, and that list is a rearrangement of the sanitized parsed
items, none removed or merged: two of its entries have the same lower-cased,
trimmed title exactly when two sanitized parsed items do. The handler does not
remove duplicates. -/
theorem generateScholarships_keeps_titles (L : Lib) (s : Server) (c : Ctx)
    (payload : token.Payload) (resp : String) (h : ReachesScholarshipParse s c payload resp) :
    ((generateScholarships L s c).calls.filterMap Call.scholarship).map (fun arg => arg.Title) =
      (scholarshipList L resp).map (fun r => r.Title) ∧
    (scholarshipList L resp).Perm (filtered (parseScholarshipResponse L resp).elems) ∧
    (((scholarshipList L resp).map (titleKey L)).Nodup ↔
      ((filtered (parseScholarshipResponse L resp).elems).map (titleKey L)).Nodup) := by
  obtain ⟨before, hb, hrun⟩ := generateScholarships_at_parse L s c payload resp h
  have hperm : (scholarshipList L resp).Perm (filtered (parseScholarshipResponse L resp).elems) :=
    sortSliceStable_perm _ _
  refine ⟨?_, hperm, (hperm.map (titleKey L)).nodup_iff⟩
  rw [hrun, finishScholarships_saved L s c payload resp before hb, List.map_map]
  rfl

/-- Witness of C15 (amended): the answer `respTwins`. -/
theorem generateScholarships_keeps_titles_witness :
    ReachesScholarshipParse (serverWithStore (exampleStore "") respTwins "") (exampleCtx "" "")
      ⟨"alice"⟩ respTwins ∧
    ((generateScholarships asciiLib (serverWithStore (exampleStore "") respTwins "")
      (exampleCtx "" "")).calls.filterMap Call.scholarship).map (fun arg => arg.Title) =
      (scholarshipList asciiLib respTwins).map (fun r => r.Title) ∧
    (scholarshipList asciiLib respTwins).Perm
      (filtered (parseScholarshipResponse asciiLib respTwins).elems) ∧
    (((scholarshipList asciiLib respTwins).map (titleKey asciiLib)).Nodup ↔
      ((filtered (parseScholarshipResponse asciiLib respTwins).elems).map
        (titleKey asciiLib)).Nodup) :=
  ⟨exampleParse (exampleStore "") respTwins rfl rfl rfl,
    generateScholarships_keeps_titles asciiLib (serverWithStore (exampleStore "") respTwins "")
      (exampleCtx "" "") ⟨"alice"⟩ respTwins (exampleParse (exampleStore "") respTwins rfl rfl rfl)⟩

/-- C16: once the inference call has answered, there is exactly one list that
is a rearrangement of the sanitized items (the parsed items with non-empty
trimmed title and link, trimmed), has its matches in descending order and
keeps items of equal match in the order of the sanitized list; for every
store, whatever it answers to the calls, `generateScholarships` calls
`CreateScholarship` exactly once for each item of that list, in list order (no
call for an empty list), and its response carries that whole list with `count`
equal to its length. -/
theorem generateScholarships_persists_each_item (L : Lib) (s : Server) (c : Ctx)
    (payload : token.Payload) (resp : String) (h : ReachesScholarshipParse s c payload resp) :
    ∃ items : List ScholarshipReco,
      (items.Perm (sanitizedItems (parseScholarshipResponse L resp).elems) ∧
        items.Pairwise (fun x y => x.Match ≥ y.Match) ∧
        ∀ k : Rat, items.filter (fun x => decide (x.Match = k)) =
          (sanitizedItems (parseScholarshipResponse L resp).elems).filter
            (fun x => decide (x.Match = k))) ∧
      (∀ l : List ScholarshipReco,
        l.Perm (sanitizedItems (parseScholarshipResponse L resp).elems) →
        l.Pairwise (fun x y => x.Match ≥ y.Match) →
        (∀ k : Rat, l.filter (fun x => decide (x.Match = k)) =
          (sanitizedItems (parseScholarshipResponse L resp).elems).filter
            (fun x => decide (x.Match = k))) →
        l = items) ∧
      (generateScholarships L s c).calls.filterMap Call.scholarship =
        items.map (scholarshipParams payload) ∧
      (generateScholarships L s c).response =
        ⟨200, .obj [("count", .int items.length), ("generated_at", .time c.Now),
          ("scholarships", .arr (items.map marshalScholarshipReco)),
          ("user", .str payload.Username)]⟩ := by
  obtain ⟨before, hb, hrun⟩ := generateScholarships_at_parse L s c payload resp h
  obtain ⟨hperm, hsorted, hstable⟩ := scholarshipList_stableSorted L resp
  refine ⟨scholarshipList L resp, ⟨hperm, hsorted, hstable⟩, ?_, ?_, ?_⟩
  · intro l hl hs hst
    exact stableSorted_unique (fun x => x.Match) l (scholarshipList L resp)
      (hl.trans hperm.symm) hs hsorted (fun k => (hst k).trans (hstable k).symm)
  · rw [hrun]
    exact finishScholarships_saved L s c payload resp before hb
  · rw [hrun]
    rfl

/-- Witness of C16: the answer `respMixed` with a store in which every call of
`CreateScholarship` fails. The sanitized items are `Low` (match 10) and `High`
(match 90); the two calls carry `High`, then `Low`, and the response counts 2. -/
theorem generateScholarships_persists_each_item_witness :
    ReachesScholarshipParse (serverWithStore readOnlyStore respMixed "") (exampleCtx "" "")
      ⟨"alice"⟩ respMixed ∧
    (sanitizedItems (parseScholarshipResponse asciiLib respMixed).elems).map
      (fun r => (r.Title, r.Match)) = [("Low", 10), ("High", 90)] ∧
    ((generateScholarships asciiLib (serverWithStore readOnlyStore respMixed "")
      (exampleCtx "" "")).calls.filterMap Call.scholarship).map
        (fun arg => (arg.Title, arg.MatchScore.Float64)) = [("High", 90), ("Low", 10)] ∧
    (generateScholarships asciiLib (serverWithStore readOnlyStore respMixed "")
      (exampleCtx "" "")).response.body.lookup "count" = some (.int 2) ∧
    ∃ items : List ScholarshipReco,
      (items.Perm (sanitizedItems (parseScholarshipResponse asciiLib respMixed).elems) ∧
        items.Pairwise (fun x y => x.Match ≥ y.Match) ∧
        ∀ k : Rat, items.filter (fun x => decide (x.Match = k)) =
          (sanitizedItems (parseScholarshipResponse asciiLib respMixed).elems).filter
            (fun x => decide (x.Match = k))) ∧
      (∀ l : List ScholarshipReco,
        l.Perm (sanitizedItems (parseScholarshipResponse asciiLib respMixed).elems) →
        l.Pairwise (fun x y => x.Match ≥ y.Match) →
        (∀ k : Rat, l.filter (fun x => decide (x.Match = k)) =
          (sanitizedItems (parseScholarshipResponse asciiLib respMixed).elems).filter
            (fun x => decide (x.Match = k))) →
        l = items) ∧
      (generateScholarships asciiLib (serverWithStore readOnlyStore respMixed "")
        (exampleCtx "" "")).calls.filterMap Call.scholarship =
        items.map (scholarshipParams ⟨"alice"⟩) ∧
      (generateScholarships asciiLib (serverWithStore readOnlyStore respMixed "")
        (exampleCtx "" "")).response =
        ⟨200, .obj [("count", .int items.length), ("generated_at", .time "t2"),
          ("scholarships", .arr (items.map marshalScholarshipReco)),
          ("user", .str "alice")]⟩ :=
  ⟨exampleParse readOnlyStore respMixed rfl rfl rfl, by decide, by decide, rfl,
    generateScholarships_persists_each_item asciiLib (serverWithStore readOnlyStore respMixed "")
      (exampleCtx "" "") ⟨"alice"⟩ respMixed (exampleParse readOnlyStore respMixed rfl rfl rfl)⟩

/-- C17: when the extracted text of the transcript a handler fetches is absent
(the NULL column, read as the empty string and not valid) or empty,
`createRecommendation`, `generateSummary` and `generateScholarships` each answer
with the validation failure 400 and none of their calls is an inference call. -/
theorem empty_transcript_text_rejected (L : Lib) (s : Server) (c : Ctx)
    (payload : token.Payload) (req : createRecommendationRequest) (tr latest : db.Transcript)
    (hBody : c.BodyParser = .ok req)
    (hTr : s.store.GetTranscript req.TranscriptID = .ok tr)
    (hLatest : LatestTranscript s c payload latest)
    (hText : tr.TextExtracted = ⟨"", false⟩ ∨ tr.TextExtracted = ⟨"", true⟩)
    (hLatestText : latest.TextExtracted = ⟨"", false⟩ ∨ latest.TextExtracted = ⟨"", true⟩) :
    ((createRecommendation L s c).response =
        errorResponse 400 (.text "transcript has no text content") ∧
      (createRecommendation L s c).calls.all (fun call => !call.isInference) = true) ∧
    ((generateSummary s c).response =
        errorResponse 400 (.text "transcript has no extracted text") ∧
      (generateSummary s c).calls.all (fun call => !call.isInference) = true) ∧
    ((generateScholarships L s c).response =
        errorResponse 400 (.text "transcript has no extracted text") ∧
      (generateScholarships L s c).calls.all (fun call => !call.isInference) = true) := by
  obtain ⟨transcripts, first, rest, h1, h2, h3, h4⟩ := hLatest
  have hEmpty : TrimSpace latest.TextExtracted.Str = "" := by
    rcases hLatestText with h | h <;> rw [h] <;> decide
  have hRec : (!tr.TextExtracted.Valid || decide (tr.TextExtracted.Str = "")) = true := by
    rcases hText with h | h <;> rw [h] <;> decide
  refine ⟨?_, ?_, ?_⟩
  · rw [show createRecommendation L s c =
        ⟨errorResponse 400 (.text "transcript has no text content"),
          [.GetTranscript req.TranscriptID]⟩ by
      simp only [createRecommendation, h1, hBody, hTr, hRec, if_true]]
    exact ⟨rfl, rfl⟩
  · rw [show generateSummary s c =
        ⟨errorResponse 400 (.text "transcript has no extracted text"),
          [.ListTranscripts payload.Username, .GetTranscript first.ID]⟩ by
      simp only [generateSummary, h1, h2, h3, h4, hEmpty, if_true]]
    exact ⟨rfl, rfl⟩
  · rw [show generateScholarships L s c =
        ⟨errorResponse 400 (.text "transcript has no extracted text"),
          [.ListTranscripts payload.Username, .GetTranscript first.ID]⟩ by
      simp only [generateScholarships, h1, h2, h3, h4, hEmpty, if_true]]
    exact ⟨rfl, rfl⟩

/-- Witness of C17: the store `noTextStore`, whose transcript has no text. -/
theorem empty_transcript_text_rejected_witness :
    ((createRecommendation asciiLib (serverWithStore noTextStore "" "")
        (exampleCtx "" "")).response =
        errorResponse 400 (.text "transcript has no text content") ∧
      (createRecommendation asciiLib (serverWithStore noTextStore "" "")
        (exampleCtx "" "")).calls.all (fun call => !call.isInference) = true) ∧
    ((generateSummary (serverWithStore noTextStore "" "") (exampleCtx "" "")).response =
        errorResponse 400 (.text "transcript has no extracted text") ∧
      (generateSummary (serverWithStore noTextStore "" "")
        (exampleCtx "" "")).calls.all (fun call => !call.isInference) = true) ∧
    ((generateScholarships asciiLib (serverWithStore noTextStore "" "")
        (exampleCtx "" "")).response =
        errorResponse 400 (.text "transcript has no extracted text") ∧
      (generateScholarships asciiLib (serverWithStore noTextStore "" "")
        (exampleCtx "" "")).calls.all (fun call => !call.isInference) = true) :=
  empty_transcript_text_rejected asciiLib (serverWithStore noTextStore "" "") (exampleCtx "" "")
    ⟨"alice"⟩ ⟨1, "machine learning"⟩ ⟨1, "alice", ⟨"", false⟩⟩ ⟨1, "alice", ⟨"", false⟩⟩
    rfl rfl ⟨_, _, _, rfl, rfl, rfl, rfl⟩ (Or.inl rfl) (Or.inl rfl)

/-- C18 (counterexample): with `maxResults = 0` and an upstream answer of two
results, `fetchBraveResults` returns both results, more than `maxResults`. -/
theorem fetchBraveResults_unbounded_counterexample :
    (DecodeStream decBraveData braveTwo ⟨⟨none⟩⟩).1.Web.Results.elems.length = 2 ∧
    (fetchBraveResults (fun _ => .ok (200, braveTwo)) "grants" "brave-key" "" 0).1 =
      .ok (some [⟨"Grant A", "https://a.org", "first"⟩, ⟨"Grant B", "https://b.org", "second"⟩]) ∧
    ¬ (([⟨"Grant A", "https://a.org", "first"⟩,
      ⟨"Grant B", "https://b.org", "second"⟩] : List WebResult).length ≤ 0) :=
  ⟨by decide, rfl, by decide⟩

/-- C18 (amended): when the search endpoint answers with a status below 400 and a
body that decodes, `fetchBraveResults` returns, without error, the leading
upstream results in upstream order, each with title, url and snippet equal to
the trimmed upstream title, url and description: the first `maxResults` of them
when `maxResults` is positive (so at most `maxResults` items), all of them when
`maxResults` is zero or negative; an empty upstream list yields an empty
list. -/
theorem fetchBraveResults_leading_results (http : braveRequest → Except GoError (Nat × String))
    (q apiKey baseURL : String) (maxResults : Int) (status : Nat) (body : String)
    (data : braveData)
    (hResp : http ⟨if baseURL = "" then "https://api.search.brave.com/res/v1/web/search"
      else baseURL, q, apiKey⟩ = .ok (status, body))
    (hStatus : status < 400)
    (hData : DecodeStream decBraveData body ⟨⟨none⟩⟩ = (data, false)) :
    ∃ results, (fetchBraveResults http q apiKey baseURL maxResults).1 = .ok (some results) ∧
      results =
        ((if 0 < maxResults then data.Web.Results.elems.take maxResults.toNat
          else data.Web.Results.elems).map
          (fun r => ⟨TrimSpace r.Title, TrimSpace r.URL, TrimSpace r.Description⟩)) ∧
      (0 < maxResults → (results.length : Int) ≤ maxResults) ∧
      (data.Web.Results.elems = [] → results = []) := by
  refine ⟨_, ?_, rfl, ?_, ?_⟩
  · simp only [fetchBraveResults, hResp, Nat.not_le.mpr hStatus, if_false, hData,
      Bool.false_eq_true, collectResults_from, Nat.sub_zero]
  · intro hpos
    rw [if_pos hpos, List.length_map, List.length_take]
    omega
  · intro hnil
    rw [hnil]
    split <;> simp

/-- Witness of C18 (amended): two upstream results and `maxResults = 1`. -/
theorem fetchBraveResults_leading_results_witness :
    ∃ results, (fetchBraveResults (fun _ => .ok (200, braveTwo)) "grants" "brave-key" "" 1).1 =
        .ok (some results) ∧
      results =
        ((if 0 < (1 : Int) then
            (DecodeStream decBraveData braveTwo ⟨⟨none⟩⟩).1.Web.Results.elems.take (1 : Int).toNat
          else (DecodeStream decBraveData braveTwo ⟨⟨none⟩⟩).1.Web.Results.elems).map
          (fun r => ⟨TrimSpace r.Title, TrimSpace r.URL, TrimSpace r.Description⟩)) ∧
      (0 < (1 : Int) → (results.length : Int) ≤ 1) ∧
      ((DecodeStream decBraveData braveTwo ⟨⟨none⟩⟩).1.Web.Results.elems = [] → results = []) :=
  fetchBraveResults_leading_results (fun _ => .ok (200, braveTwo)) "grants" "brave-key" "" 1 200
    braveTwo _ rfl (by decide) (Prod.ext rfl rfl)

/-- C19 (counterexample): for the supplied roles `Assistant` and `SYSTEM`, neither
of which is `user`, `assistant` or `system`, `chatStream` sends the roles
`assistant` and `system`, not `user`; and it sends the content ` hello ` as
`hello`. -/
theorem chatStream_role_counterexample :
    (upstreamRequest (chatStream asciiLib (exampleServer "" "" "")
      (chatCtx "" [⟨"Assistant", " hello "⟩, ⟨"SYSTEM", "obey"⟩])).calls).map
        (fun req => req.Messages.tail) =
      some [⟨"assistant", "hello"⟩, ⟨"system", "obey"⟩] ∧
    "Assistant" ∉ ["user", "assistant", "system"] ∧ "SYSTEM" ∉ ["user", "assistant", "system"] ∧
    ([⟨"assistant", "hello"⟩, ⟨"system", "obey"⟩] : List aiMessage).map (fun m => m.Role) ≠
      ["user", "user"] := by
  decide

/-- C19 (amended): the conversation `chatStream` sends upstream is the system
message holding the assembled context followed by, in original order, one
message for each supplied message whose trimmed content is non-empty, carrying
that trimmed content, with role equal to the supplied role trimmed and
lower-cased when that is `user`, `assistant` or `system`, and `user` otherwise;
no supplied message with blank content appears. -/
theorem chatStream_upstream_messages (L : Lib) (s : Server) (c : Ctx) (payload : token.Payload)
    (messages : List ChatMessage) (h : ChatRequest L s c payload messages) :
    ∃ req, upstreamRequest (chatStream L s c).calls = some req ∧
      req.Messages = ⟨"system", (systemContext L s c payload).1⟩ ::
        messages.filterMap (normalizedMessage L) := by
  obtain ⟨body, h1, h2, h3, h4, h5⟩ := h
  subst h3
  have hlen : ¬ body.elems.length = 0 := by simpa [List.length_eq_zero] using h4
  refine ⟨⟨s.config.OpenAIModel, ⟨"system", (systemContext L s c payload).1⟩ ::
    appendMessages L body.elems, true, none⟩, ?_, ?_⟩
  · simp only [chatStream, h1, h2, hlen, if_false]
    simp [upstreamRequest]
  · simp only [appendMessages_eq]

/-- Witness of C19 (amended): three supplied messages, the last one blank. -/
theorem chatStream_upstream_messages_witness :
    ∃ req, upstreamRequest (chatStream asciiLib (exampleServer "" "" "")
        (chatCtx "" [⟨"Assistant", " hello "⟩, ⟨"tool", "x"⟩, ⟨"user", "  "⟩])).calls = some req ∧
      req.Messages = ⟨"system", (systemContext asciiLib (exampleServer "" "" "")
          (chatCtx "" [⟨"Assistant", " hello "⟩, ⟨"tool", "x"⟩, ⟨"user", "  "⟩]) ⟨"alice"⟩).1⟩ ::
        [⟨"Assistant", " hello "⟩, ⟨"tool", "x"⟩, ⟨"user", "  "⟩].filterMap
          (normalizedMessage asciiLib) :=
  chatStream_upstream_messages asciiLib (exampleServer "" "" "")
    (chatCtx "" [⟨"Assistant", " hello "⟩, ⟨"tool", "x"⟩, ⟨"user", "  "⟩]) ⟨"alice"⟩ _
    ⟨_, rfl, rfl, rfl, by decide, fun e h => by cases h⟩

/-- C20: in the store `sharedStore` transcript 2 and recommendation 4 belong to
`bob`. A request of `alice` to `createRecommendation` naming transcript 2 sends
the text of that transcript to the inference endpoint, is answered with 200 and
writes a recommendation; a chat request of `alice` with the header
`X-Recommendation-ID: 4` sends the transcript text and the courses of that
recommendation upstream in the system message; neither handler compares the
owner with the caller. `deleteCourseFromRecommendation` does: the same caller is
answered 403 on recommendation 4. -/
theorem owner_not_verified_before_use :
    (sharedStore.GetTranscript 2).toOption.map (fun tr => tr.UserUsername) = some "bob" ∧
    (sharedStore.GetRecommendation 4).toOption.map (fun r => r.UserUsername) = some "bob" ∧
    (bodyCtx 2).Locals = some ⟨"alice"⟩ ∧ (chatCtx "4" [⟨"user", "hi"⟩]).Locals = some ⟨"alice"⟩ ∧
    "BOB: thesis on cryptography, grade 5" ∈
      (createRecommendation asciiLib (serverWithStore sharedStore completedOne respSix)
        (bodyCtx 2)).calls.flatMap Call.prompts ∧
    (createRecommendation asciiLib (serverWithStore sharedStore completedOne respSix)
      (bodyCtx 2)).response.status = 200 ∧
    (createRecommendation asciiLib (serverWithStore sharedStore completedOne respSix)
      (bodyCtx 2)).writes.length = 1 ∧
    (upstreamRequest (chatStream asciiLib (serverWithStore sharedStore "" "")
      (chatCtx "4" [⟨"user", "hi"⟩])).calls).map (fun req => req.Messages.head?) =
      some (some ⟨"system", chatPersona ++ "\n\n[FULL ACADEMIC CONTEXT INJECTED BELOW]\n" ++
        "\n\n[USER ACADEMIC TRANSCRIPT TEXT]\nBOB: thesis on cryptography, grade 5\n" ++
        "\n\n[RECOMMENDED COURSES JSON]\n" ++
        "[\x7b\"type\":\"course\",\"title\":\"Algorithms\",\"description\":\"fits\",\"match\":90,\"code\":\"CS201\",\"course_id\":7\x7d]\n"⟩) ∧
    (deleteCourseFromRecommendation asciiLib (serverWithStore sharedStore "" "")
      (exampleCtx "4" "7")).response.status = 403 := by
  decide

/-! ## The streaming relay: lines and events -/

theorem escapeNewlines_no_newline : ∀ cs : List Char, '\n' ∉ escapeNewlines cs
  | [] => by simp [escapeNewlines]
  | c :: cs => by
    have ih := escapeNewlines_no_newline cs
    unfold escapeNewlines
    split
    · simp only [List.mem_cons, not_or]
      exact ⟨by decide, by decide, ih⟩
    · next h =>
      simp only [List.mem_cons, not_or]
      refine ⟨?_, ih⟩
      intro hc
      exact h (by rw [← hc]; rfl)

theorem processLine_eq (line : String) :
    processLine line =
      if isTermination line then .stop
      else match lineToken line with
        | some t => .emit (tokenEvent t)
        | none => .skip := by
  unfold processLine isTermination lineToken lineData
  simp only
  by_cases h0 : TrimSpace line = ""
  · rw [if_pos h0, h0]
    rfl
  · rw [if_neg h0]
    by_cases h1 : startsWith (TrimSpace line).data "data: ".data = true
    · simp only [h1, Bool.not_true, Bool.false_eq_true, if_false, if_true]
      by_cases h2 : TrimSpace (TrimPrefix (TrimSpace line) "data: ") = ""
      · rw [if_pos h2, h2]
        rfl
      · rw [if_neg h2]
        by_cases h3 : TrimSpace (TrimPrefix (TrimSpace line) "data: ") = "[DONE]"
        · rw [if_pos h3, h3]
          rfl
        · rw [if_neg h3]
          have h4 : (some (TrimSpace (TrimPrefix (TrimSpace line) "data: ")) == some "[DONE]")
              = false := by
            simpa using h3
          rw [h4]
          simp only [Bool.false_eq_true, if_false]
          split
          · rfl
          · split
            · rfl
            · split <;> rfl
    · simp only [h1, Bool.not_false, if_true, Bool.false_eq_true, if_false]
      rfl

theorem join_cons (a : String) (l : List String) :
    String.join (a :: l) = a ++ String.join l := by
  apply String.ext
  simp [String.join_eq, String.data_append]

theorem relayLines_eq : ∀ lines : List String,
    relayLines lines = String.join (relayedEvents lines)
  | [] => rfl
  | line :: rest => by
    have ih := relayLines_eq rest
    unfold relayLines
    rw [processLine_eq]
    unfold relayedEvents
    rw [List.takeWhile_cons]
    by_cases hd : isTermination line = true
    · simp only [hd, Bool.not_true, Bool.false_eq_true, if_false, if_true]
      rfl
    · simp only [hd, Bool.not_false, if_true, Bool.false_eq_true, if_false, List.filterMap_cons]
      cases ht : lineToken line with
      | none =>
        simp only
        rw [ih]
        rfl
      | some t =>
        simp only [List.map_cons]
        rw [ih, join_cons]
        rfl

theorem readLines_line (s : List Char) (hs : '\n' ∉ s) (rest cur : List Char) :
    readLines (s ++ '\n' :: rest) cur =
      String.mk (cur.reverse ++ s ++ ['\n']) :: readLines rest [] := by
  induction s generalizing cur with
  | nil => simp [readLines]
  | cons c cs ih =>
    simp only [List.mem_cons, not_or] at hs
    show readLines (c :: (cs ++ '\n' :: rest)) cur = _
    rw [readLines, if_neg (by simpa using Ne.symm hs.1), ih hs.2]
    simp

theorem readLines_join : ∀ lines : List String,
    (∀ line ∈ lines, ∃ s : List Char, line.data = s ++ ['\n'] ∧ '\n' ∉ s) →
    readLines (String.join lines).data [] = lines
  | [], _ => rfl
  | line :: rest, h => by
    obtain ⟨s, hline, hs⟩ := h line (List.mem_cons_self _ _)
    have ih := readLines_join rest (fun l hl => h l (List.mem_cons_of_mem _ hl))
    rw [join_cons, String.data_append, hline, List.append_assoc, List.singleton_append,
      readLines_line s hs, ih]
    congr 1
    apply String.ext
    simp [hline]

/-! ## The auth middleware -/

theorem utf8ByteSize_eq_zero (s : String) (h : s.utf8ByteSize = 0) : s.data = [] := by
  cases hs : s.data with
  | nil => rfl
  | cons c cs =>
    exfalso
    have h2 : (String.mk (c :: cs)).utf8ByteSize = 0 := by
      rw [← hs]
      exact h
    simp only [String.utf8ByteSize, String.utf8ByteSize.go] at h2
    have := Char.utf8Size_pos c
    omega

/-- The five cases of `TestAuthMiddlewareFiber`: a valid bearer token passes,
no header, another scheme, a single field and a rejected token are answered
401. -/
theorem authMiddlewareFiber_test_cases :
    (match authMiddlewareFiber asciiLib exampleVerify (headerCtx "bearer good-token") with
      | .next c => c.Locals
      | .respond _ => none) = some ⟨"alice"⟩ ∧
    ["", "unsupported good-token", "malformed-token", "bearer expired-token"].map
      (fun header =>
        match authMiddlewareFiber asciiLib exampleVerify (headerCtx header) with
        | .next _ => 0
        | .respond r => r.status) = [401, 401, 401, 401] := by
  decide

/-! ## The chat context: payload keys -/

theorem lessChars_irrefl : ∀ a : List Char, lessChars a a = false
  | [] => rfl
  | c :: cs => by
    simp only [lessChars, Nat.lt_irrefl, if_false]
    exact lessChars_irrefl cs

theorem lessChars_trans : ∀ a b c : List Char,
    lessChars a b = true → lessChars b c = true → lessChars a c = true
  | _, _, [], _, h => by cases ‹List Char› <;> simp [lessChars] at h
  | _, [], _ :: _, h, _ => by cases ‹List Char› <;> simp [lessChars] at h
  | [], _ :: _, _ :: _, _, _ => rfl
  | x :: xs, y :: ys, z :: zs, h1, h2 => by
    simp only [lessChars] at h1 h2 ⊢
    by_cases hxy : x.toNat < y.toNat
    · by_cases hyz : y.toNat < z.toNat
      · rw [if_pos (by omega)]
      · rw [if_neg hyz] at h2
        by_cases hzy : z.toNat < y.toNat
        · rw [if_pos hzy] at h2; cases h2
        · rw [if_pos (by omega)]
    · rw [if_neg hxy] at h1
      by_cases hyx : y.toNat < x.toNat
      · rw [if_pos hyx] at h1; cases h1
      · rw [if_neg hyx] at h1
        by_cases hyz : y.toNat < z.toNat
        · rw [if_pos (by omega)]
        · rw [if_neg hyz] at h2
          by_cases hzy : z.toNat < y.toNat
          · rw [if_pos hzy] at h2; cases h2
          · rw [if_neg hzy] at h2
            rw [if_neg (by omega), if_neg (by omega)]
            exact lessChars_trans xs ys zs h1 h2

theorem lessChars_total : ∀ a b : List Char, a ≠ b → lessChars a b = false →
    lessChars b a = true
  | [], [], h, _ => absurd rfl h
  | [], _ :: _, _, h => by simp [lessChars] at h
  | _ :: _, [], _, _ => rfl
  | x :: xs, y :: ys, hne, h => by
    simp only [lessChars] at h ⊢
    by_cases hxy : x.toNat < y.toNat
    · rw [if_pos hxy] at h; cases h
    · rw [if_neg hxy] at h
      by_cases hyx : y.toNat < x.toNat
      · rw [if_pos hyx]
      · rw [if_neg hyx] at h
        rw [if_neg hyx, if_neg hxy]
        have hxe : x = y := by
          have := congrArg Char.ofNat (show x.toNat = y.toNat by omega)
          simpa using this
        subst hxe
        exact lessChars_total xs ys (fun he => hne (by rw [he])) h

theorem rawMapSet_above (k v : String) (l : List (String × String))
    (h : ∀ e ∈ l, lessChars k.data e.1.data = true) : rawMapSet k v l = (k, v) :: l := by
  cases l with
  | nil => rfl
  | cons e rest =>
    have he := h e (List.mem_cons_self _ _)
    have hne : k ≠ e.1 := by
      intro heq
      rw [heq, lessChars_irrefl] at he
      cases he
    rw [rawMapSet, if_neg hne, if_pos he]

theorem mem_rawMapSet (k v : String) : ∀ (m : List (String × String)) (x : String × String),
    x ∈ rawMapSet k v m → x = (k, v) ∨ x ∈ m
  | [], x, h => by
    simp only [rawMapSet, List.mem_singleton] at h
    exact Or.inl h
  | e :: rest, x, h => by
    unfold rawMapSet at h
    split at h
    · rcases List.mem_cons.mp h with h | h
      · exact Or.inl h
      · exact Or.inr (List.mem_cons_of_mem _ h)
    · split at h
      · rcases List.mem_cons.mp h with h | h
        · exact Or.inl h
        · exact Or.inr h
      · rcases List.mem_cons.mp h with h | h
        · exact Or.inr (h ▸ List.mem_cons_self _ _)
        · rcases mem_rawMapSet k v rest x h with h | h
          · exact Or.inl h
          · exact Or.inr (List.mem_cons_of_mem _ h)

theorem rawMapSet_sorted (k v : String) : ∀ m : List (String × String),
    KeySorted m → KeySorted (rawMapSet k v m)
  | [], _ => by simp [rawMapSet, KeySorted]
  | e :: rest, h => by
    unfold KeySorted at h ⊢
    rw [List.pairwise_cons] at h
    unfold rawMapSet
    by_cases h1 : k = e.1
    · rw [if_pos h1, List.pairwise_cons]
      exact ⟨fun y hy => by rw [h1]; exact h.1 y hy, h.2⟩
    · rw [if_neg h1]
      by_cases h2 : lessChars k.data e.1.data = true
      · rw [if_pos h2, List.pairwise_cons, List.pairwise_cons]
        refine ⟨?_, h.1, h.2⟩
        intro y hy
        rcases List.mem_cons.mp hy with rfl | hy
        · exact h2
        · exact lessChars_trans _ _ _ h2 (h.1 y hy)
      · rw [if_neg h2, List.pairwise_cons]
        refine ⟨?_, rawMapSet_sorted k v rest h.2⟩
        intro y hy
        rcases mem_rawMapSet k v rest y hy with rfl | hy
        · exact lessChars_total _ _ (fun he => h1 (String.ext he)) (by simpa using h2)
        · exact h.1 y hy

theorem rawMapSet_cons (k v : String) (e : String × String) (rest : List (String × String)) :
    rawMapSet k v (e :: rest) =
      if k = e.1 then (k, v) :: rest
      else if lessChars k.data e.1.data then (k, v) :: e :: rest
      else e :: rawMapSet k v rest := by
  rw [rawMapSet]

theorem rawMapSet_filter (P : String → Bool) (k v : String) :
    ∀ m : List (String × String), KeySorted m →
      (rawMapSet k v m).filter (fun e => P e.1) =
        if P k then rawMapSet k v (m.filter (fun e => P e.1)) else m.filter (fun e => P e.1)
  | [], _ => by
    by_cases hk : P k = true <;> simp [rawMapSet, hk]
  | e :: rest, h => by
    have hs := h
    unfold KeySorted at h
    rw [List.pairwise_cons] at h
    have ih := rawMapSet_filter P k v rest h.2
    rw [rawMapSet_cons]
    by_cases h1 : k = e.1
    · rw [if_pos h1]
      by_cases hk : P k = true
      · have he : P e.1 = true := h1 ▸ hk
        simp only [hk, he, if_true, List.filter_cons]
        rw [rawMapSet_cons, if_pos h1]
      · have he : ¬ P e.1 = true := h1 ▸ hk
        simp only [hk, he, if_false, List.filter_cons, Bool.false_eq_true]
    · rw [if_neg h1]
      by_cases h2 : lessChars k.data e.1.data = true
      · rw [if_pos h2]
        have habove : ∀ y ∈ (e :: rest).filter (fun e => P e.1),
            lessChars k.data y.1.data = true := by
          intro y hy
          rcases List.mem_cons.mp (List.mem_of_mem_filter hy) with rfl | hy
          · exact h2
          · exact lessChars_trans _ _ _ h2 (h.1 y hy)
        by_cases hk : P k = true
        · rw [if_pos hk, rawMapSet_above k v _ habove]
          rw [List.filter_cons]
          simp only [hk, if_true]
        · rw [if_neg hk, List.filter_cons]
          simp only [hk, Bool.false_eq_true, if_false]
      · rw [if_neg h2, List.filter_cons, ih]
        by_cases he : P e.1 = true
        · simp only [he, if_true, List.filter_cons]
          by_cases hk : P k = true
          · simp only [hk, if_true]
            rw [rawMapSet_cons, if_neg h1, if_neg h2]
          · simp only [hk, Bool.false_eq_true, if_false]
        · simp only [he, Bool.false_eq_true, if_false, List.filter_cons]

theorem rawEntries_fold (P : String → Bool) : ∀ (ms : List (String × String × Json))
    (acc : List (String × String)), KeySorted acc →
    (ms.foldl (fun m e => rawMapSet e.1 e.2.1 m) acc).filter (fun e => P e.1) =
      (ms.filter (fun m => P m.1)).foldl (fun m e => rawMapSet e.1 e.2.1 m)
        (acc.filter (fun e => P e.1))
  | [], _, _ => rfl
  | m :: ms, acc, h => by
    simp only [List.foldl_cons]
    rw [rawEntries_fold P ms _ (rawMapSet_sorted _ _ acc h), rawMapSet_filter P _ _ acc h,
      List.filter_cons]
    by_cases hk : P m.1 = true
    · simp only [hk, if_true, List.foldl_cons]
    · simp only [hk, Bool.false_eq_true, if_false]

theorem rawEntries_filter (P : String → Bool) (ms : List (String × String × Json)) :
    (rawEntries ms).filter (fun e => P e.1) = rawEntries (ms.filter (fun m => P m.1)) := by
  unfold rawEntries
  exact rawEntries_fold P ms [] List.Pairwise.nil
theorem length_le_utf8 : ∀ cs : List Char, cs.length ≤ (String.mk cs).utf8ByteSize
  | [] => Nat.le_refl _
  | c :: cs => by
    have ih := length_le_utf8 cs
    have hc := Char.utf8Size_pos c
    simp only [String.utf8ByteSize, String.utf8ByteSize.go, List.length_cons] at ih ⊢
    omega

theorem parseMembers_length (fuel : Nat) (cs : List Char) (acc : List (String × String × Json))
    (v : Json) (r : List Char) (h : parseMembers fuel cs acc = some (v, r)) : 2 ≤ cs.length := by
  cases fuel with
  | zero => simp [parseMembers] at h
  | succ fuel =>
    cases cs with
    | nil => simp [parseMembers] at h
    | cons q afterQuote =>
      unfold parseMembers at h
      simp only at h
      split at h
      · split at h
        · simp at h
        · next key r0 hss =>
          have := scanString_length _ _ _ _ _ hss
          simp only [List.length_cons]
          omega
      · simp at h

theorem parseValue_obj_length (fuel : Nat) (cs : List Char) (ms : List (String × String × Json))
    (r : List Char) (h : parseValue fuel cs = some (.obj ms, r)) (hne : ms ≠ []) :
    3 ≤ cs.length := by
  cases fuel with
  | zero => simp [parseValue] at h
  | succ fuel =>
    cases cs with
    | nil => simp [parseValue] at h
    | cons c rest =>
      unfold parseValue at h
      simp only at h
      by_cases h1 : (c == '\x7b') = true
      · rw [if_pos h1] at h
        have hle := skipSpace_length_le rest
        cases hsk : skipSpace rest with
        | nil => rw [hsk] at h; simp at h
        | cons d rest2 =>
          rw [hsk] at h hle
          simp only at h
          split at h
          · have hv := (Prod.mk.inj (Option.some.inj h)).1
            injection hv with hv
            exact absurd hv.symm hne
          · have := parseMembers_length fuel _ _ _ _ h
            simp only [List.length_cons] at this hle ⊢
            omega
      · rw [if_neg h1] at h
        by_cases h2 : (c == '[') = true
        · rw [if_pos h2] at h
          cases hsk : skipSpace rest with
          | nil => rw [hsk] at h; simp at h
          | cons d rest2 =>
            rw [hsk] at h
            simp only at h
            split at h
            · have hv := (Prod.mk.inj (Option.some.inj h)).1
              cases hv
            · obtain ⟨xs, hxs⟩ := parseItems_arr fuel _ _ _ _ h
              cases hxs
        · rw [if_neg h2] at h
          by_cases h3 : (c == '"') = true
          · rw [if_pos h3] at h
            split at h
            · have hv := (Prod.mk.inj (Option.some.inj h)).1
              cases hv
            · simp at h
          · rw [if_neg h3] at h
            repeat' split at h
            all_goals first
              | (have hv := (Prod.mk.inj (Option.some.inj h)).1; cases hv)
              | (simp at h)

theorem parseDoc_obj_size (p : String) (ms : List (String × String × Json))
    (h : parseDoc p = some (.obj ms)) (hne : ms ≠ []) : 2 < p.utf8ByteSize := by
  replace h := parseDoc_text _ _ h
  unfold parseText at h
  split at h
  · next v r hv =>
    split at h
    · have hv2 := Option.some.inj h
      subst hv2
      have h3 := parseValue_obj_length _ _ _ _ hv hne
      have h4 := skipSpace_length_le p.data
      have h5 := length_le_utf8 p.data
      have h6 : (String.mk p.data).utf8ByteSize = p.utf8ByteSize := rfl
      omega
    · simp at h
  · simp at h

theorem rawEntries_same_key (k : String) : ∀ (ms : List (String × String × Json))
    (acc : List (String × String)), (∀ m ∈ ms, m.1 = k) → (acc = [] ∨ ∃ x, acc = [(k, x)]) →
    ms.foldl (fun m e => rawMapSet e.1 e.2.1 m) acc =
      match ms.getLast? with
      | some m => [(k, m.2.1)]
      | none => acc
  | [], _, _, _ => rfl
  | m :: ms, acc, h, hacc => by
    have hm : m.1 = k := h m (List.mem_cons_self _ _)
    have hstep : rawMapSet m.1 m.2.1 acc = [(k, m.2.1)] := by
      rcases hacc with rfl | ⟨x, rfl⟩
      · rw [hm]; rfl
      · rw [hm, rawMapSet_cons, if_pos rfl]
    simp only [List.foldl_cons]
    rw [hstep, rawEntries_same_key k ms _ (fun x hx => h x (List.mem_cons_of_mem _ hx))
      (Or.inr ⟨_, rfl⟩)]
    cases ms with
    | nil => rfl
    | cons y ys =>
      rw [List.getLast?_cons_cons, List.getLast?_eq_getLast _ (List.cons_ne_nil y ys)]

theorem find_eq_head_filter {α : Type} (p : α → Bool) : ∀ l : List α,
    l.find? p = (l.filter p).head?
  | [] => rfl
  | x :: xs => by
    rw [List.find?_cons, List.filter_cons]
    cases hp : p x
    · simp only [Bool.false_eq_true, if_false]
      exact find_eq_head_filter p xs
    · simp

theorem find_rawEntries (k : String) (ms : List (String × String × Json)) :
    (rawEntries ms).find? (fun e => e.1 = k) = (lastRaw k ms).map (fun raw => (k, raw)) := by
  have h1 : (rawEntries ms).find? (fun e => decide (e.1 = k)) =
      ((rawEntries ms).filter (fun e => (fun key => decide (key = k)) e.1)).head? :=
    find_eq_head_filter _ _
  rw [h1, rawEntries_filter (fun key => decide (key = k)) ms]
  unfold rawEntries lastRaw
  rw [rawEntries_same_key k _ [] (fun m hm => by simpa using (List.mem_filter.mp hm).2)
    (Or.inl rfl)]
  cases (ms.filter (fun m => decide (m.1 = k))).getLast? <;> rfl

theorem payloadContext_object (L : Lib) (p : String) (ms : List (String × String × Json))
    (h : parseDoc p = some (.obj ms)) :
    payloadContext L p = coursesBlock ms ++ otherBlock L ms := by
  have hdec : Unmarshal decRawMap p none = (some (rawEntries ms), false) := by
    simp only [Unmarshal, h, decRawMap, rawEntries, Option.getD_none]
  have hmain : (let decoded := Unmarshal decRawMap p none
      if decoded.2 then "\n\n[RAW RECOMMENDATION PAYLOAD JSON]\n" ++ p ++ "\n"
      else
        let courses :=
          match (decoded.1.getD []).find? (fun e => e.1 = "courses") with
          | some e =>
            if e.2.utf8ByteSize > 2 then "\n\n[RECOMMENDED COURSES JSON]\n" ++ e.2 ++ "\n" else ""
          | none => ""
        let remaining : RawMap :=
          decoded.1.map (fun es => es.filter (fun e => e.1 ≠ "courses" ∧ e.1 ≠ "scholarships"))
        let remainingJSON := marshalRawMap L remaining
        courses ++
          (if remainingJSON.utf8ByteSize > 2 then
            "\n\n[OTHER RECOMMENDATION DATA JSON]\n" ++ remainingJSON ++ "\n"
           else "")) = coursesBlock ms ++ otherBlock L ms := by
    simp only [hdec, Bool.false_eq_true, if_false, Option.getD_some, Option.map_some']
    rw [find_rawEntries "courses" ms]
    have hf := rawEntries_filter (fun key => decide (key ≠ "courses" ∧ key ≠ "scholarships")) ms
    simp only at hf
    rw [hf]
    unfold coursesBlock otherBlock
    cases lastRaw "courses" ms <;> rfl
  by_cases hsize : p.utf8ByteSize > 2
  · unfold payloadContext
    rw [if_pos hsize]
    exact hmain
  · have hms : ms = [] := by
      by_contra hne
      exact hsize (parseDoc_obj_size p ms h hne)
    unfold payloadContext
    rw [if_neg hsize, hms]
    rfl

theorem filter_courses_of_rest (ms : List (String × String × Json)) :
    (ms.filter (fun m => m.1 ≠ "scholarships")).filter (fun m => m.1 = "courses") =
      ms.filter (fun m => m.1 = "courses") := by
  rw [List.filter_filter]
  apply List.filter_congr
  intro m _
  by_cases h : m.1 = "courses"
  · have : m.1 ≠ "scholarships" := by rw [h]; decide
    simp [h]
  · simp [h]

theorem filter_other_of_rest (ms : List (String × String × Json)) :
    (ms.filter (fun m => m.1 ≠ "scholarships")).filter
        (fun m => m.1 ≠ "courses" ∧ m.1 ≠ "scholarships") =
      ms.filter (fun m => m.1 ≠ "courses" ∧ m.1 ≠ "scholarships") := by
  rw [List.filter_filter]
  apply List.filter_congr
  intro m _
  by_cases h : m.1 = "scholarships" <;> simp [h]

theorem payloadContext_same (L : Lib) (p q : String) (h : SameButScholarships p q) :
    payloadContext L p = payloadContext L q := by
  obtain ⟨ms, ns, hp, hq, hsame⟩ := h
  rw [payloadContext_object L p ms hp, payloadContext_object L q ns hq]
  have hc : coursesBlock ms = coursesBlock ns := by
    unfold coursesBlock lastRaw
    rw [← filter_courses_of_rest ms, ← filter_courses_of_rest ns, hsame]
  have ho : otherBlock L ms = otherBlock L ns := by
    unfold otherBlock
    rw [← filter_other_of_rest ms, ← filter_other_of_rest ns, hsame]
  rw [hc, ho]

theorem recommendationContext_same (L : Lib) (s t : Server) (c : Ctx)
    (h : StoresAgreeButScholarships s.store t.store) :
    (recommendationContext L s c).1 = (recommendationContext L t c).1 := by
  obtain ⟨hT, _, hR⟩ := h
  unfold recommendationContext
  simp only
  by_cases h0 : c.Get "X-Recommendation-ID" ≠ ""
  · rw [if_pos h0, if_pos h0]
    cases hp : ParseInt (c.Get "X-Recommendation-ID") with
    | none => rfl
    | some id =>
      simp only
      rcases hR id with heq | ⟨r, q, hs, ht, hsame⟩
      · rw [heq]
        cases t.store.GetRecommendation id with
        | error e => rfl
        | ok reco =>
          simp only
          have : (transcriptContext s reco).1 = (transcriptContext t reco).1 := by
            unfold transcriptContext
            rw [hT]
          rw [this]
      · rw [hs, ht]
        simp only
        have h1 : (transcriptContext s r).1 =
            (transcriptContext t { r with Payload := q }).1 := by
          unfold transcriptContext
          rw [hT]
        rw [h1, payloadContext_same L r.Payload q hsame]
  · rw [if_neg h0, if_neg h0]

theorem scholarshipContext_same (L : Lib) (s t : Server) (payload : token.Payload)
    (h : s.store.ListRecentScholarshipsByUser = t.store.ListRecentScholarshipsByUser) :
    (scholarshipContext L s payload).1 = (scholarshipContext L t payload).1 := by
  unfold scholarshipContext
  simp only [h]

theorem exampleStoresAgree :
    StoresAgreeButScholarships (exampleStore storedNoteA) (exampleStore storedNoteB) := by
  refine ⟨rfl, rfl, ?_⟩
  intro id
  by_cases h : id = 3
  · subst h
    exact Or.inr ⟨_, storedNoteB, rfl, rfl, _, _, rfl, rfl, rfl⟩
  · exact Or.inl (by simp [exampleStore, h])

theorem keys_newPayloadJSON (kept : GoSlice Recommendation) (raw : String) :
    (newPayloadJSON kept raw).keys =
      "courses" :: (if 0 < raw.length then ["scholarships"] else []) := by
  unfold newPayloadJSON JOut.keys
  by_cases h : 0 < raw.length <;> simp [h]

theorem storedField_of_key (stored : String) (h : "scholarships" ∈ storedKeys stored) :
    (storedField "scholarships" stored).isSome = true := by
  unfold storedKeys at h
  unfold storedField
  split at h
  · next ms hp =>
    simp only [List.mem_map] at h
    obtain ⟨m, hm, hk⟩ := h
    have hmem : m ∈ ms.filter (fun m => equalFold "scholarships" m.1) := by
      rw [List.mem_filter]
      refine ⟨hm, ?_⟩
      rw [hk]
      decide
    cases hl : (ms.filter (fun m => equalFold "scholarships" m.1)).getLast? with
    | none =>
      rw [List.getLast?_eq_none_iff] at hl
      rw [hl] at hmem
      cases hmem
    | some x => rfl
  · simp at h

/-! ## The claims on authentication, the inference client, the relay and the chat context -/

/-- C21: the middleware hands the request to the next handler if and only if the
`authorization` header, trimmed, has at least two white-space separated fields,
the first is `bearer` once lower-cased and `VerifyToken` accepts the second; the
next handler then finds the verified payload stored in the request; in every
other case the middleware answers 401 itself. -/
theorem authMiddlewareFiber_passes_iff (L : Lib)
    (VerifyToken : String → Except GoError token.Payload) (c : Ctx) :
    ((∃ next, authMiddlewareFiber L VerifyToken c = .next next) ↔
      ∃ authType accessToken rest payload,
        Fields (TrimSpace (c.Get "authorization")) = authType :: accessToken :: rest ∧
        L.ToLower authType = "bearer" ∧ VerifyToken accessToken = .ok payload) ∧
    (∀ next, authMiddlewareFiber L VerifyToken c = .next next →
      ∃ accessToken payload, (Fields (TrimSpace (c.Get "authorization")))[1]? = some accessToken ∧
        VerifyToken accessToken = .ok payload ∧ next = { c with Locals := some payload }) ∧
    ((¬ ∃ next, authMiddlewareFiber L VerifyToken c = .next next) →
      ∃ r, authMiddlewareFiber L VerifyToken c = .respond r ∧ r.status = 401) := by
  unfold authMiddlewareFiber
  simp only
  by_cases h0 : (TrimSpace (c.Get "authorization")).utf8ByteSize = 0
  · rw [if_pos h0]
    have hf : Fields (TrimSpace (c.Get "authorization")) = [] := by
      unfold Fields
      rw [utf8ByteSize_eq_zero _ h0]
      rfl
    rw [hf]
    refine ⟨⟨?_, ?_⟩, ?_, ?_⟩
    · rintro ⟨n, hn⟩; cases hn
    · rintro ⟨_, _, _, _, h, _⟩; cases h
    · intro n hn; cases hn
    · intro _; exact ⟨_, rfl, rfl⟩
  · rw [if_neg h0]
    cases hf : Fields (TrimSpace (c.Get "authorization")) with
    | nil =>
      refine ⟨⟨?_, ?_⟩, ?_, ?_⟩
      · rintro ⟨n, hn⟩; cases hn
      · rintro ⟨_, _, _, _, h, _⟩; cases h
      · intro n hn; cases hn
      · intro _; exact ⟨_, rfl, rfl⟩
    | cons a rest =>
      cases rest with
      | nil =>
        refine ⟨⟨?_, ?_⟩, ?_, ?_⟩
        · rintro ⟨n, hn⟩; cases hn
        · rintro ⟨_, _, _, _, h, _⟩; cases h
        · intro n hn; cases hn
        · intro _; exact ⟨_, rfl, rfl⟩
      | cons b rest2 =>
        simp only
        by_cases hb : L.ToLower a = "bearer"
        · rw [if_neg (not_not.mpr hb)]
          cases hv : VerifyToken b with
          | error e =>
            refine ⟨⟨?_, ?_⟩, ?_, ?_⟩
            · rintro ⟨n, hn⟩; cases hn
            · rintro ⟨_, _, _, _, h, _, h3⟩
              injection h with h1 h2
              injection h2 with h2 _
              rw [← h2, hv] at h3
              cases h3
            · intro n hn; cases hn
            · intro _; exact ⟨_, rfl, rfl⟩
          | ok p =>
            refine ⟨⟨?_, ?_⟩, ?_, ?_⟩
            · intro _; exact ⟨a, b, rest2, p, rfl, hb, hv⟩
            · intro _; exact ⟨_, rfl⟩
            · intro n hn
              refine ⟨b, p, by simp, hv, ?_⟩
              injection hn with hn
              exact hn.symm
            · intro h; exact absurd ⟨_, rfl⟩ h
        · rw [if_pos hb]
          refine ⟨⟨?_, ?_⟩, ?_, ?_⟩
          · rintro ⟨n, hn⟩; cases hn
          · rintro ⟨_, _, _, _, h, h2, _⟩
            injection h with h1 _
            rw [← h1] at h2
            exact absurd h2 hb
          · intro n hn; cases hn
          · intro _; exact ⟨_, rfl, rfl⟩

/-- C22 (counterexample): for an upstream response with status 300, which is not
2xx, and a body with one choice, `callOpenAIChat` returns the content of that
choice; and for a body that embeds an `error` object whose message is empty next
to a choice, it returns the content as well. -/
theorem callOpenAIChat_status_counterexample :
    (callOpenAIChat (fun _ _ => .response 300
        "\x7b\"choices\":[\x7b\"message\":\x7b\"content\":\"hello\"\x7d\x7d]\x7d")
      "sk-test" "" [⟨"user", "hi"⟩] false).1 = .ok "hello" ∧
    ¬ (200 ≤ 300 ∧ 300 < 300) ∧
    (callOpenAIChat (fun _ _ => .response 200
        "\x7b\"error\":\x7b\"type\":\"server_error\"\x7d,\"choices\":[\x7b\"message\":\x7b\"content\":\"hello\"\x7d\x7d]\x7d")
      "sk-test" "" [⟨"user", "hi"⟩] false).1 = .ok "hello" ∧
    ((DecodeStream decOpenAIChatResponse
        "\x7b\"error\":\x7b\"type\":\"server_error\"\x7d,\"choices\":[\x7b\"message\":\x7b\"content\":\"hello\"\x7d\x7d]\x7d"
        ⟨none, none⟩).1.Error).isSome = true :=
  ⟨rfl, by decide, rfl, by decide⟩

/-- C22 (amended): with an empty key `callOpenAIChat` returns the missing-key error
and makes no call; otherwise every request it sends carries the model, or
`gpt-4o-mini` when the model is empty; given an upstream response, it returns an
error when the status is 400 or above, when the body does not decode, when the
body embeds an error object with a non-empty message, or when there is no
choice, and in every other case exactly the message content of the first
choice. -/
theorem callOpenAIChat_outcome (http : String → openAIChatRequest → HttpResult)
    (apiKey model : String) (messages : List aiMessage) (expectJSON : Bool) :
    (apiKey = "" →
      callOpenAIChat http apiKey model messages expectJSON =
        (.error (.text "missing OpenAI API key"), [])) ∧
    (apiKey ≠ "" →
      (∀ call ∈ (callOpenAIChat http apiKey model messages expectJSON).2,
        ∃ req, call = .OpenAIChat apiKey req ∧
          req.Model = (if model = "" then "gpt-4o-mini" else model)) ∧
      ∀ status body,
        http apiKey ⟨if model = "" then "gpt-4o-mini" else model, messages, false,
          if expectJSON then some "json_object" else none⟩ = .response status body →
        ((400 ≤ status ∨ (DecodeStream decOpenAIChatResponse body ⟨none, none⟩).2 = true ∨
            (∃ e, (DecodeStream decOpenAIChatResponse body ⟨none, none⟩).1.Error = some e ∧
              e.Message ≠ "") ∨
            (DecodeStream decOpenAIChatResponse body ⟨none, none⟩).1.Choices.elems = []) →
          ∃ e, (callOpenAIChat http apiKey model messages expectJSON).1 = .error e) ∧
        (¬ (400 ≤ status ∨ (DecodeStream decOpenAIChatResponse body ⟨none, none⟩).2 = true ∨
            (∃ e, (DecodeStream decOpenAIChatResponse body ⟨none, none⟩).1.Error = some e ∧
              e.Message ≠ "") ∨
            (DecodeStream decOpenAIChatResponse body ⟨none, none⟩).1.Choices.elems = []) →
          (callOpenAIChat http apiKey model messages expectJSON).1 =
            .ok (((DecodeStream decOpenAIChatResponse body ⟨none, none⟩).1.Choices.elems.head?.map
              (fun ch => ch.Message.Content)).getD ""))) := by
  constructor
  · intro hk
    simp only [callOpenAIChat, hk, if_true]
  · intro hk
    constructor
    · intro call hc
      unfold callOpenAIChat at hc
      rw [if_neg hk] at hc
      simp only at hc
      generalize hreq : (⟨if model = "" then "gpt-4o-mini" else model, messages, false,
        if expectJSON then some "json_object" else none⟩ : openAIChatRequest) = reqBody at hc
      have hModel : reqBody.Model = (if model = "" then "gpt-4o-mini" else model) := by
        rw [← hreq]
      split at hc
      · simp at hc
      · simp only [List.mem_singleton] at hc
        exact ⟨_, hc, hModel⟩
      · repeat' split at hc
        all_goals
          simp only [List.mem_singleton] at hc
          exact ⟨_, hc, hModel⟩
    · intro status body hresp
      unfold callOpenAIChat
      rw [if_neg hk]
      simp only [hresp]
      by_cases hs : 400 ≤ status
      · rw [if_pos hs]
        exact ⟨fun _ => ⟨_, rfl⟩, fun h => absurd (Or.inl hs) h⟩
      · rw [if_neg hs]
        by_cases hd : (DecodeStream decOpenAIChatResponse body ⟨none, none⟩).2 = true
        · rw [if_pos hd]
          exact ⟨fun _ => ⟨_, rfl⟩, fun h => absurd (Or.inr (Or.inl hd)) h⟩
        · rw [if_neg hd]
          cases he : (DecodeStream decOpenAIChatResponse body ⟨none, none⟩).1.Error with
          | some e =>
            simp only
            by_cases hm : e.Message ≠ ""
            · rw [if_pos hm]
              exact ⟨fun _ => ⟨_, rfl⟩,
                fun h => absurd (Or.inr (Or.inr (Or.inl ⟨e, rfl, hm⟩))) h⟩
            · rw [if_neg hm]
              cases hc : (DecodeStream decOpenAIChatResponse body ⟨none, none⟩).1.Choices.elems with
              | nil =>
                exact ⟨fun _ => ⟨_, rfl⟩, fun h => absurd (Or.inr (Or.inr (Or.inr rfl))) h⟩
              | cons ch rest =>
                refine ⟨?_, fun _ => rfl⟩
                rintro (h | h | ⟨e2, h1, h2⟩ | h)
                · exact absurd h hs
                · exact absurd h hd
                · injection h1 with h1
                  rw [← h1] at h2
                  exact absurd h2 hm
                · cases h
          | none =>
            simp only
            cases hc : (DecodeStream decOpenAIChatResponse body ⟨none, none⟩).1.Choices.elems with
            | nil =>
              exact ⟨fun _ => ⟨_, rfl⟩, fun h => absurd (Or.inr (Or.inr (Or.inr rfl))) h⟩
            | cons ch rest =>
              refine ⟨?_, fun _ => rfl⟩
              rintro (h | h | ⟨e2, h1, h2⟩ | h)
              · exact absurd h hs
              · exact absurd h hd
              · cases h1
              · cases h

/-- C24: for upstream body lines that each end with a newline, the relay writes, in
upstream order, one event (`data: `, the escaped token, a blank line) for each
line with a token (data after the prefix `data: ` that decodes as a chunk whose
first choice has non-empty delta content) among the lines before the first line
whose data is `[DONE]`, the escaped token being the token with every newline
replaced by backslash and `n`, and then the sentinel; a line without the prefix
or whose data does not decode has no token, and a line without the prefix is
not the termination line. -/
theorem chatStreamRelay_events (status : Nat) (lines : List String)
    (h : ∀ line ∈ lines, line.data.getLast? = some '\n' ∧ '\n' ∉ line.data.dropLast) :
    chatStreamRelay (.response status (String.join lines)) =
      String.join (relayedEvents lines) ++ doneEvent ∧
    (∀ line, lineData line = none → lineToken line = none ∧ isTermination line = false) ∧
    (∀ line data, lineData line = some data → (Unmarshal decChunk data ⟨none⟩).2 = true →
      lineToken line = none) := by
  refine ⟨?_, ?_, ?_⟩
  · have h2 : ∀ line ∈ lines, ∃ s : List Char, line.data = s ++ ['\n'] ∧ '\n' ∉ s := by
      intro line hl
      exact ⟨line.data.dropLast, (List.dropLast_append_getLast? '\n' (h line hl).1).symm,
        (h line hl).2⟩
    unfold chatStreamRelay
    simp only
    rw [readLines_join lines h2, relayLines_eq]
  · intro line hd
    constructor
    · unfold lineToken
      rw [hd]
    · unfold isTermination
      rw [hd]
      rfl
  · intro line data hd herr
    unfold lineToken
    rw [hd]
    simp only [herr, if_true]

/-- Witness of C24: the lines `exampleLines`. -/
theorem chatStreamRelay_events_witness :
    (∀ line ∈ exampleLines, line.data.getLast? = some '\n' ∧ '\n' ∉ line.data.dropLast) ∧
    chatStreamRelay (.response 200 (String.join exampleLines)) =
      "data: Hi\\nyou\n\ndata: [DONE]\n\n" :=
  ⟨by decide, (chatStreamRelay_events 200 exampleLines (by decide)).1.trans (by decide)⟩

/-- C25: for the answer `respHalf`, an object whose only item has a string under
`match`, neither the object shape nor the bare array shape decodes without
error, yet the item list is not empty: it holds the item as far as the object
shape decoded it, and `createRecommendation` answers 200 and persists a payload
whose `courses` list has that entry. -/
theorem parseAIResult_half_decoded_item :
    (Unmarshal (decAIResult asciiLib) respHalf ⟨none⟩).2 = true ∧
    (Unmarshal (decSlice (decAIResultItem asciiLib) ⟨0, "", "", "", 0⟩) respHalf none).2 = true ∧
    (parseAIResult asciiLib respHalf).elems = [⟨2, "CS102", "Course 2", "fits", 0⟩] ∧
    (createRecommendation asciiLib (exampleServer "" completedOne respHalf)
      (exampleCtx "" "")).response.status = 200 ∧
    (createRecommendation asciiLib (exampleServer "" completedOne respHalf)
      (exampleCtx "" "")).writes.map
        (fun w => (writtenCourses w).map (List.map entryCourseID)) = [some [2]] ∧
    ([some [2]] : List (Option (List Int))) ≠ [some []] := by
  decide

/-- C26: the entries `createRecommendation` builds are those of the parsed items,
none dropped; the entry of an item has type `course`, title, code, match and
course id of the item, the rationale as description, and as link the canonical
link of a candidate with the id of the item, or blank when no candidate has
that id; when the candidate ids are distinct, it is the canonical link of the
candidate with that id. -/
theorem toRecommendation_entry (L : Lib) (candidates : List db.Course) (rawResponse : String) :
    (finalRecs L candidates rawResponse).Perm
      ((parseAIResult L rawResponse).elems.map (toRecommendation candidates)) ∧
    ∀ r : aiResultItem,
      (toRecommendation candidates r).Type_ = "course" ∧
      (toRecommendation candidates r).Title = r.Title ∧
      (toRecommendation candidates r).Code = r.Code ∧
      (toRecommendation candidates r).Match = r.Match ∧
      (toRecommendation candidates r).CourseID = r.CourseID ∧
      (toRecommendation candidates r).Description = r.Rationale ∧
      ((∃ c ∈ candidates, c.ID = r.CourseID ∧
          (toRecommendation candidates r).Link = canonicalLink c) ∨
        ((∀ c ∈ candidates, c.ID ≠ r.CourseID) ∧ (toRecommendation candidates r).Link = "")) ∧
      ((candidates.map (fun c => c.ID)).Nodup → ∀ c ∈ candidates, c.ID = r.CourseID →
        (toRecommendation candidates r).Link = canonicalLink c) := by
  refine ⟨sortSlice_perm _ _ _, ?_⟩
  intro r
  refine ⟨rfl, rfl, rfl, rfl, rfl, rfl, ?_, ?_⟩
  · show (∃ c ∈ candidates, c.ID = r.CourseID ∧
        (match candidates.find? (fun c => c.ID == r.CourseID && c.CourseLink.Valid) with
          | some c => c.CourseLink.Str
          | none => "") = canonicalLink c) ∨
      ((∀ c ∈ candidates, c.ID ≠ r.CourseID) ∧
        (match candidates.find? (fun c => c.ID == r.CourseID && c.CourseLink.Valid) with
          | some c => c.CourseLink.Str
          | none => "") = "")
    cases hf : candidates.find? (fun c => c.ID == r.CourseID && c.CourseLink.Valid) with
    | some c =>
      have hp := List.find?_some hf
      simp only [Bool.and_eq_true, beq_iff_eq] at hp
      exact Or.inl ⟨c, List.mem_of_find?_eq_some hf, hp.1, by simp [canonicalLink, hp.2]⟩
    | none =>
      by_cases hex : ∃ c ∈ candidates, c.ID = r.CourseID
      · obtain ⟨c, hc, hid⟩ := hex
        have hn := List.find?_eq_none.mp hf c hc
        simp only [Bool.and_eq_true, beq_iff_eq, not_and, Bool.not_eq_true] at hn
        exact Or.inl ⟨c, hc, hid, by simp [canonicalLink, hn hid]⟩
      · refine Or.inr ⟨fun c hc hid => hex ⟨c, hc, hid⟩, rfl⟩
  · intro hnd c hc hid
    show (match candidates.find? (fun c => c.ID == r.CourseID && c.CourseLink.Valid) with
          | some c => c.CourseLink.Str
          | none => "") = canonicalLink c
    cases hf : candidates.find? (fun c => c.ID == r.CourseID && c.CourseLink.Valid) with
    | some d =>
      have hp := List.find?_some hf
      simp only [Bool.and_eq_true, beq_iff_eq] at hp
      have hd := List.mem_of_find?_eq_some hf
      have heq : d = c :=
        List.inj_on_of_nodup_map hnd hd hc (hp.1.trans hid.symm)
      subst heq
      simp [canonicalLink, hp.2]
    | none =>
      have hn := List.find?_eq_none.mp hf c hc
      simp only [Bool.and_eq_true, beq_iff_eq, not_and, Bool.not_eq_true] at hn
      simp [canonicalLink, hn hid]

/-- C27 (counterexample): the payload `storedEmptyCourses` has the `courses` value
`[]`; the context assembled for it has no `courses` block, only the block of the
remaining key `note`. -/
theorem payloadContext_short_courses_counterexample :
    (match parseDoc storedEmptyCourses with
      | some (.obj ms) => lastRaw "courses" ms
      | _ => none) = some "[]" ∧
    payloadContext asciiLib storedEmptyCourses =
      "\n\n[OTHER RECOMMENDATION DATA JSON]\n\x7b\"note\":\"x\"\x7d\n" ∧
    (systemContext asciiLib (exampleServer storedEmptyCourses "" "")
      (chatCtx "3" [⟨"user", "hi"⟩]) ⟨"alice"⟩).1 =
      chatPersona ++ "\n\n[FULL ACADEMIC CONTEXT INJECTED BELOW]\n" ++
        "\n\n[USER ACADEMIC TRANSCRIPT TEXT]\nCS101 Introduction to Programming, grade 5\n" ++
        "\n\n[OTHER RECOMMENDATION DATA JSON]\n\x7b\"note\":\"x\"\x7d\n" := by
  decide

/-- C27 (amended): when two stores answer alike except that the payloads of the
recommendations they return, both JSON objects, differ in the members under
`scholarships`, the system context `chatStream` assembles is the same; and for
every payload that is a JSON object the text added for it is the source text of
the last `courses` member under its label, when that text is longer than two
bytes, followed by the members other than `courses` and `scholarships`
serialized again under their label, when there is any. -/
theorem chatStream_context_ignores_scholarships (L : Lib) (s t : Server) (c : Ctx)
    (payload : token.Payload) (h : StoresAgreeButScholarships s.store t.store) :
    (systemContext L s c payload).1 = (systemContext L t c payload).1 ∧
    ∀ (p : String) (ms : List (String × String × Json)), parseDoc p = some (.obj ms) →
      payloadContext L p = coursesBlock ms ++ otherBlock L ms := by
  refine ⟨?_, fun p ms hp => payloadContext_object L p ms hp⟩
  unfold systemContext
  simp only
  rw [recommendationContext_same L s t c h, scholarshipContext_same L s t payload h.2.1]

/-- Witness of C27 (amended): the payloads `storedNoteA` and `storedNoteB`. -/
theorem chatStream_context_ignores_scholarships_witness :
    StoresAgreeButScholarships (exampleServer storedNoteA "" "").store
      (exampleServer storedNoteB "" "").store ∧
    storedNoteA ≠ storedNoteB ∧
    (systemContext asciiLib (exampleServer storedNoteA "" "") (chatCtx "3" [⟨"user", "hi"⟩])
        ⟨"alice"⟩).1 =
      (systemContext asciiLib (exampleServer storedNoteB "" "") (chatCtx "3" [⟨"user", "hi"⟩])
        ⟨"alice"⟩).1 ∧
    ∀ (p : String) (ms : List (String × String × Json)), parseDoc p = some (.obj ms) →
      payloadContext asciiLib p = coursesBlock ms ++ otherBlock asciiLib ms :=
  ⟨exampleStoresAgree, by decide,
    chatStream_context_ignores_scholarships asciiLib (exampleServer storedNoteA "" "")
      (exampleServer storedNoteB "" "") (chatCtx "3" [⟨"user", "hi"⟩]) ⟨"alice"⟩
      exampleStoresAgree⟩

/-- C28: when the recommendation reference is not a valid integer or the store has
no recommendation for it, the system context of `chatStream` is the persona
followed by the formatted list of the recent scholarships of the caller when
there are any, and the persona alone otherwise; the handler streams, and that
context is the first message sent upstream. -/
theorem chatStream_unresolved_reference (L : Lib) (s : Server) (c : Ctx)
    (payload : token.Payload) (messages : List ChatMessage)
    (h : ChatRequest L s c payload messages) (hRef : UnresolvedReference s c) :
    (systemContext L s c payload).1 =
      chatPersona ++
        (match s.store.ListRecentScholarshipsByUser ⟨payload.Username, 10⟩ with
          | .ok rows =>
            if rows.elems ≠ [] then
              "\n\n=== AVAILABLE SCHOLARSHIP OPPORTUNITIES (FROM DATABASE) ===\n" ++
              "Use this list if the user asks about financial aid, funding, or scholarships.\n\n" ++
              scholarshipLines L 0 rows.elems
            else ""
          | .error _ => "") ∧
    ∃ text req, (chatStream L s c).reply = .stream text ∧
      upstreamRequest (chatStream L s c).calls = some req ∧
      req.Messages.head? = some ⟨"system", (systemContext L s c payload).1⟩ := by
  have hreco : (recommendationContext L s c).1 = "" := by
    unfold recommendationContext
    simp only
    rcases hRef with hp | ⟨id, e, hp, hg⟩
    · rw [hp]
      split <;> rfl
    · rw [hp]
      simp only [hg]
      split <;> rfl
  constructor
  · unfold systemContext
    simp only [hreco, String.append_empty]
    congr 1
    unfold scholarshipContext
    simp only
    cases s.store.ListRecentScholarshipsByUser ⟨payload.Username, 10⟩ with
    | error e => rfl
    | ok rows =>
      simp only
      by_cases hr : rows.elems = []
      · simp [hr]
      · have : 0 < rows.elems.length := List.length_pos.mpr hr
        simp [hr, this]
  · obtain ⟨body, h1, h2, h3, h4, h5⟩ := h
    subst h3
    have hlen : ¬ body.elems.length = 0 := by simpa [List.length_eq_zero] using h4
    refine ⟨chatStreamRelay (s.openai s.config.OpenAIAPIKey
      ⟨s.config.OpenAIModel, ⟨"system", (systemContext L s c payload).1⟩ ::
        appendMessages L body.elems, true, none⟩),
      ⟨s.config.OpenAIModel, ⟨"system", (systemContext L s c payload).1⟩ ::
        appendMessages L body.elems, true, none⟩, ?_, ?_, rfl⟩
    · simp only [chatStream, h1, h2, hlen, if_false]
    · simp only [chatStream, h1, h2, hlen, if_false]
      simp [upstreamRequest]

/-- Witness of C28: the references `abc` and `99` with the store `scholarStore`,
and the reference `abc` with the store `accentStore`, whose descriptions are cut
after 200 bytes: 100 times `é`, and 66 times `€` followed by the two bytes left
of the cut character. -/
theorem chatStream_unresolved_reference_witness :
    ChatRequest asciiLib (serverWithStore scholarStore "" "") (chatCtx "abc" [⟨"user", "hi"⟩])
      ⟨"alice"⟩ [⟨"user", "hi"⟩] ∧
    UnresolvedReference (serverWithStore scholarStore "" "") (chatCtx "abc" [⟨"user", "hi"⟩]) ∧
    UnresolvedReference (serverWithStore scholarStore "" "") (chatCtx "99" [⟨"user", "hi"⟩]) ∧
    (systemContext asciiLib (serverWithStore scholarStore "" "")
      (chatCtx "abc" [⟨"user", "hi"⟩]) ⟨"alice"⟩).1 =
      chatPersona ++
        "\n\n=== AVAILABLE SCHOLARSHIP OPPORTUNITIES (FROM DATABASE) ===\n" ++
        "Use this list if the user asks about financial aid, funding, or scholarships.\n\n" ++
        "1. Grant A (Match: 80%)\n   Context: for students\n   Link: https://a.org\n\n" ∧
    (systemContext asciiLib (serverWithStore accentStore "" "")
      (chatCtx "abc" [⟨"user", "hi"⟩]) ⟨"alice"⟩).1 =
      chatPersona ++
        "\n\n=== AVAILABLE SCHOLARSHIP OPPORTUNITIES (FROM DATABASE) ===\n" ++
        "Use this list if the user asks about financial aid, funding, or scholarships.\n\n" ++
        "1. Bourse (Match: 80%)\n   Context: " ++ String.mk (List.replicate 100 'é') ++
        "...\n   Link: https://b.org\n\n" ++
        "2. Euro (Match: 0%)\n   Context: " ++
        String.mk (List.replicate 66 '€' ++ [strayByte 0xE2, strayByte 0x82]) ++ "...\n\n" ∧
    ∃ text req, (chatStream asciiLib (serverWithStore scholarStore "" "")
        (chatCtx "99" [⟨"user", "hi"⟩])).reply = .stream text ∧
      upstreamRequest (chatStream asciiLib (serverWithStore scholarStore "" "")
        (chatCtx "99" [⟨"user", "hi"⟩])).calls = some req ∧
      req.Messages.head? = some ⟨"system", (systemContext asciiLib
        (serverWithStore scholarStore "" "") (chatCtx "99" [⟨"user", "hi"⟩]) ⟨"alice"⟩).1⟩ :=
  ⟨⟨_, rfl, rfl, rfl, by decide, fun e h => by cases h⟩, Or.inl (by decide),
    Or.inr ⟨99, .ErrNoRows, by decide, rfl⟩,
    ((chatStream_unresolved_reference asciiLib (serverWithStore scholarStore "" "")
      (chatCtx "abc" [⟨"user", "hi"⟩]) ⟨"alice"⟩ [⟨"user", "hi"⟩]
      ⟨_, rfl, rfl, rfl, by decide, fun e h => by cases h⟩ (Or.inl (by decide))).1).trans
        (by decide),
    ((chatStream_unresolved_reference asciiLib (serverWithStore accentStore "" "")
      (chatCtx "abc" [⟨"user", "hi"⟩]) ⟨"alice"⟩ [⟨"user", "hi"⟩]
      ⟨_, rfl, rfl, rfl, by decide, fun e h => by cases h⟩ (Or.inl (by decide))).1).trans
        (by decide),
    (chatStream_unresolved_reference asciiLib (serverWithStore scholarStore "" "")
      (chatCtx "99" [⟨"user", "hi"⟩]) ⟨"alice"⟩ [⟨"user", "hi"⟩]
      ⟨_, rfl, rfl, rfl, by decide, fun e h => by cases h⟩
      (Or.inr ⟨99, .ErrNoRows, by decide, rfl⟩)).2⟩

/-- C29: every payload written by `deleteCourseFromRecommendation` has the key
`courses`, then the key `scholarships` exactly when the stored payload has a
member selecting that field, which is the case whenever it has the key
`scholarships`, and no other key: every other key of the stored payload is
absent from it. -/
theorem deleteCourse_written_keys (L : Lib) (s : Server) (c : Ctx)
    (recoID courseID : Int) (stored : String) (pm : payloadMap)
    (h : EditRequest L s c recoID courseID stored pm) :
    ∀ w ∈ (deleteCourseFromRecommendation L s c).writes,
      w.keys = "courses" ::
        (if (storedField "scholarships" stored).isSome then ["scholarships"] else []) ∧
      ("scholarships" ∈ storedKeys stored → "scholarships" ∈ w.keys) ∧
      ∀ k ∈ storedKeys stored, k ≠ "courses" → k ≠ "scholarships" → k ∉ w.keys := by
  intro w hw
  rw [deleteCourse_writes L s c recoID courseID stored pm h] at hw
  have hs : pm.Scholarships = (storedField "scholarships" stored).getD "" := by
    obtain ⟨_, _, _, _, _, _, _, _, hdec⟩ := h
    have := unmarshal_payload_scholarships L stored
    rw [hdec] at this
    exact this
  have hkeys : w.keys = "courses" ::
      (if (storedField "scholarships" stored).isSome then ["scholarships"] else []) := by
    split at hw
    · simp only [List.mem_singleton] at hw
      subst hw
      rw [keys_newPayloadJSON, hs]
      cases hf : storedField "scholarships" stored with
      | none => simp
      | some raw =>
        have := storedField_nonempty _ _ _ hf
        simp [this]
    · simp at hw
  refine ⟨hkeys, ?_, ?_⟩
  · intro hk
    rw [hkeys, storedField_of_key stored hk]
    simp
  · intro k _ h1 h2 hmem
    rw [hkeys] at hmem
    split at hmem
    · simp only [List.mem_cons, List.mem_singleton, List.not_mem_nil, or_false] at hmem
      rcases hmem with rfl | rfl
      · exact h1 rfl
      · exact h2 rfl
    · simp only [List.mem_cons, List.not_mem_nil, or_false] at hmem
      exact h1 hmem

/-- Witness of C29: the stored payload `storedExtra` with the further key
`generated_by`. -/
theorem deleteCourse_written_keys_witness :
    EditRequest asciiLib (exampleServer storedExtra "" "") (exampleCtx "3" "7") 3 7 storedExtra
      (Unmarshal (decPayloadMap asciiLib) storedExtra ⟨none, ""⟩).1 ∧
    storedKeys storedExtra = ["courses", "scholarships", "generated_by"] ∧
    (deleteCourseFromRecommendation asciiLib (exampleServer storedExtra "" "")
      (exampleCtx "3" "7")).writes.map JOut.keys = [["courses", "scholarships"]] ∧
    ∀ w ∈ (deleteCourseFromRecommendation asciiLib (exampleServer storedExtra "" "")
        (exampleCtx "3" "7")).writes,
      w.keys = "courses" ::
        (if (storedField "scholarships" storedExtra).isSome then ["scholarships"] else []) ∧
      ("scholarships" ∈ storedKeys storedExtra → "scholarships" ∈ w.keys) ∧
      ∀ k ∈ storedKeys storedExtra, k ≠ "courses" → k ≠ "scholarships" → k ∉ w.keys :=
  ⟨exampleEdit storedExtra "7" 7 rfl (by decide), by decide, by decide,
    deleteCourse_written_keys asciiLib (exampleServer storedExtra "" "") (exampleCtx "3" "7") 3 7
      storedExtra _ (exampleEdit storedExtra "7" 7 rfl (by decide))⟩

/-- C30: the escaping of the relay yields a text without newline for every token,
but it is not injective: the tokens `a`, newline, `b` and `a`, backslash, `n`,
`b` differ and produce the same outward event, so no decoder recovers every
token from its event. -/
theorem escapeNewlines_not_injective :
    (∀ token : String, '\n' ∉ escapeNewlines token.data) ∧
    (∃ t u : String, t ≠ u ∧ '\n' ∈ t.data ∧ '\n' ∉ u.data ∧
      u.data = escapeNewlines t.data ∧ tokenEvent t = tokenEvent u) ∧
    ¬ ∃ decode : String → String, ∀ token : String, decode (tokenEvent token) = token := by
  refine ⟨fun token => escapeNewlines_no_newline token.data, ?_, ?_⟩
  · exact ⟨"a\nb", "a\\nb", by decide, by decide, by decide, by decide, by decide⟩
  · rintro ⟨decode, h⟩
    have h1 := h "a\nb"
    have h2 := h "a\\nb"
    have he : tokenEvent "a\nb" = tokenEvent "a\\nb" := by decide
    rw [he, h2] at h1
    exact absurd h1 (by decide)

/-! ## The library model at sample inputs -/

theorem nestingDepth_le (inStr esc : Bool) (depth : Nat) : ∀ (cs : List Char) (deepest : Nat),
    deepest ≤ nestingDepth inStr esc depth deepest cs := by
  intro cs
  induction cs generalizing inStr esc depth with
  | nil => intro deepest; simp [nestingDepth]
  | cons c cs ih =>
    intro deepest
    unfold nestingDepth
    split
    · exact ih _ _ _ _
    · split
      · exact ih _ _ _ _
      · split
        · exact le_trans (le_max_left _ _) (ih _ _ _ _)
        · split
          · exact ih _ _ _ _
          · exact ih _ _ _ _

theorem nestingDepth_open (rest : List Char) : ∀ (n depth deepest : Nat), depth ≤ deepest →
    nestingDepth false false depth deepest (List.replicate n '[' ++ rest) =
      nestingDepth false false (depth + n) (max deepest (depth + n)) rest
  | 0, depth, deepest, h => by
    rw [show max deepest (depth + 0) = deepest from by omega]
    rfl
  | n + 1, depth, deepest, h => by
    rw [List.replicate_succ, List.cons_append]
    conv_lhs => unfold nestingDepth
    rw [if_neg (by decide), if_neg (by decide), if_pos (by decide),
      nestingDepth_open rest n (depth + 1) (max deepest (depth + 1)) (by omega),
      show depth + 1 + n = depth + (n + 1) from by omega,
      show max (max deepest (depth + 1)) (depth + (n + 1)) = max deepest (depth + (n + 1)) from
        by omega]

/-- A document nested 10001 deep is rejected. -/
theorem parseDoc_too_deep :
    parseDoc (String.mk (List.replicate 10001 '[' ++ List.replicate 10001 ']')) = none := by
  unfold parseDoc
  rw [if_pos]
  show maxNestingDepth <
    nestingDepth false false 0 0 (List.replicate 10001 '[' ++ List.replicate 10001 ']')
  rw [nestingDepth_open _ _ _ _ (Nat.le_refl 0)]
  refine lt_of_lt_of_le ?_ (nestingDepth_le _ _ _ _ _)
  decide

/-- Lengths and cuts count bytes; a cut inside a character leaves stray bytes,
which `json.Marshal` writes as `\\ufffd`. -/
theorem byte_cut_examples :
    truncate "éé" 2 = "é...(truncated)" ∧
    truncate "éé" 3 = String.mk ['é', strayByte 0xC3] ++ "...(truncated)" ∧
    truncate "éé" 4 = "éé" ∧
    (promptCourse ⟨1, "C", "N", ⟨String.mk (List.replicate 100 'é'), true⟩, ⟨"", false⟩⟩).Desc =
      String.mk (List.replicate 75 'é') ++ "..." ∧
    asciiLib.MarshalString (truncate "éé" 3) = "\"é\\ufffd...(truncated)\"" := by
  decide

/-- A stream decoder takes the first value and does not look at what follows. -/
theorem decodeStream_examples :
    DecodeStream decBraveData "nullx" ⟨⟨none⟩⟩ = (⟨⟨none⟩⟩, false) ∧
    DecodeStream (decSlice decString "") "[\"a\"]]" none = (some ["a"], false) ∧
    (DecodeStream decInt64 "01" 5) = (0, false) ∧
    (DecodeStream decInt64 "1.x" 5) = (5, true) := by
  decide

/-- The reference library rounds literals to `float64` and formats with ties to
even. -/
theorem parseFloat64_examples :
    asciiLib.ParseFloat "9007199254740993" = some 9007199254740992 ∧
    asciiLib.ParseFloat "85.5" = some (mkRat 171 2) ∧
    asciiLib.ParseFloat "1e2" = some 100 ∧
    asciiLib.FormatFixed0 (mkRat 171 2) = "86" ∧
    asciiLib.FormatFixed0 (mkRat 5 2) = "2" := by
  decide

end EduSphere
